import Mathlib

/-!
# Build pipeline of gnome-builder: phase ordering, attachment and phase requests

A shallow embedding of `libide/buildsystem/ide-build-pipeline.c` (with the
phase flags of `ide-build-pipeline.h`), of the pause, query and logging
functions of `ide-build-stage.c`, of the flags set by
`ide-build-stage-launcher.c` and of the attachments made by
`plugins/autotools/ide-autotools-pipeline-addin.c`, followed by the
properties established about them.

Conventions of the embedding:

* the `GArray` of `PipelineEntry` is a `List PipelineEntry`, index `0` first;
* `guint` values are natural numbers, `++` on the 32-bit `seqnum` is taken
  modulo `2 ^ 32`; `gint` values are integers, and the subtraction of two
  priorities and the `++` on the cursor `position` at the start of a tick are
  reduced to the two's-complement 32-bit range;
* the cursor is compared with the length of the array as unsigned and used as
  an index as signed, which agree on arrays of fewer than `2 ^ 31` entries:
  the statements that follow the cursor through an arbitrary array have that
  bound as a hypothesis;
* the read of `ide_build_pipeline_release_transients` behind the last entry is
  a fault of the process when the array has no memory yet, and otherwise
  either a fault or of no effect, as a parameter `stray` of the function
  tells; a run records whether the process faulted, and its state is then the
  one at the fault;
* an `IdeBuildPhase` value is the natural number of its bit pattern;
* a failed `g_assert_not_reached` is the result `none`;
* a `g_return_if_fail` / `g_return_val_if_fail` guard that does not hold makes
  the function return at once, the state untouched;
* the pipeline holds the only reference to an attached stage, so the flags of
  the stage object are kept inside its entry;
* the pause counter `n_pause` of a stage is a `gint` that `g_atomic_int_inc`
  lets wrap around;
* the handlers of the signal `query` of a stage are the list of the calls they
  make on the stage, a stream is the list of its lines, and a `GError` is its
  domain and code.
-/

namespace IdeBuild

/-! ## Phase flags (`ide-build-pipeline.h`) -/

/-- The macro `IDE_BUILD_PHASE_MASK`: the low 24 bits, which hold the basic phase. -/
def IDE_BUILD_PHASE_MASK : Nat := 0xFFFFFF

/-- The enumerator `IDE_BUILD_PHASE_NONE`. -/
def IDE_BUILD_PHASE_NONE : Nat := 0

/-- The enumerator `IDE_BUILD_PHASE_PREPARE`, `1 << 0`. -/
def IDE_BUILD_PHASE_PREPARE : Nat := 1 <<< 0

/-- The enumerator `IDE_BUILD_PHASE_DOWNLOADS`, `1 << 1`. -/
def IDE_BUILD_PHASE_DOWNLOADS : Nat := 1 <<< 1

/-- The enumerator `IDE_BUILD_PHASE_DEPENDENCIES`, `1 << 2`. -/
def IDE_BUILD_PHASE_DEPENDENCIES : Nat := 1 <<< 2

/-- The enumerator `IDE_BUILD_PHASE_AUTOGEN`, `1 << 3`. -/
def IDE_BUILD_PHASE_AUTOGEN : Nat := 1 <<< 3

/-- The enumerator `IDE_BUILD_PHASE_CONFIGURE`, `1 << 4`. -/
def IDE_BUILD_PHASE_CONFIGURE : Nat := 1 <<< 4

/-- The enumerator `IDE_BUILD_PHASE_BUILD`, `1 << 6` (the header skips bit 5). -/
def IDE_BUILD_PHASE_BUILD : Nat := 1 <<< 6

/-- The enumerator `IDE_BUILD_PHASE_INSTALL`, `1 << 7`. -/
def IDE_BUILD_PHASE_INSTALL : Nat := 1 <<< 7

/-- The enumerator `IDE_BUILD_PHASE_EXPORT`, `1 << 8`. -/
def IDE_BUILD_PHASE_EXPORT : Nat := 1 <<< 8

/-- The enumerator `IDE_BUILD_PHASE_FINAL`, `1 << 9`. -/
def IDE_BUILD_PHASE_FINAL : Nat := 1 <<< 9

/-- The enumerator `IDE_BUILD_PHASE_BEFORE`, `1 << 28`. -/
def IDE_BUILD_PHASE_BEFORE : Nat := 1 <<< 28

/-- The enumerator `IDE_BUILD_PHASE_AFTER`, `1 << 29`. -/
def IDE_BUILD_PHASE_AFTER : Nat := 1 <<< 29

/-- The enumerator `IDE_BUILD_PHASE_FINISHED`, `1 << 30`. -/
def IDE_BUILD_PHASE_FINISHED : Nat := 1 <<< 30

/-- The enumerator `IDE_BUILD_PHASE_FAILED`, `1 << 31`. -/
def IDE_BUILD_PHASE_FAILED : Nat := 1 <<< 31

/-- The macro `IDE_BUILD_PHASE_WHENCE_MASK`: `BEFORE | AFTER`. -/
def IDE_BUILD_PHASE_WHENCE_MASK : Nat :=
  IDE_BUILD_PHASE_BEFORE ||| IDE_BUILD_PHASE_AFTER

/-- The `values` table of the `GFlagsClass` registered for `IdeBuildPhase`
(`klass->values`, `klass->n_values` entries). The table is generated from the
enumeration of `ide-build-pipeline.h`, one row per enumerator in declaration
order; only the `value` column is read by the pipeline. -/
def ide_build_phase_values : List Nat :=
  [IDE_BUILD_PHASE_NONE, IDE_BUILD_PHASE_PREPARE, IDE_BUILD_PHASE_DOWNLOADS,
   IDE_BUILD_PHASE_DEPENDENCIES, IDE_BUILD_PHASE_AUTOGEN, IDE_BUILD_PHASE_CONFIGURE,
   IDE_BUILD_PHASE_BUILD, IDE_BUILD_PHASE_INSTALL, IDE_BUILD_PHASE_EXPORT,
   IDE_BUILD_PHASE_FINAL, IDE_BUILD_PHASE_BEFORE, IDE_BUILD_PHASE_AFTER,
   IDE_BUILD_PHASE_FINISHED, IDE_BUILD_PHASE_FAILED]

/-! ## Data model -/

/-- A call that a handler of the signal `query` of a stage makes on the stage
while the signal is emitted: `ide_build_stage_pause`,
`ide_build_stage_unpause` or `ide_build_stage_set_completed`. -/
inductive StageAction where
  /-- A call of `ide_build_stage_pause`. -/
  | pause
  /-- A call of `ide_build_stage_unpause`. -/
  | unpause
  /-- A call of `ide_build_stage_set_completed`. -/
  | set_completed (completed : Bool)
deriving DecidableEq, Repr

/-- The private data of an `IdeBuildStage` (`IdeBuildStagePrivate`): whether a
log observer is installed, whether an execute is queued behind a pause, the
pause counter and the two flag bits; and the handlers connected to the signal
`query` of the stage, as the calls they make on the stage. -/
structure IdeBuildStage where
  /-- Whether `observer` is set. -/
  observer : Bool := false
  /-- Whether `queued_execute` holds a task. -/
  queued_execute : Bool := false
  /-- The pause counter `n_pause`. -/
  n_pause : Int := 0
  /-- The bit `completed`. -/
  completed : Bool := false
  /-- The bit `transient`. -/
  transient : Bool := false
  /-- The calls made on the stage by the handlers of its signal `query`. -/
  query_handlers : List StageAction := []
deriving DecidableEq, Repr

/-- The struct `PipelineEntry`. -/
structure PipelineEntry where
  /-- The handle `id` (`guint`). -/
  id : Nat
  /-- The phase flags given at attachment. -/
  phase : Nat
  /-- The priority (`gint`). -/
  priority : Int
  /-- The attached stage. -/
  stage : IdeBuildStage
deriving DecidableEq, Repr

/-- The fields of `struct _IdeBuildPipeline` that the pipeline's operations on
its entries read or write. -/
structure IdeBuildPipeline where
  /-- The array `pipeline` of entries. -/
  pipeline : List PipelineEntry
  /-- The cursor `position` (`gint`). -/
  position : Int
  /-- The mask `requested_mask`. -/
  requested_mask : Nat
  /-- The counter `seqnum` (`guint`). -/
  seqnum : Nat
  /-- The bit `failed`. -/
  failed : Bool
  /-- Whether `pipeline->data` points to memory: `g_array_new` leaves it
  `NULL`, the first entry appended allocates it, and removing entries does not
  free it. -/
  allocated : Bool := true
deriving DecidableEq, Repr

/-- The pipeline after `ide_build_pipeline_init` on zeroed instance memory:
no entries and no memory for entries yet, `position = -1`, everything else
zero. -/
def ide_build_pipeline_init : IdeBuildPipeline :=
  { pipeline := [], position := -1, requested_mask := 0, seqnum := 0, failed := false,
    allocated := false }

/-! ## Machine arithmetic -/

/-- Reduction of an integer to the range of a 32-bit `gint`
(two's complement), applied to the result of a `gint` subtraction. -/
def wrap_gint (x : Int) : Int :=
  (x + 2147483648) % 4294967296 - 2147483648

/-- The successor of a `guint` counter (`++` on 32 bits). -/
def guint_incr (n : Nat) : Nat :=
  (n + 1) % 4294967296

/-! ## The comparator -/

/-- The function `pipeline_entry_compare`. The difference of the two masked
phases is a difference of two 24-bit values and cannot leave the `gint`
range. The result `none` is the `g_assert_not_reached` branch. -/
def pipeline_entry_compare (entry_a entry_b : PipelineEntry) : Option Int :=
  let ret : Int :=
    ((entry_a.phase &&& IDE_BUILD_PHASE_MASK : Nat) : Int)
      - ((entry_b.phase &&& IDE_BUILD_PHASE_MASK : Nat) : Int)
  if ret = 0 then
    let whence_a := entry_a.phase &&& IDE_BUILD_PHASE_WHENCE_MASK
    let whence_b := entry_b.phase &&& IDE_BUILD_PHASE_WHENCE_MASK
    if whence_a ≠ whence_b then
      if whence_a = IDE_BUILD_PHASE_BEFORE then some (-1)
      else if whence_b = IDE_BUILD_PHASE_BEFORE then some 1
      else if whence_a = 0 then some (-1)
      else if whence_b = 0 then some 1
      else none
    else some (wrap_gint (entry_a.priority - entry_b.priority))
  else some ret

/-! ## Sorting the array (GLib) -/

/-- The merge loop of GLib's `msort_with_tmp` (`glib/gqsort.c`): while both
runs are non-empty the head of the first run is taken when
`cmp (b1, b2) <= 0` and the head of the second run otherwise; what is left of
either run follows. The first argument bounds the number of iterations and is
the total length of the two runs. -/
def msort_merge {α : Type} (cmp : α → α → Option Int) :
    Nat → List α → List α → Option (List α)
  | 0, b1, b2 => some (b1 ++ b2)
  | _ + 1, [], b2 => some b2
  | _ + 1, b1, [] => some b1
  | fuel + 1, x :: b1, y :: b2 =>
    match cmp x y with
    | none => none
    | some c =>
      if c ≤ 0 then (msort_merge cmp fuel b1 (y :: b2)).map (fun r => x :: r)
      else (msort_merge cmp fuel (x :: b1) b2).map (fun r => y :: r)

/-- GLib's `msort_with_tmp`: an array of `n <= 1` elements is left alone;
otherwise the first `n1 = n / 2` and the last `n2 = n - n1` elements are
sorted on their own and merged. The first argument bounds the recursion depth. -/
def msort_with_tmp {α : Type} (cmp : α → α → Option Int) :
    Nat → List α → Option (List α)
  | 0, b => some b
  | fuel + 1, b =>
    if b.length ≤ 1 then some b
    else
      let n1 := b.length / 2
      match msort_with_tmp cmp fuel (b.take n1), msort_with_tmp cmp fuel (b.drop n1) with
      | some b1, some b2 => msort_merge cmp (b1.length + b2.length) b1 b2
      | _, _ => none

/-- GLib's `g_array_sort` (`glib/garray.c`), which since GLib 2.32 calls
`g_qsort_with_data`, a merge sort (`msort_with_tmp`), so that equal elements
keep their order. A comparison that aborts aborts the sort. -/
def g_array_sort {α : Type} (cmp : α → α → Option Int) (array : List α) :
    Option (List α) :=
  msort_with_tmp cmp array.length array

/-! ## Attachment, detachment, requests and invalidation -/

/-- The function `ide_build_pipeline_connect`; the result is the returned id
and the pipeline afterwards. The two `g_return_val_if_fail` guards on the
phase come first, then the test of `position`, then the search of the flags
table for the masked phase. On a match the entry gets `id = ++seqnum`, is
appended, which allocates the memory of the array if there is none, and the
array is sorted; the stage gets the pipeline's log observer. -/
def ide_build_pipeline_connect (self : IdeBuildPipeline) (phase : Nat) (priority : Int)
    (stage : IdeBuildStage) : Option (Nat × IdeBuildPipeline) :=
  if phase &&& IDE_BUILD_PHASE_MASK = IDE_BUILD_PHASE_NONE then some (0, self)
  else if ¬ (phase &&& IDE_BUILD_PHASE_WHENCE_MASK = 0 ∨
      phase &&& IDE_BUILD_PHASE_WHENCE_MASK = IDE_BUILD_PHASE_BEFORE ∨
      phase &&& IDE_BUILD_PHASE_WHENCE_MASK = IDE_BUILD_PHASE_AFTER) then some (0, self)
  else if self.position ≠ -1 then some (0, self)
  else
    match ide_build_phase_values.find? (fun value => phase &&& IDE_BUILD_PHASE_MASK == value) with
    | some _ =>
      let seqnum := guint_incr self.seqnum
      let entry : PipelineEntry :=
        { id := seqnum, phase := phase, priority := priority,
          stage := { stage with observer := true } }
      match g_array_sort pipeline_entry_compare (self.pipeline ++ [entry]) with
      | some array =>
        some (entry.id, { self with seqnum := seqnum, pipeline := array, allocated := true })
      | none => none
    | none => some (0, self)

/-- The loop of `ide_build_pipeline_disconnect`: the first entry whose id is
`stage_id` is removed and the loop is left. -/
def disconnect_loop (stage_id : Nat) : List PipelineEntry → List PipelineEntry
  | [] => []
  | entry :: rest =>
    if entry.id = stage_id then rest else entry :: disconnect_loop stage_id rest

/-- The function `ide_build_pipeline_disconnect`; `stage_id != 0` is a
`g_return_if_fail` guard. -/
def ide_build_pipeline_disconnect (self : IdeBuildPipeline) (stage_id : Nat) :
    IdeBuildPipeline :=
  if stage_id = 0 then self
  else { self with pipeline := disconnect_loop stage_id self.pipeline }

/-- The function `ide_build_stage_set_completed` on the stage of an entry. -/
def entry_set_completed (entry : PipelineEntry) (completed : Bool) : PipelineEntry :=
  { entry with stage := { entry.stage with completed := completed } }

/-- The function `ide_build_pipeline_invalidate_phase`. -/
def ide_build_pipeline_invalidate_phase (self : IdeBuildPipeline) (phases : Nat) :
    IdeBuildPipeline :=
  { self with
    pipeline := self.pipeline.map (fun entry =>
      if (entry.phase &&& IDE_BUILD_PHASE_MASK) &&& phases ≠ 0
      then entry_set_completed entry false else entry) }

/-- The function `ide_build_pipeline_request_phase`: the guard on the masked
phase, the masking, the test of `position`, then the search of the flags
table; on a match `requested_mask |= phase | (phase - 1)`. -/
def ide_build_pipeline_request_phase (self : IdeBuildPipeline) (phase : Nat) :
    IdeBuildPipeline :=
  if phase &&& IDE_BUILD_PHASE_MASK = IDE_BUILD_PHASE_NONE then self
  else
    let phase := phase &&& IDE_BUILD_PHASE_MASK
    if self.position ≠ -1 then self
    else
      match ide_build_phase_values.find? (fun value => phase == value) with
      | some _ => { self with requested_mask := self.requested_mask ||| (phase ||| (phase - 1)) }
      | none => self

/-! ## Stages (`ide-build-stage.c`) -/

/-- What a call on a stage lets happen. -/
inductive StageEvent where
  /-- The signal `query` was emitted. -/
  | query
  /-- The class function `execute_async` of the stage was invoked; the queued
  task returns what this execution returns. -/
  | execute_async
  /-- The queued task returned `TRUE` without an execution. -/
  | returned_true
  /-- The task of the call returned the error `G_IO_ERROR_PENDING`. -/
  | pending
deriving DecidableEq, Repr

/-- The function `ide_build_stage_pause`: `g_atomic_int_inc` on the `gint`
counter `n_pause`, which wraps around. -/
def ide_build_stage_pause (self : IdeBuildStage) : IdeBuildStage :=
  { self with n_pause := wrap_gint (self.n_pause + 1) }

/-- The function `ide_build_stage_set_completed`. -/
def ide_build_stage_set_completed (self : IdeBuildStage) (completed : Bool) : IdeBuildStage :=
  { self with completed := completed }

/-- The function `ide_build_stage_unpause`: `n_pause > 0` is a
`g_return_if_fail` guard; when the counter comes down to `0` and an execute is
queued, the queued task is taken and either returns `TRUE`, the stage being
completed, or the stage is executed. -/
def ide_build_stage_unpause (self : IdeBuildStage) : IdeBuildStage × List StageEvent :=
  if ¬ (self.n_pause > 0) then (self, [])
  else
    let self := { self with n_pause := self.n_pause - 1 }
    if self.n_pause = 0 ∧ self.queued_execute = true then
      let self := { self with queued_execute := false }
      if self.completed then (self, [StageEvent.returned_true])
      else (self, [StageEvent.execute_async])
    else (self, [])

/-- One call of a handler on the stage. -/
def stage_action (self : IdeBuildStage) : StageAction → IdeBuildStage × List StageEvent
  | .pause => (ide_build_stage_pause self, [])
  | .unpause => ide_build_stage_unpause self
  | .set_completed completed => (ide_build_stage_set_completed self completed, [])

/-- The emission of the signal `query`: the calls of the handlers, in order. -/
def emit_query (self : IdeBuildStage) : List StageAction → IdeBuildStage × List StageEvent
  | [] => (self, [])
  | action :: actions =>
    let r := stage_action self action
    let r' := emit_query r.1 actions
    (r'.1, r.2 ++ r'.2)

/-- The function `_ide_build_stage_execute_with_query_async`: when an execute
is queued already the task returns the error `G_IO_ERROR_PENDING`; otherwise
the task is queued, the stage is paused, the signal `query` is emitted and the
stage is unpaused. -/
def ide_build_stage_execute_with_query_async (self : IdeBuildStage) :
    IdeBuildStage × List StageEvent :=
  if self.queued_execute then (self, [StageEvent.pending])
  else
    let self := { self with queued_execute := true }
    let self := ide_build_stage_pause self
    let during := emit_query self self.query_handlers
    let after := ide_build_stage_unpause during.1
    (after.1, [StageEvent.query] ++ during.2 ++ after.2)

/-- The call by which `ide_build_pipeline_tick` starts the stage it has
selected: `ide_build_stage_execute_async`, which invokes the class function
`execute_async` of the stage. -/
def ide_build_stage_execute_async (self : IdeBuildStage) : IdeBuildStage × List StageEvent :=
  (self, [StageEvent.execute_async])

/-- The domain of a `GError`: `G_IO_ERROR` or another one, given by its
quark. -/
inductive GErrorDomain where
  /-- The domain `G_IO_ERROR`. -/
  | G_IO_ERROR
  /-- Another domain. -/
  | other (quark : Nat)
deriving DecidableEq, Repr

/-- A `GError`: domain and code. -/
structure GError where
  /-- The domain. -/
  domain : GErrorDomain
  /-- The code. -/
  code : Nat
deriving DecidableEq, Repr

/-- The code `G_IO_ERROR_EXISTS` of `GIOErrorEnum` (GLib). -/
def G_IO_ERROR_EXISTS : Nat := 2

/-- The code `G_IO_ERROR_PENDING` of `GIOErrorEnum` (GLib). -/
def G_IO_ERROR_PENDING : Nat := 20

/-- The function `g_error_matches` (GLib): `FALSE` for no error. -/
def g_error_matches (error : Option GError) (domain : GErrorDomain) (code : Nat) : Bool :=
  match error with
  | none => false
  | some error => decide (error.domain = domain) && decide (error.code = code)

/-- What a `GTask` has returned. -/
inductive TaskReturn where
  /-- The task returned `TRUE` (`g_task_return_boolean`). -/
  | boolean_true
  /-- The task returned an error (`g_task_return_error`). -/
  | error (error : GError)
  /-- The task has not returned. -/
  | nothing
deriving DecidableEq, Repr

/-- The callback `ide_build_stage_unpause_execute_cb`, which ends the queued
task when the execution started by `ide_build_stage_unpause` has ended:
`execute_finish` is what `ide_build_stage_execute_finish` gives, `none` for
`TRUE` and the error otherwise. -/
def ide_build_stage_unpause_execute_cb (execute_finish : Option GError) : TaskReturn :=
  match execute_finish with
  | some error => TaskReturn.error error
  | none => TaskReturn.boolean_true

/-- What the task made by `_ide_build_stage_execute_with_query_async` has
returned after the events given, `execute_finish` being the result of the
execution if one was started: the error `G_IO_ERROR_PENDING` of the refused
call, `TRUE` from `ide_build_stage_unpause` for a completed stage, or what
`ide_build_stage_unpause_execute_cb` returns. -/
def queued_task_return (execute_finish : Option GError) : List StageEvent → TaskReturn
  | [] => TaskReturn.nothing
  | .query :: events => queued_task_return execute_finish events
  | .pending :: _ =>
    TaskReturn.error { domain := GErrorDomain.G_IO_ERROR, code := G_IO_ERROR_PENDING }
  | .returned_true :: _ => TaskReturn.boolean_true
  | .execute_async :: _ => ide_build_stage_unpause_execute_cb execute_finish

/-! ## Logging a subprocess (`ide-build-stage.c`) -/

/-- The enumeration `IdeBuildLogStream`. -/
inductive IdeBuildLogStream where
  /-- The value `IDE_BUILD_LOG_STDOUT`. -/
  | stdout
  /-- The value `IDE_BUILD_LOG_STDERR`. -/
  | stderr
deriving DecidableEq, Repr

/-- A call of the log observer of a stage: stream, message and length. -/
structure LogRecord where
  /-- The stream the message is tagged with. -/
  stream : IdeBuildLogStream
  /-- The bytes of the message. -/
  message : List Nat
  /-- The length given to the observer. -/
  message_len : Int
deriving DecidableEq, Repr

/-- The constant `G_MAXSSIZE` (64 bits). -/
def G_MAXSSIZE : Nat := 9223372036854775807

/-- The function `ide_build_stage_log`: the observer is called when there is
one. -/
def ide_build_stage_log (self : IdeBuildStage) (stream : IdeBuildLogStream)
    (message : List Nat) (message_len : Int) : List LogRecord :=
  if self.observer then [{ stream := stream, message := message, message_len := message_len }]
  else []

/-- The chain of callbacks `ide_build_stage_observe_stream_cb` of one reader
on a stream that delivers the lines given and is closed then. A line is the
bytes between two line ends, valid UTF-8;
`g_data_input_stream_read_line_finish_utf8` gives the next line without its
line end and its length in `n_read`, and `NULL` once the stream is closed.
When `line != NULL && n_read > 0 && n_read < G_MAXSSIZE` the line is logged
and the next read is started; otherwise the reader is freed. The result is
the calls of the observer and the lines that were never read. -/
def ide_build_stage_observe_stream_cb (self : IdeBuildStage) (stream_type : IdeBuildLogStream) :
    List (List Nat) → List LogRecord × List (List Nat)
  | [] => ([], [])
  | line :: rest =>
    if 0 < line.length ∧ line.length < G_MAXSSIZE then
      (ide_build_stage_log self stream_type line line.length ++
          (ide_build_stage_observe_stream_cb self stream_type rest).1,
        (ide_build_stage_observe_stream_cb self stream_type rest).2)
    else ([], rest)

/-- The function `ide_build_stage_observe_stream`: the first read on the
stream is started, with `ide_build_stage_observe_stream_cb` as its
callback. -/
def ide_build_stage_observe_stream (self : IdeBuildStage) (stream_type : IdeBuildLogStream)
    (stream : List (List Nat)) : List LogRecord × List (List Nat) :=
  ide_build_stage_observe_stream_cb self stream_type stream

/-- What the two readers of a subprocess do. -/
structure SubprocessLog where
  /-- The calls of the observer made by the reader of stderr, and the lines
  of stderr it never read. -/
  stderr : List LogRecord × List (List Nat)
  /-- The calls of the observer made by the reader of stdout, and the lines
  of stdout it never read. -/
  stdout : List LogRecord × List (List Nat)
deriving DecidableEq, Repr

/-- The function `ide_build_stage_log_subprocess`: a reader is started on the
stderr pipe and one on the stdout pipe, for each pipe that is there. The two
readers run side by side, so their calls of the observer are kept apart. -/
def ide_build_stage_log_subprocess (self : IdeBuildStage)
    (stderr_stream stdout_stream : Option (List (List Nat))) : SubprocessLog :=
  { stderr :=
      match stderr_stream with
      | some stream => ide_build_stage_observe_stream self IdeBuildLogStream.stderr stream
      | none => ([], []),
    stdout :=
      match stdout_stream with
      | some stream => ide_build_stage_observe_stream self IdeBuildLogStream.stdout stream
      | none => ([], []) }

/-! ## Launcher stages (`ide-build-stage-launcher.c`) -/

/-- The flag `G_SUBPROCESS_FLAGS_STDIN_INHERIT` of `GSubprocessFlags` (GLib). -/
def G_SUBPROCESS_FLAGS_STDIN_INHERIT : Nat := 1 <<< 1

/-- The flag `G_SUBPROCESS_FLAGS_STDOUT_PIPE` of `GSubprocessFlags` (GLib). -/
def G_SUBPROCESS_FLAGS_STDOUT_PIPE : Nat := 1 <<< 2

/-- The flag `G_SUBPROCESS_FLAGS_STDERR_PIPE` of `GSubprocessFlags` (GLib). -/
def G_SUBPROCESS_FLAGS_STDERR_PIPE : Nat := 1 <<< 4

/-- The flag `G_SUBPROCESS_FLAGS_STDERR_SILENCE` of `GSubprocessFlags` (GLib). -/
def G_SUBPROCESS_FLAGS_STDERR_SILENCE : Nat := 1 <<< 5

/-- The flag `G_SUBPROCESS_FLAGS_STDERR_MERGE` of `GSubprocessFlags` (GLib). -/
def G_SUBPROCESS_FLAGS_STDERR_MERGE : Nat := 1 <<< 6

/-- The complement `~x` of a 32-bit flags value. -/
def flags_complement (x : Nat) : Nat := 4294967295 ^^^ x

/-- The flags that `ide_build_stage_launcher_execute_async` gives to
`ide_subprocess_launcher_set_flags`, from those that
`ide_subprocess_launcher_get_flags` gave. -/
def launcher_execute_flags (flags : Nat) : Nat :=
  let flags :=
    if flags &&& G_SUBPROCESS_FLAGS_STDERR_SILENCE ≠ 0 then
      flags &&& flags_complement G_SUBPROCESS_FLAGS_STDERR_SILENCE
    else flags
  let flags :=
    if flags &&& G_SUBPROCESS_FLAGS_STDERR_MERGE ≠ 0 then
      flags &&& flags_complement G_SUBPROCESS_FLAGS_STDERR_MERGE
    else flags
  let flags :=
    if flags &&& G_SUBPROCESS_FLAGS_STDIN_INHERIT ≠ 0 then
      flags &&& flags_complement G_SUBPROCESS_FLAGS_STDIN_INHERIT
    else flags
  let flags := flags ||| G_SUBPROCESS_FLAGS_STDOUT_PIPE
  let flags := flags ||| G_SUBPROCESS_FLAGS_STDERR_PIPE
  flags

/-- The function `ide_build_stage_launcher_execute_async` as far as the flags
of the launcher go: `launcher` holds the flags of the launcher of the stage,
or is `none` when the stage has no launcher, in which case the task returns
an error and nothing is set. -/
def ide_build_stage_launcher_execute_async (launcher : Option Nat) : Option Nat :=
  match launcher with
  | none => none
  | some flags => some (launcher_execute_flags flags)

/-! ## The drive loop -/

/-- What the first read of the loop of `ide_build_pipeline_release_transients`
does when the array has memory: the loop starts at the index `len`, behind
the last entry, and passes `entry->stage` from there to
`ide_build_stage_get_transient`. What lies behind the entries is not
determined by the pipeline. -/
inductive StrayRead where
  /-- The process faults on what it reads there. -/
  | fault
  /-- The read finds no stage or a stage that is not transient, or it finds a
  transient stage and `g_array_remove_index` refuses the index, which is not
  below `len`: the array stays as it is. -/
  | harmless
deriving DecidableEq, Repr

/-- Whether the process faults in the first iteration of the loop of
`ide_build_pipeline_release_transients`, the one at the index `len`: for
certain when the array has no memory (`data` is `NULL`, the read is from an
address next to `0`); otherwise as `stray` tells. -/
def stray_read_faults (self : IdeBuildPipeline) (stray : StrayRead) : Bool :=
  !self.allocated || decide (stray = StrayRead.fault)

/-- The body of the loop of `ide_build_pipeline_release_transients` at an
index `i` below the length of the array. -/
def release_transients_at (array : List PipelineEntry) (i : Nat) : List PipelineEntry :=
  match array[i]? with
  | some entry => if entry.stage.transient then array.eraseIdx i else array
  | none => array

/-- The iterations of the loop `for (i = len; i >= 0; i--)` of
`ide_build_pipeline_release_transients` from the index `i` down to `0`. -/
def release_transients_loop : Nat → List PipelineEntry → List PipelineEntry
  | 0, array => release_transients_at array 0
  | i + 1, array => release_transients_loop i (release_transients_at array (i + 1))

/-- The indices at which the loop of `ide_build_pipeline_release_transients`
reads the array when it starts at index `i`. -/
def release_transients_reads : Nat → List Nat
  | 0 => [0]
  | i + 1 => (i + 1) :: release_transients_reads i

/-- The function `ide_build_pipeline_release_transients`: the iteration at
`i = len`, in which the process may fault, then those at `len - 1`, …, `0`.
The result is the pipeline when the function has returned, or as it was when
the process faulted, and whether the process faulted. -/
def ide_build_pipeline_release_transients (self : IdeBuildPipeline) (stray : StrayRead) :
    IdeBuildPipeline × Bool :=
  if stray_read_faults self stray then (self, true)
  else
    match self.pipeline.length with
    | 0 => (self, false)
    | len + 1 => ({ self with pipeline := release_transients_loop len self.pipeline }, false)

/-- The function `ide_build_pipeline_get_phase`. -/
def ide_build_pipeline_get_phase (self : IdeBuildPipeline) : Nat :=
  if self.position < 0 then IDE_BUILD_PHASE_NONE
  else
    match self.pipeline[self.position.toNat]? with
    | some entry => entry.phase
    | none => if self.failed then IDE_BUILD_PHASE_FAILED else IDE_BUILD_PHASE_FINISHED

/-- The loop of `ide_build_pipeline_tick` over the entries from `position`
on: completed stages and stages whose basic phase is not requested are passed
over. The result is the position at which the loop stops and whether it
stopped to execute the stage there. -/
def tick_scan (requested_mask : Nat) : List PipelineEntry → Nat → Nat × Bool
  | [], position => (position, false)
  | entry :: rest, position =>
    if entry.stage.completed then tick_scan requested_mask rest (position + 1)
    else if (entry.phase &&& IDE_BUILD_PHASE_MASK) &&& requested_mask ≠ 0 then (position, true)
    else tick_scan requested_mask rest (position + 1)

/-- What a call of `ide_build_pipeline_tick` leaves. -/
structure TickResult where
  /-- The pipeline when the function has returned, or as it was when the
  process faulted. -/
  self : IdeBuildPipeline
  /-- Whether the execution of the stage at the new position was started;
  otherwise the task returned `TRUE` and the transient stages were released. -/
  started : Bool
  /-- Whether the process faulted in the release of the transient stages. -/
  fault : Bool := false
deriving DecidableEq, Repr

/-- The function `ide_build_pipeline_tick`. The `gint` cursor is incremented
with wrap-around; `position < len` compares as unsigned, so a negative
position ends the loop, the array having fewer than `2 ^ 31` entries; the
positions of the loop then stay in the range of `gint`. -/
def ide_build_pipeline_tick (self : IdeBuildPipeline) (stray : StrayRead) : TickResult :=
  let start := wrap_gint (self.position + 1)
  if start < 0 then
    { self := (ide_build_pipeline_release_transients { self with position := start } stray).1,
      started := false,
      fault := (ide_build_pipeline_release_transients { self with position := start } stray).2 }
  else
    match tick_scan self.requested_mask (self.pipeline.drop start.toNat) start.toNat with
    | (position, true) => { self := { self with position := position }, started := true }
    | (position, false) =>
      { self :=
          (ide_build_pipeline_release_transients { self with position := position } stray).1,
        started := false,
        fault :=
          (ide_build_pipeline_release_transients { self with position := position } stray).2 }

/-- What a run of the pipeline leaves behind. -/
structure RunResult where
  /-- The pipeline after the run, or as it was when the process faulted. -/
  after : IdeBuildPipeline
  /-- The entries whose stage was executed, first one first. -/
  executed : List PipelineEntry
  /-- Whether the task of the run returned `TRUE` (`true`) or an error
  (`false`). -/
  ok : Bool
  /-- The entry whose stage gave the error that the task returned, when the
  task returned the error of a stage. -/
  failed_stage : Option PipelineEntry := none
  /-- The error of `g_file_make_directory_with_parents`, when that is the
  error the task returned. -/
  builddir_error : Option GError := none
  /-- Whether the process faulted in the release of the transient stages,
  which comes after the task has returned. -/
  fault : Bool := false

/-- The chain `ide_build_pipeline_tick` →  stage execution →
`ide_build_pipeline_stage_execute_cb` → `ide_build_pipeline_tick` → …;
`execute entry` is the result the stage of `entry` reports to the callback.
On a failure the callback sets `failed`, returns the error and releases the
transient stages; otherwise it marks the stage completed and ticks again. The
first argument after `stray` bounds the number of ticks. -/
def drive (execute : PipelineEntry → Bool) (stray : StrayRead) :
    Nat → IdeBuildPipeline → List PipelineEntry → RunResult
  | 0, self, executed => { after := self, executed := executed, ok := true }
  | fuel + 1, self, executed =>
    match ide_build_pipeline_tick self stray with
    | { self := self, started := false, fault := fault } =>
      { after := self, executed := executed, ok := true, fault := fault }
    | { self := self, started := true, fault := _ } =>
      match self.pipeline[self.position.toNat]? with
      | none => { after := self, executed := executed, ok := true }
      | some entry =>
        if execute entry then
          drive execute stray fuel
            { self with
              pipeline := self.pipeline.set self.position.toNat (entry_set_completed entry true) }
            (executed ++ [entry])
        else
          { after := (ide_build_pipeline_release_transients { self with failed := true } stray).1,
            executed := executed ++ [entry], ok := false, failed_stage := some entry,
            fault :=
              (ide_build_pipeline_release_transients { self with failed := true } stray).2 }

/-- The test of `ide_build_pipeline_execute_async` on what
`g_file_make_directory_with_parents` gave (`none` for `TRUE`, the error
otherwise): the run goes on unless the call failed with an error that is not
`G_IO_ERROR_EXISTS`. -/
def builddir_made (mkdir : Option GError) : Bool :=
  !(mkdir.isSome && !g_error_matches mkdir GErrorDomain.G_IO_ERROR G_IO_ERROR_EXISTS)

/-- The function `ide_build_pipeline_execute_async` with the run it starts:
`failed` is cleared; when the build directory cannot be made the task returns
the error of `g_file_make_directory_with_parents` at once; otherwise the drive
loop runs. -/
def ide_build_pipeline_execute_async (self : IdeBuildPipeline) (mkdir : Option GError)
    (execute : PipelineEntry → Bool) (stray : StrayRead) : RunResult :=
  let self := { self with failed := false }
  if builddir_made mkdir then drive execute stray (self.pipeline.length + 1) self []
  else { after := self, executed := [], ok := false, builddir_error := mkdir }

/-! ## Sequences of operations -/

/-- The operations on a pipeline. -/
inductive Op where
  /-- A call of `ide_build_pipeline_connect`. -/
  | connect (phase : Nat) (priority : Int) (stage : IdeBuildStage)
  /-- A call of `ide_build_pipeline_disconnect`. -/
  | disconnect (stage_id : Nat)
  /-- A call of `ide_build_pipeline_invalidate_phase`. -/
  | invalidate_phase (phases : Nat)
  /-- A call of `ide_build_pipeline_request_phase`. -/
  | request_phase (phase : Nat)
  /-- A run started by `ide_build_pipeline_execute_async`. -/
  | execute (mkdir : Option GError) (stage_ok : PipelineEntry → Bool) (stray : StrayRead)
  /-- The sweep `ide_build_pipeline_release_transients`. -/
  | release_transients (stray : StrayRead)

/-- The pipeline after one operation, for a run or a sweep the pipeline when
it has ended or as it was when the process faulted; `none` when an assertion
failed. -/
def apply_op (self : IdeBuildPipeline) : Op → Option IdeBuildPipeline
  | .connect phase priority stage =>
    (ide_build_pipeline_connect self phase priority stage).map (fun r => r.2)
  | .disconnect stage_id => some (ide_build_pipeline_disconnect self stage_id)
  | .invalidate_phase phases => some (ide_build_pipeline_invalidate_phase self phases)
  | .request_phase phase => some (ide_build_pipeline_request_phase self phase)
  | .execute mkdir stage_ok stray =>
    some (ide_build_pipeline_execute_async self mkdir stage_ok stray).after
  | .release_transients stray => some (ide_build_pipeline_release_transients self stray).1

/-- The pipeline after a sequence of operations, first one first. -/
def run_ops (self : IdeBuildPipeline) : List Op → Option IdeBuildPipeline
  | [] => some self
  | op :: ops =>
    match apply_op self op with
    | some self => run_ops self ops
    | none => none

/-! ## The signal `finished` -/

/-- The function `ide_build_pipeline_notify_completed`, called when the task
of a run has returned: the argument with which the signal `finished` is
emitted. -/
def ide_build_pipeline_notify_completed (self : IdeBuildPipeline) : Bool :=
  self.failed

/-! ## The autotools addin (`ide-autotools-pipeline-addin.c`) -/

/-- The function `ide_build_pipeline_connect_launcher`: two
`g_return_val_if_fail` guards on the phase, then a new launcher stage is
attached. -/
def ide_build_pipeline_connect_launcher (self : IdeBuildPipeline) (phase : Nat)
    (priority : Int) : Option (Nat × IdeBuildPipeline) :=
  if phase &&& IDE_BUILD_PHASE_MASK = IDE_BUILD_PHASE_NONE then some (0, self)
  else if ¬ (phase &&& IDE_BUILD_PHASE_WHENCE_MASK = 0 ∨
      phase &&& IDE_BUILD_PHASE_WHENCE_MASK = IDE_BUILD_PHASE_BEFORE ∨
      phase &&& IDE_BUILD_PHASE_WHENCE_MASK = IDE_BUILD_PHASE_AFTER) then some (0, self)
  else ide_build_pipeline_connect self phase priority {}

/-- What the autotools addin finds when it is loaded. -/
structure AutotoolsProject where
  /-- Whether the build system of the context is the autotools one. -/
  is_autotools : Bool
  /-- Whether `configure` in the source directory is a regular file. -/
  configure_is_regular : Bool
  /-- Whether `Makefile` in the build directory is a regular file. -/
  makefile_is_regular : Bool
  /-- Whether `ide_build_pipeline_create_launcher` gives a launcher. -/
  launcher_created : Bool
  /-- Whether the configure options are absent or `g_shell_parse_argv` parses
  them. -/
  config_opts_parsed : Bool
deriving DecidableEq, Repr

/-- The ids of the stages the autotools addin has attached. -/
structure AutotoolsStages where
  /-- The id `register_autoreconf_stage` got. -/
  autoreconf : Option Nat := none
  /-- The id `register_configure_stage` got. -/
  configure : Option Nat := none
  /-- The id `register_make_stage` got for the target `all`. -/
  make_all : Option Nat := none
  /-- The id `register_make_stage` got for the target `install`. -/
  make_install : Option Nat := none
deriving DecidableEq, Repr

/-- The function `register_autoreconf_stage`; the id is `none` when the
function returns `FALSE`, which it never does. -/
def register_autoreconf_stage (pipeline : IdeBuildPipeline) (project : AutotoolsProject) :
    Option (Option Nat × IdeBuildPipeline) :=
  (ide_build_pipeline_connect pipeline IDE_BUILD_PHASE_AUTOGEN 0
    { completed := project.configure_is_regular }).map (fun r => (some r.1, r.2))

/-- The function `register_configure_stage`, which makes the stage that runs
`configure`; the id is `none` when the function returns `FALSE`. -/
def register_configure_stage (pipeline : IdeBuildPipeline) (project : AutotoolsProject) :
    Option (Option Nat × IdeBuildPipeline) :=
  if ¬ project.launcher_created then some (none, pipeline)
  else if ¬ project.config_opts_parsed then some (none, pipeline)
  else
    (ide_build_pipeline_connect pipeline IDE_BUILD_PHASE_AUTOGEN 0
      { completed := project.makefile_is_regular }).map (fun r => (some r.1, r.2))

/-- The function `register_make_stage`; the id is `none` when the function
returns `FALSE`. -/
def register_make_stage (pipeline : IdeBuildPipeline) (project : AutotoolsProject)
    (phase : Nat) : Option (Option Nat × IdeBuildPipeline) :=
  if ¬ project.launcher_created then some (none, pipeline)
  else (ide_build_pipeline_connect_launcher pipeline phase 0).map (fun r => (some r.1, r.2))

/-- The function `ide_autotools_pipeline_addin_load`: nothing for another
build system; otherwise the four stages are registered in turn until one of
the functions returns `FALSE`. -/
def ide_autotools_pipeline_addin_load (pipeline : IdeBuildPipeline)
    (project : AutotoolsProject) : Option (AutotoolsStages × IdeBuildPipeline) :=
  if ¬ project.is_autotools then some ({}, pipeline)
  else
    match register_autoreconf_stage pipeline project with
    | none => none
    | some (none, pipeline) => some ({}, pipeline)
    | some (some autoreconf, pipeline) =>
      match register_configure_stage pipeline project with
      | none => none
      | some (none, pipeline) => some ({ autoreconf := some autoreconf }, pipeline)
      | some (some configure, pipeline) =>
        match register_make_stage pipeline project IDE_BUILD_PHASE_BUILD with
        | none => none
        | some (none, pipeline) =>
          some ({ autoreconf := some autoreconf, configure := some configure }, pipeline)
        | some (some make_all, pipeline) =>
          match register_make_stage pipeline project IDE_BUILD_PHASE_INSTALL with
          | none => none
          | some (none, pipeline) =>
            some ({ autoreconf := some autoreconf, configure := some configure,
                    make_all := some make_all }, pipeline)
          | some (some make_install, pipeline) =>
            some ({ autoreconf := some autoreconf, configure := some configure,
                    make_all := some make_all, make_install := some make_install }, pipeline)

/-! ## Vocabulary of the statements -/

/-- The nine basic phases, in ascending order. -/
def basic_phases : List Nat :=
  [IDE_BUILD_PHASE_PREPARE, IDE_BUILD_PHASE_DOWNLOADS, IDE_BUILD_PHASE_DEPENDENCIES,
   IDE_BUILD_PHASE_AUTOGEN, IDE_BUILD_PHASE_CONFIGURE, IDE_BUILD_PHASE_BUILD,
   IDE_BUILD_PHASE_INSTALL, IDE_BUILD_PHASE_EXPORT, IDE_BUILD_PHASE_FINAL]

/-- The basic phase bits of a phase value. -/
def basic (phase : Nat) : Nat := phase &&& IDE_BUILD_PHASE_MASK

/-- The whence bits of a phase value. -/
def whence (phase : Nat) : Nat := phase &&& IDE_BUILD_PHASE_WHENCE_MASK

/-- The whence bits are none, `BEFORE` alone or `AFTER` alone. -/
def whence_ok (phase : Nat) : Prop :=
  whence phase = 0 ∨ whence phase = IDE_BUILD_PHASE_BEFORE ∨ whence phase = IDE_BUILD_PHASE_AFTER

/-- What an entry is attached as: id, phase flags and priority. -/
def shape (entry : PipelineEntry) : Nat × Nat × Int :=
  (entry.id, entry.phase, entry.priority)

/-- The rank of an entry in the order of the phases and, inside a phase, of
`BEFORE`, unmodified and `AFTER`. -/
def phase_rank (phase : Nat) : Nat :=
  4 * basic phase +
    (if whence phase = IDE_BUILD_PHASE_BEFORE then 0 else if whence phase = 0 then 1 else 2)

/-- The ids that the calls of `ide_build_pipeline_connect` in a sequence of
operations return, in order (`0` for a rejected call). -/
def connect_ids (self : IdeBuildPipeline) : List Op → List Nat
  | [] => []
  | op :: ops =>
    match op with
    | .connect phase priority stage =>
      match ide_build_pipeline_connect self phase priority stage with
      | some (id, self) => id :: connect_ids self ops
      | none => []
    | _ =>
      match apply_op self op with
      | some self => connect_ids self ops
      | none => []

/-- The comparator applied to the entries at two indices of the array. -/
def compare_at (self : IdeBuildPipeline) (i j : Nat) : Option Int :=
  match self.pipeline[i]?, self.pipeline[j]? with
  | some a, some b => pipeline_entry_compare a b
  | _, _ => none

/-- A pipeline without entries whose id counter holds the value `seqnum`; the
array has memory unless the counter is `0`. -/
def empty_with_seqnum (seqnum : Nat) : IdeBuildPipeline :=
  { ide_build_pipeline_init with seqnum := seqnum, allocated := decide (seqnum ≠ 0) }

/-- The property of well-formed pipelines: admissible whence bits in every
entry and an id counter in the range of `guint`. -/
def WellFormed (self : IdeBuildPipeline) : Prop :=
  (∀ e ∈ self.pipeline, whence_ok e.phase) ∧ self.seqnum < 4294967296

/-- The property of a pipeline whose id counter has not wrapped: the ids of
the entries are distinct, non-zero and at most `seqnum`. -/
def IdsFresh (self : IdeBuildPipeline) : Prop :=
  (∀ e ∈ self.pipeline, whence_ok e.phase) ∧
    (∀ e ∈ self.pipeline, e.id ≠ 0 ∧ e.id ≤ self.seqnum) ∧
    (self.pipeline.map (fun e => e.id)).Nodup

/-- The operations that attach a stage at `BUILD` and detach it again, for the
ids `1, …, n`. -/
def attach_detach : Nat → List Op
  | 0 => []
  | n + 1 => attach_detach n ++ [Op.connect IDE_BUILD_PHASE_BUILD 0 {}, Op.disconnect (n + 1)]

/-- The entry that `ide_build_pipeline_connect` appends. -/
def new_entry (self : IdeBuildPipeline) (phase : Nat) (priority : Int) (stage : IdeBuildStage) :
    PipelineEntry :=
  { id := guint_incr self.seqnum, phase := phase, priority := priority,
    stage := { stage with observer := true } }

/-- The entries of `self'` are entries of `self` in the same order, with the
same ids, phases and priorities, and the id counter is the same. -/
def Frame (self' self : IdeBuildPipeline) : Prop :=
  (self'.pipeline.map shape).Sublist (self.pipeline.map shape) ∧
    self'.seqnum = self.seqnum ∧ self'.requested_mask = self.requested_mask

/-- The three kinds of effect an operation has: it keeps or drops entries and
touches neither the id counter nor the requested mask; or it is a phase
request; or it is an accepted attachment, which sorts the old entries and the
new one. -/
def Effect (self self' : IdeBuildPipeline) : Prop :=
  Frame self' self ∨
  (∃ phase, self' = ide_build_pipeline_request_phase self phase) ∨
  (∃ phase priority stage array,
    self.position = -1 ∧ basic phase ∈ basic_phases ∧ whence_ok phase ∧
    ide_build_pipeline_connect self phase priority stage
      = some (guint_incr self.seqnum, self') ∧
    self' = { self with seqnum := guint_incr self.seqnum, pipeline := array, allocated := true } ∧
    array.Perm (self.pipeline ++ [new_entry self phase priority stage]) ∧
    array.Pairwise (fun x y => phase_rank x.phase ≤ phase_rank y.phase))

/-- Every entry has admissible whence bits and the entries are in the order of
their phase ranks. -/
def Ordered (l : List PipelineEntry) : Prop :=
  (∀ e ∈ l, whence_ok e.phase) ∧
    l.Pairwise (fun x y => phase_rank x.phase ≤ phase_rank y.phase)

/-- The six orders in which a stage `A` at `CONFIGURE | BEFORE`, a stage `B` at
`CONFIGURE` and a stage `C` at `CONFIGURE | AFTER`, all of priority `0`, can
be attached. -/
def whence_example_orders : List (List Op) :=
  let a := Op.connect (IDE_BUILD_PHASE_CONFIGURE ||| IDE_BUILD_PHASE_BEFORE) 0 {}
  let b := Op.connect IDE_BUILD_PHASE_CONFIGURE 0 {}
  let c := Op.connect (IDE_BUILD_PHASE_CONFIGURE ||| IDE_BUILD_PHASE_AFTER) 0 {}
  [[a, b, c], [a, c, b], [b, a, c], [b, c, a], [c, a, b], [c, b, a]]

/-- The phases of the entries after a sequence of operations on a fresh
pipeline, in array order. -/
def phases_after (ops : List Op) : Option (List Nat) :=
  (run_ops ide_build_pipeline_init ops).map (fun self => self.pipeline.map (fun e => e.phase))

/-- The ids and priorities of the entries after a sequence of operations on a
fresh pipeline, in array order. -/
def priorities_after (ops : List Op) : Option (List (Nat × Int)) :=
  (run_ops ide_build_pipeline_init ops).map
    (fun self => self.pipeline.map (fun e => (e.id, e.priority)))

/-- A short session: two attaches, a detach, a rejected attach (no basic
phase), a phase request and one more attach. -/
def example_session : List Op :=
  [Op.connect IDE_BUILD_PHASE_BUILD 0 {}, Op.connect IDE_BUILD_PHASE_PREPARE 0 {},
   Op.disconnect 1, Op.connect IDE_BUILD_PHASE_BEFORE 0 {},
   Op.request_phase IDE_BUILD_PHASE_BUILD, Op.connect IDE_BUILD_PHASE_INSTALL 3 {}]

/-- The values a requested mask takes: `0` and, for the bit position `k` of a
basic phase, `(1 << (k + 1)) - 1`. -/
def downward_closed_masks : List Nat :=
  0 :: [0, 1, 2, 3, 4, 6, 7, 8, 9].map (fun k => (1 <<< (k + 1)) - 1)

/-- Whether an array is sorted with respect to `pipeline_entry_compare`: the
comparator gives a value `<= 0` for every entry and every later entry. -/
def sorted_by_compare : List PipelineEntry → Bool
  | [] => true
  | a :: rest =>
    rest.all (fun b =>
      match pipeline_entry_compare a b with
      | some c => decide (c ≤ 0)
      | none => false) && sorted_by_compare rest

/-- The six arrangements of an array of three entries. -/
def arrangements : List PipelineEntry → List (List PipelineEntry)
  | [a, b, c] => [[a, b, c], [a, c, b], [b, a, c], [b, c, a], [c, a, b], [c, b, a]]
  | _ => []

/-- The place of an entry in the order that the comparator is meant to
describe: by phase rank first, by priority second. -/
def sort_key (entry : PipelineEntry) : Nat :=
  phase_rank entry.phase * 4294967296 + (entry.priority + 2147483648).toNat

/-- A priority small enough for the difference of two such priorities to fit
in a `gint`. -/
def small_priority (priority : Int) : Prop :=
  -1073741824 ≤ priority ∧ priority < 1073741824

/-- The test of the loop of `ide_build_pipeline_tick` on an entry: the stage is
not completed and the basic phase of the entry is in the requested mask. -/
def selected (requested_mask : Nat) (entry : PipelineEntry) : Bool :=
  !entry.stage.completed &&
    decide ((entry.phase &&& IDE_BUILD_PHASE_MASK) &&& requested_mask ≠ 0)

/-- What a run does to the entries behind the cursor. -/
structure SuffixRun where
  /-- The entries behind the cursor when the run stops, before the sweep. -/
  array : List PipelineEntry
  /-- The entries whose stage was executed, first one first. -/
  executed : List PipelineEntry
  /-- The entry whose stage failed, if one did. -/
  failed_stage : Option PipelineEntry
  /-- The number of entries the cursor went past. -/
  passed : Nat

/-- A run told entry by entry: an entry that is not selected is passed over; a
selected entry whose stage succeeds is marked completed and the run goes on;
at a selected entry whose stage fails the run stops. -/
def run_suffix (requested_mask : Nat) (stage_ok : PipelineEntry → Bool) :
    List PipelineEntry → SuffixRun
  | [] => { array := [], executed := [], failed_stage := none, passed := 0 }
  | entry :: rest =>
    if selected requested_mask entry then
      if stage_ok entry then
        { array := entry_set_completed entry true ::
            (run_suffix requested_mask stage_ok rest).array,
          executed := entry :: (run_suffix requested_mask stage_ok rest).executed,
          failed_stage := (run_suffix requested_mask stage_ok rest).failed_stage,
          passed := (run_suffix requested_mask stage_ok rest).passed + 1 }
      else { array := entry :: rest, executed := [entry], failed_stage := some entry, passed := 0 }
    else
      { array := entry :: (run_suffix requested_mask stage_ok rest).array,
        executed := (run_suffix requested_mask stage_ok rest).executed,
        failed_stage := (run_suffix requested_mask stage_ok rest).failed_stage,
        passed := (run_suffix requested_mask stage_ok rest).passed + 1 }

/-- A pipeline with three stages attached at `CONFIGURE | BEFORE`, `CONFIGURE`
and `CONFIGURE | AFTER`, after `CONFIGURE` was requested. -/
def whence_pipeline : IdeBuildPipeline :=
  { pipeline :=
      [{ id := 1, phase := IDE_BUILD_PHASE_CONFIGURE ||| IDE_BUILD_PHASE_BEFORE, priority := 0,
         stage := { observer := true } },
       { id := 2, phase := IDE_BUILD_PHASE_CONFIGURE, priority := 0,
         stage := { observer := true } },
       { id := 3, phase := IDE_BUILD_PHASE_CONFIGURE ||| IDE_BUILD_PHASE_AFTER, priority := 0,
         stage := { observer := true } }],
    position := -1, requested_mask := 31, seqnum := 3, failed := false }

/-- A pipeline with stages attached at `PREPARE`, `AUTOGEN`, `CONFIGURE` and
`BUILD`, after `CONFIGURE` was requested. -/
def four_stage_pipeline : IdeBuildPipeline :=
  { pipeline :=
      [{ id := 1, phase := IDE_BUILD_PHASE_PREPARE, priority := 0,
         stage := { observer := true } },
       { id := 2, phase := IDE_BUILD_PHASE_AUTOGEN, priority := 0,
         stage := { observer := true } },
       { id := 3, phase := IDE_BUILD_PHASE_CONFIGURE, priority := 0,
         stage := { observer := true } },
       { id := 4, phase := IDE_BUILD_PHASE_BUILD, priority := 0,
         stage := { observer := true } }],
    position := -1, requested_mask := 31, seqnum := 4, failed := false }

/-- The operations that attach stages at `PREPARE`, `AUTOGEN`, `CONFIGURE` and
`BUILD` and request `BUILD`. -/
def four_stage_session : List Op :=
  [Op.connect IDE_BUILD_PHASE_PREPARE 0 {}, Op.connect IDE_BUILD_PHASE_AUTOGEN 0 {},
   Op.connect IDE_BUILD_PHASE_CONFIGURE 0 {}, Op.connect IDE_BUILD_PHASE_BUILD 0 {},
   Op.request_phase IDE_BUILD_PHASE_BUILD]

/-- A pipeline with a stage at `PREPARE`, a stage at `BUILD` and a transient
stage at `INSTALL`, after `INSTALL` was requested. -/
def failing_build_pipeline : IdeBuildPipeline :=
  { pipeline :=
      [{ id := 1, phase := IDE_BUILD_PHASE_PREPARE, priority := 0,
         stage := { observer := true } },
       { id := 2, phase := IDE_BUILD_PHASE_BUILD, priority := 0,
         stage := { observer := true } },
       { id := 3, phase := IDE_BUILD_PHASE_INSTALL, priority := 0,
         stage := { observer := true, transient := true } }],
    position := -1, requested_mask := 255, seqnum := 3, failed := false }

/-- The ids of the entries of a pipeline with the flags `completed` of their
stages, in array order. -/
def completed_flags (self : IdeBuildPipeline) : List (Nat × Bool) :=
  self.pipeline.map (fun e => (e.id, e.stage.completed))

/-- The stage events of a run: for each entry whose stage was executed, the
id of the entry and the events of the call `ide_build_stage_execute_async`
by which `ide_build_pipeline_tick` started the stage. -/
def run_stage_events (run : RunResult) : List (Nat × List StageEvent) :=
  run.executed.map (fun e => (e.id, (ide_build_stage_execute_async e.stage).2))

/-- A pipeline with a stage at `CONFIGURE` that has a handler of `query` which
sets the stage completed, a stage at `BUILD` without handlers, after `BUILD`
was requested. -/
def query_pipeline : IdeBuildPipeline :=
  { pipeline :=
      [{ id := 1, phase := IDE_BUILD_PHASE_CONFIGURE, priority := 0,
         stage := { observer := true, query_handlers := [StageAction.set_completed true] } },
       { id := 2, phase := IDE_BUILD_PHASE_BUILD, priority := 0,
         stage := { observer := true } }],
    position := -1, requested_mask := 127, seqnum := 2, failed := false }

/-- What is seen of a run: the ids of the entries whose stage was executed,
whether the task returned `TRUE`, the ids and flags `completed` of the entries
left, and the cursor. -/
def run_summary (run : RunResult) : List Nat × Bool × List (Nat × Bool) × Int :=
  (run.executed.map (fun e => e.id), run.ok, completed_flags run.after, run.after.position)

/-- A full run of the pipeline of `four_stage_session` in which every stage
succeeds and the process does not fault. -/
def first_full_run : Option RunResult :=
  (run_ops ide_build_pipeline_init four_stage_session).map
    (fun self => ide_build_pipeline_execute_async self none (fun _ => true) StrayRead.harmless)

/-- A second run straight after the first. -/
def second_run : Option RunResult :=
  first_full_run.map
    (fun run =>
      ide_build_pipeline_execute_async run.after none (fun _ => true) StrayRead.harmless)

/-- A second run after `ide_build_pipeline_invalidate_phase` with
`CONFIGURE | BUILD` and a new request of `BUILD`. -/
def second_run_invalidated : Option RunResult :=
  first_full_run.map
    (fun run => ide_build_pipeline_execute_async
      (ide_build_pipeline_request_phase
        (ide_build_pipeline_invalidate_phase run.after
          (IDE_BUILD_PHASE_CONFIGURE ||| IDE_BUILD_PHASE_BUILD))
        IDE_BUILD_PHASE_BUILD)
      none (fun _ => true) StrayRead.harmless)

/-- The number of pauses of the handlers that no unpause of theirs has
matched yet, after the calls given, `depth` being that number before them:
`none` when a handler calls `ide_build_stage_unpause` with no such pause
open, or when the counter `n_pause`, which is one more than that number while
the signal is emitted, would leave the range of `gint`. -/
def handlers_depth : Nat → List StageAction → Option Nat
  | depth, [] => some depth
  | depth, .pause :: rest =>
    if depth + 2 < 2147483648 then handlers_depth (depth + 1) rest else none
  | 0, .unpause :: _ => none
  | depth + 1, .unpause :: rest => handlers_depth depth rest
  | depth, .set_completed _ :: rest => handlers_depth depth rest

/-- The flag `completed` after the calls given, `completed` being its value
before them. -/
def handlers_completed : Bool → List StageAction → Bool
  | completed, [] => completed
  | _, .set_completed completed :: rest => handlers_completed completed rest
  | completed, _ :: rest => handlers_completed completed rest

/-- Calls made on a stage after `_ide_build_stage_execute_with_query_async`
has returned, in order. -/
def stage_calls (self : IdeBuildStage) (calls : List StageAction) :
    IdeBuildStage × List StageEvent :=
  emit_query self calls

/-- An autotools project in which neither `configure` nor `Makefile` is there
yet. -/
def fresh_autotools_project : AutotoolsProject :=
  { is_autotools := true, configure_is_regular := false, makefile_is_regular := false,
    launcher_created := true, config_opts_parsed := true }

/-- A pipeline with one stage, attached at `BUILD`, after `BUILD` was
requested. -/
def single_stage_pipeline : IdeBuildPipeline :=
  { pipeline :=
      [{ id := 1, phase := IDE_BUILD_PHASE_BUILD, priority := 0,
         stage := { observer := true } }],
    position := -1, requested_mask := 127, seqnum := 1, failed := false }

/-- The pipeline after `n` runs in a row whose stages succeed and whose sweep
does not fault. -/
def idle_runs : Nat → IdeBuildPipeline → IdeBuildPipeline
  | 0, self => self
  | n + 1, self =>
    idle_runs n
      (ide_build_pipeline_execute_async self none (fun _ => true) StrayRead.harmless).after

/-- The pipeline `single_stage_pipeline` after its stage was executed and
invalidated again: the cursor is at `1`, behind the entry. -/
def invalidated_pipeline : IdeBuildPipeline :=
  ide_build_pipeline_invalidate_phase
    (ide_build_pipeline_execute_async single_stage_pipeline none (fun _ => true)
      StrayRead.harmless).after
    IDE_BUILD_PHASE_BUILD

/-- The pipeline `single_stage_pipeline` with the cursor at `-2`, where
`4294967293` further runs bring the cursor of `invalidated_pipeline`, each
adding one to it. -/
def wrapped_pipeline : IdeBuildPipeline :=
  { single_stage_pipeline with position := -2 }

/-! ## The merge sort -/

theorem msort_merge_spec {α : Type} (cmp : α → α → Option Int) (key : α → Nat) :
    ∀ (fuel : Nat) (b1 b2 : List α), b1.length + b2.length ≤ fuel →
      (∀ x ∈ b1, ∀ y ∈ b2, ∃ c, cmp x y = some c ∧
        (c ≤ 0 → key x ≤ key y) ∧ (0 < c → key y ≤ key x)) →
      ∃ r, msort_merge cmp fuel b1 b2 = some r ∧ r.Perm (b1 ++ b2) ∧
        (b1.Pairwise (fun x y => key x ≤ key y) → b2.Pairwise (fun x y => key x ≤ key y) →
          r.Pairwise (fun x y => key x ≤ key y)) := by
  intro fuel
  induction fuel with
  | zero =>
    intro b1 b2 hlen _
    have h1 : b1 = [] := List.eq_nil_of_length_eq_zero (by omega)
    have h2 : b2 = [] := List.eq_nil_of_length_eq_zero (by omega)
    subst h1 h2
    exact ⟨[], rfl, List.Perm.refl _, fun _ _ => List.Pairwise.nil⟩
  | succ fuel ih =>
    intro b1 b2 hlen hcmp
    cases b1 with
    | nil => exact ⟨b2, by cases b2 <;> rfl, by simp, fun _ h => h⟩
    | cons x b1 =>
      cases b2 with
      | nil => exact ⟨x :: b1, rfl, by simp, fun h _ => h⟩
      | cons y b2 =>
        obtain ⟨c, hc, hle, hgt⟩ := hcmp x (List.mem_cons_self _ _) y (List.mem_cons_self _ _)
        simp only [List.length_cons] at hlen
        by_cases hc0 : c ≤ 0
        · obtain ⟨r, hr, hperm, hsorted⟩ := ih b1 (y :: b2) (by simp only [List.length_cons]; omega)
            (fun a ha b hb => hcmp a (List.mem_cons_of_mem _ ha) b hb)
          refine ⟨x :: r, ?_, ?_, ?_⟩
          · simp [msort_merge, hc, hc0, hr]
          · simpa using hperm
          · intro hp1 hp2
            rw [List.pairwise_cons] at hp1 ⊢
            refine ⟨fun z hz => ?_, hsorted hp1.2 hp2⟩
            have hz' : z ∈ b1 ++ y :: b2 := hperm.subset hz
            rcases List.mem_append.1 hz' with hz1 | hz2
            · exact hp1.1 z hz1
            · rcases List.mem_cons.1 hz2 with rfl | hz3
              · exact hle hc0
              · exact le_trans (hle hc0) ((List.pairwise_cons.1 hp2).1 z hz3)
        · obtain ⟨r, hr, hperm, hsorted⟩ := ih (x :: b1) b2 (by simp only [List.length_cons]; omega)
            (fun a ha b hb => hcmp a ha b (List.mem_cons_of_mem _ hb))
          have hpos : 0 < c := by omega
          refine ⟨y :: r, ?_, ?_, ?_⟩
          · simp [msort_merge, hc, hc0, hr]
          · have h1 : (y :: r).Perm (y :: (x :: b1 ++ b2)) := List.Perm.cons y hperm
            have h2 : (x :: b1 ++ y :: b2).Perm (y :: (x :: b1 ++ b2)) := List.perm_middle
            exact h1.trans h2.symm
          · intro hp1 hp2
            rw [List.pairwise_cons] at hp2 ⊢
            refine ⟨fun z hz => ?_, hsorted hp1 hp2.2⟩
            have hz' : z ∈ x :: b1 ++ b2 := hperm.subset hz
            rcases List.mem_append.1 hz' with hz1 | hz2
            · rcases List.mem_cons.1 hz1 with rfl | hz3
              · exact hgt hpos
              · exact le_trans (hgt hpos) ((List.pairwise_cons.1 hp1).1 z hz3)
            · exact hp2.1 z hz2

theorem msort_with_tmp_spec {α : Type} (cmp : α → α → Option Int) (key : α → Nat) :
    ∀ (fuel : Nat) (b : List α), b.length ≤ fuel →
      (∀ x ∈ b, ∀ y ∈ b, ∃ c, cmp x y = some c ∧
        (c ≤ 0 → key x ≤ key y) ∧ (0 < c → key y ≤ key x)) →
      ∃ r, msort_with_tmp cmp fuel b = some r ∧ r.Perm b ∧
        r.Pairwise (fun x y => key x ≤ key y) := by
  intro fuel
  induction fuel with
  | zero =>
    intro b hlen _
    have h1 : b = [] := List.eq_nil_of_length_eq_zero (by omega)
    subst h1
    exact ⟨[], rfl, List.Perm.refl _, List.Pairwise.nil⟩
  | succ fuel ih =>
    intro b hlen hcmp
    by_cases hshort : b.length ≤ 1
    · refine ⟨b, by simp [msort_with_tmp, hshort], List.Perm.refl _, ?_⟩
      match b, hshort with
      | [], _ => exact List.Pairwise.nil
      | [a], _ => exact List.pairwise_singleton _ _
      | _ :: _ :: _, h => simp at h
    · have htake : (b.take (b.length / 2)).length ≤ fuel := by
        rw [List.length_take]; omega
      have hdrop : (b.drop (b.length / 2)).length ≤ fuel := by
        rw [List.length_drop]; omega
      obtain ⟨r1, hr1, hperm1, hs1⟩ := ih _ htake
        (fun x hx y hy => hcmp x (List.mem_of_mem_take hx) y (List.mem_of_mem_take hy))
      obtain ⟨r2, hr2, hperm2, hs2⟩ := ih _ hdrop
        (fun x hx y hy => hcmp x (List.mem_of_mem_drop hx) y (List.mem_of_mem_drop hy))
      obtain ⟨r, hr, hperm, hs⟩ := msort_merge_spec cmp key (r1.length + r2.length) r1 r2
        (le_refl _)
        (fun x hx y hy => hcmp x (List.mem_of_mem_take (hperm1.subset hx))
          y (List.mem_of_mem_drop (hperm2.subset hy)))
      refine ⟨r, ?_, ?_, hs hs1 hs2⟩
      · simp [msort_with_tmp, hshort, hr1, hr2, hr]
      · have h3 : (r1 ++ r2).Perm (b.take (b.length / 2) ++ b.drop (b.length / 2)) :=
          List.Perm.append hperm1 hperm2
        rw [List.take_append_drop] at h3
        exact hperm.trans h3

theorem g_array_sort_spec {α : Type} (cmp : α → α → Option Int) (key : α → Nat)
    (array : List α)
    (hcmp : ∀ x ∈ array, ∀ y ∈ array, ∃ c, cmp x y = some c ∧
      (c ≤ 0 → key x ≤ key y) ∧ (0 < c → key y ≤ key x)) :
    ∃ r, g_array_sort cmp array = some r ∧ r.Perm array ∧
      r.Pairwise (fun x y => key x ≤ key y) :=
  msort_with_tmp_spec cmp key array.length array (le_refl _) hcmp

/-! ## The comparator on attachable entries -/

theorem before_ne_zero : IDE_BUILD_PHASE_BEFORE ≠ 0 := by decide

theorem after_ne_zero : IDE_BUILD_PHASE_AFTER ≠ 0 := by decide

theorem after_ne_before : IDE_BUILD_PHASE_AFTER ≠ IDE_BUILD_PHASE_BEFORE := by decide

theorem pipeline_entry_compare_rank (a b : PipelineEntry)
    (ha : whence_ok a.phase) (hb : whence_ok b.phase) :
    ∃ c, pipeline_entry_compare a b = some c ∧
      (c ≤ 0 → phase_rank a.phase ≤ phase_rank b.phase) ∧
      (0 < c → phase_rank b.phase ≤ phase_rank a.phase) := by
  unfold pipeline_entry_compare phase_rank basic
  unfold whence_ok at ha hb
  unfold whence at *
  generalize a.phase &&& IDE_BUILD_PHASE_MASK = pa
  generalize b.phase &&& IDE_BUILD_PHASE_MASK = pb
  generalize a.phase &&& IDE_BUILD_PHASE_WHENCE_MASK = wa at ha ⊢
  generalize b.phase &&& IDE_BUILD_PHASE_WHENCE_MASK = wb at hb ⊢
  have h1 := before_ne_zero
  have h2 := after_ne_zero
  have h3 := after_ne_before
  by_cases hret : (pa : Int) - (pb : Int) = 0
  · have hpab : pa = pb := by omega
    subst hpab
    simp only [hret, if_true]
    rcases ha with ha | ha | ha <;> rcases hb with hb | hb | hb <;> subst ha <;> subst hb <;>
      simp [h1, h2, h3, h1.symm, h2.symm, h3.symm]
  · simp only [hret, if_false]
    refine ⟨_, rfl, ?_, ?_⟩
    · intro hle
      have : pa < pb := by omega
      (repeat' split) <;> omega
    · intro hlt
      have : pb < pa := by omega
      (repeat' split) <;> omega

/-! ## What the operations other than attachment do to the array -/

theorem Frame.refl (self : IdeBuildPipeline) : Frame self self :=
  ⟨List.Sublist.refl _, rfl, rfl⟩

theorem Frame.trans {a b c : IdeBuildPipeline} (h1 : Frame a b) (h2 : Frame b c) :
    Frame a c :=
  ⟨h1.1.trans h2.1, h1.2.1.trans h2.2.1, h1.2.2.trans h2.2.2⟩

theorem disconnect_loop_sublist (stage_id : Nat) :
    ∀ l : List PipelineEntry, (disconnect_loop stage_id l).Sublist l := by
  intro l
  induction l with
  | nil => exact List.Sublist.refl _
  | cons e rest ih =>
    unfold disconnect_loop
    split
    · exact List.sublist_cons_self _ _
    · exact List.Sublist.cons₂ _ ih

theorem disconnect_frame (self : IdeBuildPipeline) (stage_id : Nat) :
    Frame (ide_build_pipeline_disconnect self stage_id) self := by
  unfold ide_build_pipeline_disconnect
  split
  · exact Frame.refl _
  · exact ⟨(disconnect_loop_sublist stage_id _).map _, rfl, rfl⟩

theorem release_transients_at_sublist (array : List PipelineEntry) (i : Nat) :
    (release_transients_at array i).Sublist array := by
  unfold release_transients_at
  split
  · split
    · exact List.eraseIdx_sublist _ _
    · exact List.Sublist.refl _
  · exact List.Sublist.refl _

theorem release_transients_loop_sublist :
    ∀ (i : Nat) (array : List PipelineEntry), (release_transients_loop i array).Sublist array := by
  intro i
  induction i with
  | zero => intro array; exact release_transients_at_sublist array 0
  | succ i ih =>
    intro array
    exact (ih _).trans (release_transients_at_sublist array (i + 1))

theorem release_transients_frame (self : IdeBuildPipeline) (stray : StrayRead) :
    Frame (ide_build_pipeline_release_transients self stray).1 self := by
  unfold ide_build_pipeline_release_transients
  split
  · exact Frame.refl _
  · split
    · exact Frame.refl _
    · exact ⟨(release_transients_loop_sublist _ _).map _, rfl, rfl⟩

theorem invalidate_phase_shape (self : IdeBuildPipeline) (phases : Nat) :
    (ide_build_pipeline_invalidate_phase self phases).pipeline.map shape
      = self.pipeline.map shape := by
  unfold ide_build_pipeline_invalidate_phase
  simp only [List.map_map]
  apply List.map_congr_left
  intro e _
  simp only [Function.comp]
  split <;> rfl

theorem invalidate_phase_frame (self : IdeBuildPipeline) (phases : Nat) :
    Frame (ide_build_pipeline_invalidate_phase self phases) self :=
  ⟨by rw [invalidate_phase_shape], rfl, rfl⟩

theorem tick_frame (self : IdeBuildPipeline) (stray : StrayRead) :
    Frame (ide_build_pipeline_tick self stray).self self := by
  unfold ide_build_pipeline_tick
  simp only []
  split
  · exact release_transients_frame _ _
  · split
    · exact Frame.refl _
    · exact release_transients_frame _ _

theorem set_completed_shape (l : List PipelineEntry) (i : Nat) (entry : PipelineEntry)
    (h : l[i]? = some entry) (completed : Bool) :
    (l.set i (entry_set_completed entry completed)).map shape = l.map shape := by
  induction l generalizing i with
  | nil => rfl
  | cons e rest ih =>
    cases i with
    | zero =>
      simp only [List.getElem?_cons_zero, Option.some.injEq] at h
      subst h
      rfl
    | succ i =>
      simp only [List.getElem?_cons_succ] at h
      simp only [List.set_cons_succ, List.map_cons, ih i h]

theorem drive_frame (stage_ok : PipelineEntry → Bool) (stray : StrayRead) :
    ∀ (fuel : Nat) (self : IdeBuildPipeline) (executed : List PipelineEntry),
      Frame (drive stage_ok stray fuel self executed).after self := by
  intro fuel
  induction fuel with
  | zero => intro self executed; exact Frame.refl _
  | succ fuel ih =>
    intro self executed
    unfold drive
    have ht := tick_frame self stray
    split
    · next s1 f heq => rw [heq] at ht; exact ht
    · next s1 f heq =>
      rw [heq] at ht
      split
      · exact ht
      · next entry hentry =>
        split
        · refine Frame.trans (ih _ _) (Frame.trans ?_ ht)
          exact ⟨by simp only [set_completed_shape _ _ _ hentry]; exact List.Sublist.refl _,
            rfl, rfl⟩
        · exact Frame.trans (release_transients_frame _ _) ht

theorem execute_async_frame (self : IdeBuildPipeline) (mkdir : Option GError)
    (stage_ok : PipelineEntry → Bool) (stray : StrayRead) :
    Frame (ide_build_pipeline_execute_async self mkdir stage_ok stray).after self := by
  unfold ide_build_pipeline_execute_async
  simp only []
  split
  · exact Frame.trans (drive_frame _ _ _ _ _) ⟨List.Sublist.refl _, rfl, rfl⟩
  · exact ⟨List.Sublist.refl _, rfl, rfl⟩

/-! ## Attachment -/

theorem basic_le_mask (phase : Nat) : basic phase ≤ 16777215 := by
  unfold basic IDE_BUILD_PHASE_MASK
  exact Nat.and_le_right

theorem find_values_some (phase : Nat) (h0 : basic phase ≠ 0) :
    (∃ v, ide_build_phase_values.find?
        (fun value => phase &&& IDE_BUILD_PHASE_MASK == value) = some v)
      ↔ basic phase ∈ basic_phases := by
  have hle := basic_le_mask phase
  constructor
  · rintro ⟨v, hv⟩
    have hp := List.find?_some hv
    have hm := List.mem_of_find?_eq_some hv
    have hv' : basic phase = v := by simpa [basic] using hp
    rw [← hv'] at hm
    revert hm h0 hle
    generalize basic phase = x
    intro h0 hle hm
    simp only [ide_build_phase_values, List.mem_cons, List.mem_singleton, List.not_mem_nil,
      or_false] at hm
    rcases hm with h | h | h | h | h | h | h | h | h | h | h | h | h | h <;> subst h <;>
      first
      | exact absurd rfl h0
      | exact absurd hle (by decide)
      | decide
  · intro hmem
    rw [← Option.isSome_iff_exists, List.find?_isSome]
    refine ⟨basic phase, ?_, by simp [basic]⟩
    revert hmem
    generalize basic phase = x
    intro hmem
    simp only [basic_phases, List.mem_cons, List.mem_singleton, List.not_mem_nil,
      or_false] at hmem
    rcases hmem with h | h | h | h | h | h | h | h | h <;> subst h <;> decide

theorem connect_rejected (self : IdeBuildPipeline) (phase : Nat) (priority : Int)
    (stage : IdeBuildStage)
    (h : ¬ (self.position = -1 ∧ basic phase ∈ basic_phases ∧ whence_ok phase)) :
    ide_build_pipeline_connect self phase priority stage = some (0, self) := by
  unfold ide_build_pipeline_connect
  by_cases h0 : phase &&& IDE_BUILD_PHASE_MASK = IDE_BUILD_PHASE_NONE
  · rw [if_pos h0]
  · rw [if_neg h0]
    by_cases hw : (phase &&& IDE_BUILD_PHASE_WHENCE_MASK = 0 ∨
        phase &&& IDE_BUILD_PHASE_WHENCE_MASK = IDE_BUILD_PHASE_BEFORE ∨
        phase &&& IDE_BUILD_PHASE_WHENCE_MASK = IDE_BUILD_PHASE_AFTER)
    · rw [if_neg (not_not.2 hw)]
      by_cases hp : self.position = -1
      · rw [if_neg (not_not.2 hp)]
        have hb : basic phase ∉ basic_phases := fun hb => h ⟨hp, hb, hw⟩
        have hnone : ide_build_phase_values.find?
            (fun value => phase &&& IDE_BUILD_PHASE_MASK == value) = none := by
          cases hf : ide_build_phase_values.find?
              (fun value => phase &&& IDE_BUILD_PHASE_MASK == value) with
          | none => rfl
          | some v => exact absurd ((find_values_some phase h0).1 ⟨v, hf⟩) hb
        rw [hnone]
      · rw [if_pos hp]
    · rw [if_pos hw]

theorem connect_accepted (self : IdeBuildPipeline) (phase : Nat) (priority : Int)
    (stage : IdeBuildStage)
    (hv : ∀ e ∈ self.pipeline, whence_ok e.phase)
    (hp : self.position = -1) (hb : basic phase ∈ basic_phases) (hw : whence_ok phase) :
    ∃ array, ide_build_pipeline_connect self phase priority stage
        = some (guint_incr self.seqnum,
            { self with seqnum := guint_incr self.seqnum, pipeline := array, allocated := true }) ∧
      array.Perm (self.pipeline ++ [new_entry self phase priority stage]) ∧
      array.Pairwise (fun x y => phase_rank x.phase ≤ phase_rank y.phase) := by
  have h0 : ¬ phase &&& IDE_BUILD_PHASE_MASK = IDE_BUILD_PHASE_NONE := by
    intro h0
    have : basic phase = 0 := h0
    rw [this] at hb
    revert hb
    decide
  obtain ⟨v, hfind⟩ := (find_values_some phase h0).2 hb
  have hall : ∀ x ∈ self.pipeline ++ [new_entry self phase priority stage],
      whence_ok x.phase := by
    intro x hx
    rcases List.mem_append.1 hx with hx | hx
    · exact hv x hx
    · rw [List.mem_singleton.1 hx]; exact hw
  obtain ⟨array, hsort, hperm, hpair⟩ :=
    g_array_sort_spec pipeline_entry_compare (fun e => phase_rank e.phase)
      (self.pipeline ++ [new_entry self phase priority stage])
      (fun x hx y hy => pipeline_entry_compare_rank x y (hall x hx) (hall y hy))
  refine ⟨array, ?_, hperm, hpair⟩
  have hw' : (phase &&& IDE_BUILD_PHASE_WHENCE_MASK = 0 ∨
      phase &&& IDE_BUILD_PHASE_WHENCE_MASK = IDE_BUILD_PHASE_BEFORE ∨
      phase &&& IDE_BUILD_PHASE_WHENCE_MASK = IDE_BUILD_PHASE_AFTER) := hw
  unfold ide_build_pipeline_connect
  rw [if_neg h0, if_neg (not_not.2 hw'), if_neg (not_not.2 hp), hfind]
  simp only []
  unfold new_entry at hsort
  rw [hsort]

/-! ## One operation, and sequences of operations -/

theorem request_phase_fields (self : IdeBuildPipeline) (phase : Nat) :
    (ide_build_pipeline_request_phase self phase).pipeline = self.pipeline ∧
    (ide_build_pipeline_request_phase self phase).position = self.position ∧
    (ide_build_pipeline_request_phase self phase).seqnum = self.seqnum ∧
    (ide_build_pipeline_request_phase self phase).failed = self.failed := by
  unfold ide_build_pipeline_request_phase
  simp only []
  (repeat' split) <;> exact ⟨rfl, rfl, rfl, rfl⟩

theorem apply_op_effect (self : IdeBuildPipeline) (op : Op)
    (hv : ∀ e ∈ self.pipeline, whence_ok e.phase) :
    ∃ self', apply_op self op = some self' ∧ Effect self self' := by
  cases op with
  | connect phase priority stage =>
    by_cases h : self.position = -1 ∧ basic phase ∈ basic_phases ∧ whence_ok phase
    · obtain ⟨array, hc, hperm, hpair⟩ :=
        connect_accepted self phase priority stage hv h.1 h.2.1 h.2.2
      refine ⟨{ self with seqnum := guint_incr self.seqnum, pipeline := array, allocated := true },
        by simp only [apply_op, hc, Option.map_some'], Or.inr (Or.inr ?_)⟩
      exact ⟨phase, priority, stage, array, h.1, h.2.1, h.2.2, hc, rfl, hperm, hpair⟩
    · refine ⟨self, ?_, Or.inl (Frame.refl _)⟩
      simp only [apply_op, connect_rejected self phase priority stage h, Option.map_some']
  | disconnect stage_id => exact ⟨_, rfl, Or.inl (disconnect_frame _ _)⟩
  | invalidate_phase phases => exact ⟨_, rfl, Or.inl (invalidate_phase_frame _ _)⟩
  | request_phase phase => exact ⟨_, rfl, Or.inr (Or.inl ⟨phase, rfl⟩)⟩
  | execute mkdir stage_ok stray => exact ⟨_, rfl, Or.inl (execute_async_frame _ _ _ _)⟩
  | release_transients stray => exact ⟨_, rfl, Or.inl (release_transients_frame _ _)⟩

theorem ordered_iff_shape (l : List PipelineEntry) :
    Ordered l ↔
      ((∀ p ∈ l.map shape, whence_ok p.2.1) ∧
        (l.map shape).Pairwise (fun x y => phase_rank x.2.1 ≤ phase_rank y.2.1)) := by
  unfold Ordered
  rw [List.pairwise_map]
  constructor
  · rintro ⟨h1, h2⟩
    refine ⟨?_, h2⟩
    intro p hp
    obtain ⟨e, he, rfl⟩ := List.mem_map.1 hp
    exact h1 e he
  · rintro ⟨h1, h2⟩
    exact ⟨fun e he => h1 (shape e) (List.mem_map_of_mem _ he), h2⟩

theorem ordered_of_frame {self' self : IdeBuildPipeline} (hf : Frame self' self)
    (h : Ordered self.pipeline) : Ordered self'.pipeline := by
  rw [ordered_iff_shape] at h ⊢
  exact ⟨fun p hp => h.1 p (hf.1.subset hp), h.2.sublist hf.1⟩

theorem ordered_of_effect {self self' : IdeBuildPipeline} (he : Effect self self')
    (h : Ordered self.pipeline) : Ordered self'.pipeline := by
  rcases he with hf | ⟨phase, rfl⟩ | ⟨phase, priority, stage, array, _, _, hw, _, rfl, hperm, hpair⟩
  · exact ordered_of_frame hf h
  · rw [(request_phase_fields self phase).1]; exact h
  · refine ⟨?_, hpair⟩
    intro e he
    rcases List.mem_append.1 (hperm.subset he) with he | he
    · exact h.1 e he
    · rw [List.mem_singleton.1 he]; exact hw

/-- Induction over a sequence of operations: a property that implies admissible
whence bits and is kept by each effect holds after the sequence, and the
sequence runs to its end. -/
theorem run_ops_invariant (P : IdeBuildPipeline → Prop)
    (hvalid : ∀ self, P self → ∀ e ∈ self.pipeline, whence_ok e.phase)
    (hstep : ∀ self self', P self → Effect self self' → P self') :
    ∀ (ops : List Op) (self : IdeBuildPipeline), P self →
      ∃ self', run_ops self ops = some self' ∧ P self' := by
  intro ops
  induction ops with
  | nil => intro self h; exact ⟨self, rfl, h⟩
  | cons op ops ih =>
    intro self h
    obtain ⟨s1, h1, he⟩ := apply_op_effect self op (hvalid self h)
    obtain ⟨s2, h2, hP⟩ := ih s1 (hstep self s1 h he)
    exact ⟨s2, by simp only [run_ops, h1, h2], hP⟩

theorem run_ops_ordered (ops : List Op) :
    ∃ self, run_ops ide_build_pipeline_init ops = some self ∧ Ordered self.pipeline :=
  run_ops_invariant (fun s => Ordered s.pipeline) (fun _ h => h.1)
    (fun _ _ h he => ordered_of_effect he h) ops ide_build_pipeline_init
    ⟨fun _ he => absurd he (List.not_mem_nil _), List.Pairwise.nil⟩

theorem index_lt_of_rank_lt (l : List PipelineEntry)
    (h : l.Pairwise (fun x y => phase_rank x.phase ≤ phase_rank y.phase))
    (i j : Nat) (hi : i < l.length) (hj : j < l.length)
    (hlt : phase_rank (l[i]).phase < phase_rank (l[j]).phase) : i < j := by
  by_contra hij
  rcases Nat.lt_or_eq_of_le (Nat.le_of_not_lt hij) with hji | hji
  · have := (List.pairwise_iff_getElem.1 h) j i hj hi hji
    omega
  · subst hji
    omega

theorem rank_lt_of_basic_lt (p q : Nat) (h : basic p < basic q) :
    phase_rank p < phase_rank q := by
  unfold phase_rank
  (repeat' split) <;> omega

theorem rank_lt_of_whence (p q : Nat) (hb : basic p = basic q)
    (hw : (whence p = IDE_BUILD_PHASE_BEFORE ∧ whence q = 0) ∨
      (whence p = 0 ∧ whence q = IDE_BUILD_PHASE_AFTER) ∨
      (whence p = IDE_BUILD_PHASE_BEFORE ∧ whence q = IDE_BUILD_PHASE_AFTER)) :
    phase_rank p < phase_rank q := by
  unfold phase_rank
  have h1 := before_ne_zero
  have h2 := after_ne_zero
  have h3 := after_ne_before
  rcases hw with ⟨ha, hb'⟩ | ⟨ha, hb'⟩ | ⟨ha, hb'⟩ <;> rw [ha, hb', hb] <;>
    simp [h1, h2, h3, h1.symm, h2.symm, h3.symm]

/-! ## Ordering of the entry array -/

/-- C1: a sequence of operations on a fresh pipeline, in particular a sequence
of successful `ide_build_pipeline_connect` calls, runs to its end, and of any
two entries of the resulting array the one whose basic phase value
(`phase & IDE_BUILD_PHASE_MASK`) is strictly lower is at the lower index,
whatever the whence bits and the priorities. A further call that returns a
non-zero id leaves an array made of the old entries and the new one, with
that id, phase and priority. -/
theorem connect_orders_basic_phases (ops : List Op) :
    ∃ self, run_ops ide_build_pipeline_init ops = some self ∧
      (∀ (i j : Nat) (hi : i < self.pipeline.length) (hj : j < self.pipeline.length),
        basic (self.pipeline[i]).phase < basic (self.pipeline[j]).phase → i < j) ∧
      ∀ (phase : Nat) (priority : Int) (stage : IdeBuildStage),
        ∃ id self', ide_build_pipeline_connect self phase priority stage = some (id, self') ∧
          (id ≠ 0 → self'.pipeline.Perm
            (self.pipeline ++ [{ id := id, phase := phase, priority := priority,
                                 stage := { stage with observer := true } }])) := by
  obtain ⟨self, hrun, hord⟩ := run_ops_ordered ops
  refine ⟨self, hrun, fun i j hi hj h =>
    index_lt_of_rank_lt self.pipeline hord.2 i j hi hj (rank_lt_of_basic_lt _ _ h), ?_⟩
  intro phase priority stage
  by_cases hacc : self.position = -1 ∧ basic phase ∈ basic_phases ∧ whence_ok phase
  · obtain ⟨array, hc, hperm, _⟩ :=
      connect_accepted self phase priority stage hord.1 hacc.1 hacc.2.1 hacc.2.2
    exact ⟨_, _, hc, fun _ => hperm⟩
  · exact ⟨0, self, connect_rejected self phase priority stage hacc, fun h => absurd rfl h⟩

/-- C2: after any sequence of operations on a fresh pipeline, in particular
any sequence of successful attaches, an entry attached with `P | BEFORE` is at
a lower index than an entry attached with plain `P`, which is at a lower index
than an entry attached with `P | AFTER`, whatever the priorities; and the
stages `A` at `CONFIGURE | BEFORE`, `B` at `CONFIGURE`, `C` at
`CONFIGURE | AFTER` of priority `0` end up in the order `A`, `B`, `C` for each
of the six orders of attachment. -/
theorem connect_orders_whence :
    (∀ ops : List Op, ∃ self, run_ops ide_build_pipeline_init ops = some self ∧
      ∀ (i j : Nat) (hi : i < self.pipeline.length) (hj : j < self.pipeline.length),
        basic (self.pipeline[i]).phase = basic (self.pipeline[j]).phase →
        ((whence (self.pipeline[i]).phase = IDE_BUILD_PHASE_BEFORE ∧
            whence (self.pipeline[j]).phase = 0) ∨
          (whence (self.pipeline[i]).phase = 0 ∧
            whence (self.pipeline[j]).phase = IDE_BUILD_PHASE_AFTER) ∨
          (whence (self.pipeline[i]).phase = IDE_BUILD_PHASE_BEFORE ∧
            whence (self.pipeline[j]).phase = IDE_BUILD_PHASE_AFTER)) → i < j) ∧
    (∀ ops ∈ whence_example_orders,
      phases_after ops = some [IDE_BUILD_PHASE_CONFIGURE ||| IDE_BUILD_PHASE_BEFORE,
        IDE_BUILD_PHASE_CONFIGURE, IDE_BUILD_PHASE_CONFIGURE ||| IDE_BUILD_PHASE_AFTER]) := by
  constructor
  · intro ops
    obtain ⟨self, hrun, hord⟩ := run_ops_ordered ops
    exact ⟨self, hrun, fun i j hi hj hb hw =>
      index_lt_of_rank_lt self.pipeline hord.2 i j hi hj (rank_lt_of_whence _ _ hb hw)⟩
  · decide

/-- C3: the comparator orders two priorities by the sign of their 32-bit
difference, which overflows. Three stages attached to `BUILD` with priorities
`10, 0, 5` end up in the order second, third, first; but of two stages attached
to `BUILD` with priorities `-2147483648` and `1` the one of priority `1` is
placed first, as `pipeline_entry_compare` gives `-2147483648 - 1` the value
`2147483647`. -/
theorem priority_order_overflows :
    priorities_after [Op.connect IDE_BUILD_PHASE_BUILD 10 {},
        Op.connect IDE_BUILD_PHASE_BUILD 0 {}, Op.connect IDE_BUILD_PHASE_BUILD 5 {}]
      = some [(2, 0), (3, 5), (1, 10)] ∧
    priorities_after [Op.connect IDE_BUILD_PHASE_BUILD (-2147483648) {},
        Op.connect IDE_BUILD_PHASE_BUILD 1 {}]
      = some [(2, 1), (1, -2147483648)] ∧
    pipeline_entry_compare
        { id := 1, phase := IDE_BUILD_PHASE_BUILD, priority := -2147483648, stage := {} }
        { id := 2, phase := IDE_BUILD_PHASE_BUILD, priority := 1, stage := {} }
      = some 2147483647 := by
  decide

/-- C4: seven stages attached to `BUILD` with the priorities
`0, -2147483648, -1500000000, -2147483648, 0, 0, 0`: after the seventh attach
the stage attached fourth (id `4`) stands before the stage attached second
(id `2`), although both have the priority `-2147483648`; after the sixth
attach they were still in the order of attachment. -/
theorem resort_not_stable :
    priorities_after [Op.connect IDE_BUILD_PHASE_BUILD 0 {},
        Op.connect IDE_BUILD_PHASE_BUILD (-2147483648) {},
        Op.connect IDE_BUILD_PHASE_BUILD (-1500000000) {},
        Op.connect IDE_BUILD_PHASE_BUILD (-2147483648) {},
        Op.connect IDE_BUILD_PHASE_BUILD 0 {}, Op.connect IDE_BUILD_PHASE_BUILD 0 {}]
      = some [(3, -1500000000), (1, 0), (2, -2147483648), (4, -2147483648), (5, 0), (6, 0)] ∧
    priorities_after [Op.connect IDE_BUILD_PHASE_BUILD 0 {},
        Op.connect IDE_BUILD_PHASE_BUILD (-2147483648) {},
        Op.connect IDE_BUILD_PHASE_BUILD (-1500000000) {},
        Op.connect IDE_BUILD_PHASE_BUILD (-2147483648) {},
        Op.connect IDE_BUILD_PHASE_BUILD 0 {}, Op.connect IDE_BUILD_PHASE_BUILD 0 {},
        Op.connect IDE_BUILD_PHASE_BUILD 0 {}]
      = some [(4, -2147483648), (3, -1500000000), (1, 0), (2, -2147483648), (5, 0), (6, 0),
          (7, 0)] := by
  decide

/-- C5: three stages attached to `BUILD` with the priorities
`0, 1500000000, -1500000000` stay in the order of attachment, and
`pipeline_entry_compare` applied to the entries at the indices `0` and `2` of
the array gives `1500000000`, which is not `<= 0`: the array is not sorted
with respect to the comparator. The comparator gives `<= 0` for the first
and the second, for the second and the third, and for the third and the
first, so that no arrangement of the three entries is sorted. -/
theorem array_not_sorted :
    priorities_after [Op.connect IDE_BUILD_PHASE_BUILD 0 {},
        Op.connect IDE_BUILD_PHASE_BUILD 1500000000 {},
        Op.connect IDE_BUILD_PHASE_BUILD (-1500000000) {}]
      = some [(1, 0), (2, 1500000000), (3, -1500000000)] ∧
    (run_ops ide_build_pipeline_init [Op.connect IDE_BUILD_PHASE_BUILD 0 {},
        Op.connect IDE_BUILD_PHASE_BUILD 1500000000 {},
        Op.connect IDE_BUILD_PHASE_BUILD (-1500000000) {}]).map
      (fun self => (sorted_by_compare self.pipeline, compare_at self 0 2, compare_at self 0 1,
        compare_at self 1 2, compare_at self 2 0))
      = some (false, some 1500000000, some (-1500000000), some (-1294967296),
          some (-1500000000)) ∧
    (run_ops ide_build_pipeline_init [Op.connect IDE_BUILD_PHASE_BUILD 0 {},
        Op.connect IDE_BUILD_PHASE_BUILD 1500000000 {},
        Op.connect IDE_BUILD_PHASE_BUILD (-1500000000) {}]).map
      (fun self => (arrangements self.pipeline).map sorted_by_compare)
      = some [false, false, false, false, false, false] := by
  decide

/-! ## The id counter -/

theorem run_ops_append (self : IdeBuildPipeline) (ops1 ops2 : List Op) :
    run_ops self (ops1 ++ ops2) = (run_ops self ops1).bind (fun s => run_ops s ops2) := by
  induction ops1 generalizing self with
  | nil => rfl
  | cons op ops1 ih =>
    simp only [List.cons_append, run_ops]
    cases apply_op self op with
    | none => rfl
    | some s1 => exact ih s1

theorem attach_detach_step (n : Nat) (hn : n + 1 < 4294967296) :
    run_ops (empty_with_seqnum n)
        [Op.connect IDE_BUILD_PHASE_BUILD 0 {}, Op.disconnect (n + 1)]
      = some (empty_with_seqnum (n + 1)) := by
  have hincr : guint_incr n = n + 1 := by
    unfold guint_incr
    exact Nat.mod_eq_of_lt hn
  have hacc := connect_accepted (empty_with_seqnum n) IDE_BUILD_PHASE_BUILD 0 {}
    (fun e he => absurd he (List.not_mem_nil _)) rfl (by decide) (Or.inl (by decide))
  obtain ⟨array, hc, hperm, _⟩ := hacc
  have harr : array = [new_entry (empty_with_seqnum n) IDE_BUILD_PHASE_BUILD 0 {}] := by
    have h1 : array.Perm [new_entry (empty_with_seqnum n) IDE_BUILD_PHASE_BUILD 0 {}] := by
      simpa [empty_with_seqnum, ide_build_pipeline_init] using hperm
    exact List.perm_singleton.1 h1
  subst harr
  simp only [run_ops, apply_op, hc, Option.map_some']
  simp [ide_build_pipeline_disconnect, disconnect_loop, new_entry, empty_with_seqnum,
    ide_build_pipeline_init, hincr]

theorem attach_detach_reaches (n : Nat) (hn : n < 4294967296) :
    run_ops ide_build_pipeline_init (attach_detach n) = some (empty_with_seqnum n) := by
  induction n with
  | zero => rfl
  | succ n ih =>
    rw [attach_detach, run_ops_append, ih (by omega)]
    exact attach_detach_step n hn

theorem wellFormed_of_effect {self self' : IdeBuildPipeline} (he : Effect self self')
    (h : WellFormed self) : WellFormed self' := by
  rcases he with hf | ⟨phase, rfl⟩ | ⟨phase, priority, stage, array, _, _, hw, _, rfl, hperm, _⟩
  · refine ⟨fun e he => ?_, hf.2.1 ▸ h.2⟩
    have hs : shape e ∈ self.pipeline.map shape := hf.1.subset (List.mem_map_of_mem _ he)
    obtain ⟨e', he', heq⟩ := List.mem_map.1 hs
    have hph : e'.phase = e.phase := congrArg (fun p => p.2.1) heq
    rw [← hph]
    exact h.1 e' he'
  · obtain ⟨h1, _, h3, _⟩ := request_phase_fields self phase
    exact ⟨by rw [h1]; exact h.1, by rw [h3]; exact h.2⟩
  · refine ⟨?_, Nat.mod_lt _ (by decide)⟩
    intro e he
    rcases List.mem_append.1 (hperm.subset he) with he | he
    · exact h.1 e he
    · rw [List.mem_singleton.1 he]; exact hw

theorem run_ops_wellFormed (ops : List Op) :
    ∃ self, run_ops ide_build_pipeline_init ops = some self ∧ WellFormed self :=
  run_ops_invariant WellFormed (fun _ h => h.1) (fun _ _ h he => wellFormed_of_effect he h)
    ops ide_build_pipeline_init
    ⟨fun _ he => absurd he (List.not_mem_nil _), by decide⟩

theorem guint_incr_eq_zero (n : Nat) (hn : n < 4294967296) :
    guint_incr n = 0 ↔ n = 4294967295 := by
  unfold guint_incr
  omega

/-- C6 (as stated, refuted): on the pipeline without entries that is reached
after `4294967295` stages were attached and detached again, the cursor is `-1`
and `BUILD` is a basic phase without whence bits, yet
`ide_build_pipeline_connect` returns `0`: the 32-bit counter `seqnum` wraps
to `0`, and the stage is attached with the id `0`. -/
theorem connect_returns_zero_at_wrap :
    run_ops ide_build_pipeline_init (attach_detach 4294967295)
      = some (empty_with_seqnum 4294967295) ∧
    (empty_with_seqnum 4294967295).position = -1 ∧
    ide_build_pipeline_connect (empty_with_seqnum 4294967295) IDE_BUILD_PHASE_BUILD 0 {}
      = some (0,
          { pipeline := [{ id := 0, phase := IDE_BUILD_PHASE_BUILD, priority := 0,
                           stage := { observer := true } }],
            position := -1, requested_mask := 0, seqnum := 0, failed := false }) :=
  ⟨attach_detach_reaches 4294967295 (by decide), rfl, by decide⟩

/-- C6 (amended): in every state reached from a fresh pipeline,
`ide_build_pipeline_connect` returns a non-zero id if and only if the cursor
is `-1`, `phase & IDE_BUILD_PHASE_MASK` is one of the nine basic phases, the
whence bits are none, `BEFORE` alone or `AFTER` alone, and `seqnum` is not
`4294967295`; and when the cursor is not `-1`, or the masked phase is not a
basic phase, or the whence bits are not admissible, it returns `0` and leaves
the whole pipeline (entry array, `seqnum`, requested mask) unchanged. -/
theorem connect_nonzero_iff (ops : List Op) :
    ∃ self, run_ops ide_build_pipeline_init ops = some self ∧
      ∀ (phase : Nat) (priority : Int) (stage : IdeBuildStage),
        ∃ id self', ide_build_pipeline_connect self phase priority stage = some (id, self') ∧
          (id ≠ 0 ↔ (self.position = -1 ∧ basic phase ∈ basic_phases ∧ whence_ok phase ∧
            self.seqnum ≠ 4294967295)) ∧
          (¬ (self.position = -1 ∧ basic phase ∈ basic_phases ∧ whence_ok phase) →
            id = 0 ∧ self' = self) := by
  obtain ⟨self, hrun, hwf⟩ := run_ops_wellFormed ops
  refine ⟨self, hrun, fun phase priority stage => ?_⟩
  by_cases h : self.position = -1 ∧ basic phase ∈ basic_phases ∧ whence_ok phase
  · obtain ⟨array, hc, _, _⟩ := connect_accepted self phase priority stage hwf.1 h.1 h.2.1 h.2.2
    refine ⟨_, _, hc, ?_, fun hn => absurd h hn⟩
    rw [Ne, guint_incr_eq_zero _ hwf.2]
    exact ⟨fun hne => ⟨h.1, h.2.1, h.2.2, hne⟩, fun hx => hx.2.2.2⟩
  · refine ⟨0, self, connect_rejected self phase priority stage h, ?_, fun _ => ⟨rfl, rfl⟩⟩
    exact ⟨fun hne => absurd rfl hne, fun hx => absurd ⟨hx.1, hx.2.1, hx.2.2.1⟩ h⟩

theorem whence_ok_of_frame {self' self : IdeBuildPipeline} (hf : Frame self' self)
    (h : ∀ e ∈ self.pipeline, whence_ok e.phase) : ∀ e ∈ self'.pipeline, whence_ok e.phase := by
  intro e he
  have hs : shape e ∈ self.pipeline.map shape := hf.1.subset (List.mem_map_of_mem _ he)
  obtain ⟨e', he', heq⟩ := List.mem_map.1 hs
  have hph : e'.phase = e.phase := congrArg (fun p => p.2.1) heq
  rw [← hph]
  exact h e' he'

theorem map_id_eq_map_shape (l : List PipelineEntry) :
    l.map (fun e => e.id) = (l.map shape).map (fun p => p.1) := by
  rw [List.map_map]
  rfl

theorem idsFresh_of_frame {self' self : IdeBuildPipeline} (hf : Frame self' self)
    (h : IdsFresh self) : IdsFresh self' := by
  refine ⟨whence_ok_of_frame hf h.1, ?_, ?_⟩
  · intro e he
    have hs : shape e ∈ self.pipeline.map shape := hf.1.subset (List.mem_map_of_mem _ he)
    obtain ⟨e', he', heq⟩ := List.mem_map.1 hs
    have hid : e'.id = e.id := congrArg (fun p => p.1) heq
    rw [← hid, hf.2.1]
    exact h.2.1 e' he'
  · rw [map_id_eq_map_shape]
    have h3 := h.2.2
    rw [map_id_eq_map_shape] at h3
    exact h3.sublist (hf.1.map _)

theorem idsFresh_of_request (self : IdeBuildPipeline) (phase : Nat) (h : IdsFresh self) :
    IdsFresh (ide_build_pipeline_request_phase self phase) := by
  obtain ⟨h1, _, h3, _⟩ := request_phase_fields self phase
  unfold IdsFresh
  rw [h1, h3]
  exact h

theorem idsFresh_of_connect (self : IdeBuildPipeline) (phase : Nat) (priority : Int)
    (stage : IdeBuildStage) (array : List PipelineEntry) (h : IdsFresh self)
    (hw : whence_ok phase) (hs : self.seqnum + 1 < 4294967296)
    (hperm : array.Perm (self.pipeline ++ [new_entry self phase priority stage])) :
    IdsFresh { self with seqnum := guint_incr self.seqnum, pipeline := array, allocated := true } := by
  have hincr : guint_incr self.seqnum = self.seqnum + 1 := Nat.mod_eq_of_lt hs
  have hnew : (new_entry self phase priority stage).id = self.seqnum + 1 := hincr
  refine ⟨?_, ?_, ?_⟩
  · intro e he
    rcases List.mem_append.1 (hperm.subset he) with he | he
    · exact h.1 e he
    · rw [List.mem_singleton.1 he]; exact hw
  · intro e he
    show e.id ≠ 0 ∧ e.id ≤ guint_incr self.seqnum
    rw [hincr]
    rcases List.mem_append.1 (hperm.subset he) with he | he
    · have := h.2.1 e he
      exact ⟨this.1, by omega⟩
    · rw [List.mem_singleton.1 he, hnew]
      exact ⟨by omega, le_refl _⟩
  · show (array.map (fun e => e.id)).Nodup
    rw [(hperm.map (fun e => e.id)).nodup_iff, List.map_append, List.map_singleton, hnew]
    rw [List.nodup_append]
    refine ⟨h.2.2, List.nodup_singleton _, ?_⟩
    intro a ha hb
    rw [List.mem_singleton] at hb
    obtain ⟨e, he, rfl⟩ := List.mem_map.1 ha
    have := (h.2.1 e he).2
    omega

theorem connect_ids_spec :
    ∀ (ops : List Op) (self : IdeBuildPipeline), IdsFresh self →
      self.seqnum + (connect_ids self ops).length < 4294967295 →
      ∃ self', run_ops self ops = some self' ∧ IdsFresh self' ∧
        self.seqnum ≤ self'.seqnum ∧
        self'.seqnum ≤ self.seqnum + (connect_ids self ops).length ∧
        (∀ id ∈ connect_ids self ops, id ≠ 0 → self.seqnum < id ∧ id ≤ self'.seqnum) ∧
        ((connect_ids self ops).filter (fun id => id ≠ 0)).Pairwise (fun a b => a < b) := by
  intro ops
  induction ops with
  | nil =>
    intro self h _
    exact ⟨self, rfl, h, le_refl _, by simp [connect_ids], by simp [connect_ids],
      by simp [connect_ids]⟩
  | cons op ops ih =>
    intro self h hlen
    have other : ∀ s1, apply_op self op = some s1 →
        connect_ids self (op :: ops) = connect_ids s1 ops →
        IdsFresh s1 → s1.seqnum = self.seqnum →
        ∃ self', run_ops self (op :: ops) = some self' ∧ IdsFresh self' ∧
          self.seqnum ≤ self'.seqnum ∧
          self'.seqnum ≤ self.seqnum + (connect_ids self (op :: ops)).length ∧
          (∀ id ∈ connect_ids self (op :: ops), id ≠ 0 →
            self.seqnum < id ∧ id ≤ self'.seqnum) ∧
          ((connect_ids self (op :: ops)).filter (fun id => id ≠ 0)).Pairwise
            (fun a b => a < b) := by
      intro s1 happ hids hfresh hseq
      rw [hids] at hlen ⊢
      obtain ⟨s2, hrun, hf2, hle1, hle2, hmem, hpw⟩ := ih s1 hfresh (by rw [hseq]; exact hlen)
      rw [hseq] at hle1 hle2 hmem
      exact ⟨s2, by simp only [run_ops, happ, hrun], hf2, hle1, hle2, hmem, hpw⟩
    cases op with
    | connect phase priority stage =>
      by_cases hacc : self.position = -1 ∧ basic phase ∈ basic_phases ∧ whence_ok phase
      · obtain ⟨array, hc, hperm, _⟩ :=
          connect_accepted self phase priority stage h.1 hacc.1 hacc.2.1 hacc.2.2
        have hs : self.seqnum + 1 < 4294967296 := by
          have : 0 < (connect_ids self (Op.connect phase priority stage :: ops)).length := by
            simp only [connect_ids, hc, List.length_cons]; omega
          omega
        have hincr : guint_incr self.seqnum = self.seqnum + 1 := Nat.mod_eq_of_lt hs
        have hfresh := idsFresh_of_connect self phase priority stage array h hacc.2.2 hs hperm
        have hids : connect_ids self (Op.connect phase priority stage :: ops)
            = guint_incr self.seqnum ::
              connect_ids { self with seqnum := guint_incr self.seqnum, pipeline := array, allocated := true } ops := by
          simp only [connect_ids, hc]
        have hrun1 : run_ops self (Op.connect phase priority stage :: ops)
            = run_ops { self with seqnum := guint_incr self.seqnum, pipeline := array, allocated := true } ops := by
          simp only [run_ops, apply_op, hc, Option.map_some']
        have hseq1 : ({ self with seqnum := guint_incr self.seqnum, pipeline := array, allocated := true } :
            IdeBuildPipeline).seqnum = self.seqnum + 1 := hincr
        generalize ({ self with seqnum := guint_incr self.seqnum, pipeline := array, allocated := true } :
            IdeBuildPipeline) = s1 at hids hrun1 hseq1 hfresh
        rw [hincr] at hids
        rw [hids] at hlen ⊢
        rw [hrun1]
        simp only [List.length_cons] at hlen ⊢
        obtain ⟨s2, hrun, hf2, hle1, hle2, hmem, hpw⟩ := ih s1 hfresh (by omega)
        refine ⟨s2, hrun, hf2, by omega, by omega, ?_, ?_⟩
        · intro id hid hne
          rcases List.mem_cons.1 hid with rfl | hid
          · exact ⟨by omega, by omega⟩
          · have := hmem id hid hne
            exact ⟨by omega, this.2⟩
        · rw [List.filter_cons_of_pos (by simp), List.pairwise_cons]
          refine ⟨?_, hpw⟩
          intro id hid
          have hid' := List.mem_filter.1 hid
          have := hmem id hid'.1 (by simpa using hid'.2)
          omega
      · have hc := connect_rejected self phase priority stage hacc
        have hids : connect_ids self (Op.connect phase priority stage :: ops)
            = 0 :: connect_ids self ops := by
          simp only [connect_ids, hc]
        rw [hids] at hlen ⊢
        simp only [List.length_cons] at hlen ⊢
        obtain ⟨s2, hrun, hf2, hle1, hle2, hmem, hpw⟩ := ih self h (by omega)
        refine ⟨s2, ?_, hf2, hle1, by omega, ?_, ?_⟩
        · simp only [run_ops, apply_op, hc, Option.map_some', hrun]
        · intro id hid hne
          rcases List.mem_cons.1 hid with rfl | hid
          · exact absurd rfl hne
          · exact hmem id hid hne
        · rw [List.filter_cons_of_neg (by simp)]
          exact hpw
    | disconnect stage_id =>
      exact other _ rfl (by simp only [connect_ids, apply_op])
        (idsFresh_of_frame (disconnect_frame _ _) h) (disconnect_frame _ _).2.1
    | invalidate_phase phases =>
      exact other _ rfl (by simp only [connect_ids, apply_op])
        (idsFresh_of_frame (invalidate_phase_frame _ _) h) (invalidate_phase_frame _ _).2.1
    | request_phase phase =>
      exact other _ rfl (by simp only [connect_ids, apply_op])
        (idsFresh_of_request _ _ h) (request_phase_fields _ _).2.2.1
    | execute mkdir stage_ok stray =>
      exact other _ rfl (by simp only [connect_ids, apply_op])
        (idsFresh_of_frame (execute_async_frame _ _ _ _) h) (execute_async_frame _ _ _ _).2.1
    | release_transients stray =>
      exact other _ rfl (by simp only [connect_ids, apply_op])
        (idsFresh_of_frame (release_transients_frame _ _) h) (release_transients_frame _ _).2.1

theorem idsFresh_init : IdsFresh ide_build_pipeline_init :=
  ⟨fun _ he => absurd he (List.not_mem_nil _), fun _ he => absurd he (List.not_mem_nil _),
    List.nodup_nil⟩

/-- C7 (as stated, refuted): on the pipeline without entries reached after
`4294967294` stages were attached and detached again, three attaches at
`BUILD` return the ids `4294967295`, `0` and `1`, and the three stages are in
the array under these ids: the second attach does not return the previous
`seqnum` plus one but `0`, the ids do not increase, and the id `1`, which the
first stage ever attached had, is handed out again. -/
theorem connect_ids_wrap :
    run_ops ide_build_pipeline_init (attach_detach 4294967294)
      = some (empty_with_seqnum 4294967294) ∧
    connect_ids (empty_with_seqnum 4294967294)
        [Op.connect IDE_BUILD_PHASE_BUILD 0 {}, Op.connect IDE_BUILD_PHASE_BUILD 0 {},
         Op.connect IDE_BUILD_PHASE_BUILD 0 {}]
      = [4294967295, 0, 1] ∧
    (run_ops (empty_with_seqnum 4294967294)
        [Op.connect IDE_BUILD_PHASE_BUILD 0 {}, Op.connect IDE_BUILD_PHASE_BUILD 0 {},
         Op.connect IDE_BUILD_PHASE_BUILD 0 {}]).map
      (fun self => (self.pipeline.map (fun e => e.id), self.seqnum))
      = some ([4294967295, 0, 1], 1) :=
  ⟨attach_detach_reaches 4294967294 (by decide), by decide, by decide⟩

/-- C7 (amended): as long as `ide_build_pipeline_connect` has been called fewer
than `4294967295` times on a pipeline, the non-zero ids it returned are
strictly increasing in the order of the calls (so none is handed out twice,
detaches or not), every id returned so far is at most `seqnum`, the ids of
the entries of the array are pairwise distinct, non-zero and at most `seqnum`,
and one more call either is accepted and returns the previous `seqnum` plus
one, which is the new `seqnum`, or is rejected, returns `0` and leaves the
pipeline, `seqnum` included, as it was. -/
theorem connect_ids_increasing (ops : List Op)
    (h : (connect_ids ide_build_pipeline_init ops).length < 4294967295) :
    ∃ self, run_ops ide_build_pipeline_init ops = some self ∧
      ((connect_ids ide_build_pipeline_init ops).filter (fun id => id ≠ 0)).Pairwise
        (fun a b => a < b) ∧
      (∀ id ∈ connect_ids ide_build_pipeline_init ops, id ≤ self.seqnum) ∧
      (self.pipeline.map (fun e => e.id)).Nodup ∧
      (∀ e ∈ self.pipeline, e.id ≠ 0 ∧ e.id ≤ self.seqnum) ∧
      ∀ (phase : Nat) (priority : Int) (stage : IdeBuildStage),
        ∃ id self', ide_build_pipeline_connect self phase priority stage = some (id, self') ∧
          ((self.position = -1 ∧ basic phase ∈ basic_phases ∧ whence_ok phase ∧
              id = self.seqnum + 1 ∧ self'.seqnum = self.seqnum + 1) ∨
           (¬ (self.position = -1 ∧ basic phase ∈ basic_phases ∧ whence_ok phase) ∧
              id = 0 ∧ self' = self)) := by
  obtain ⟨self, hrun, hfresh, _, hle, hmem, hpw⟩ :=
    connect_ids_spec ops ide_build_pipeline_init idsFresh_init
      (by show 0 + _ < _; omega)
  have hseq : self.seqnum + 1 < 4294967296 := by
    have : self.seqnum ≤ 0 + (connect_ids ide_build_pipeline_init ops).length := hle
    omega
  refine ⟨self, hrun, hpw, ?_, hfresh.2.2, hfresh.2.1, ?_⟩
  · intro id hid
    by_cases h0 : id = 0
    · omega
    · exact (hmem id hid h0).2
  · intro phase priority stage
    by_cases hacc : self.position = -1 ∧ basic phase ∈ basic_phases ∧ whence_ok phase
    · obtain ⟨array, hc, _, _⟩ :=
        connect_accepted self phase priority stage hfresh.1 hacc.1 hacc.2.1 hacc.2.2
      have hincr : guint_incr self.seqnum = self.seqnum + 1 := Nat.mod_eq_of_lt hseq
      exact ⟨_, _, hc, Or.inl ⟨hacc.1, hacc.2.1, hacc.2.2, hincr, hincr⟩⟩
    · exact ⟨0, self, connect_rejected self phase priority stage hacc, Or.inr ⟨hacc, rfl, rfl⟩⟩

/-- C7 (amended), at the session `example_session`. -/
theorem connect_ids_increasing_example :
    (connect_ids ide_build_pipeline_init example_session).length < 4294967295 ∧
    connect_ids ide_build_pipeline_init example_session = [1, 2, 0, 3] ∧
    ∃ self, run_ops ide_build_pipeline_init example_session = some self ∧
      ((connect_ids ide_build_pipeline_init example_session).filter
        (fun id => id ≠ 0)).Pairwise (fun a b => a < b) ∧
      (∀ id ∈ connect_ids ide_build_pipeline_init example_session, id ≤ self.seqnum) ∧
      (self.pipeline.map (fun e => e.id)).Nodup ∧
      (∀ e ∈ self.pipeline, e.id ≠ 0 ∧ e.id ≤ self.seqnum) ∧
      ∀ (phase : Nat) (priority : Int) (stage : IdeBuildStage),
        ∃ id self', ide_build_pipeline_connect self phase priority stage = some (id, self') ∧
          ((self.position = -1 ∧ basic phase ∈ basic_phases ∧ whence_ok phase ∧
              id = self.seqnum + 1 ∧ self'.seqnum = self.seqnum + 1) ∨
           (¬ (self.position = -1 ∧ basic phase ∈ basic_phases ∧ whence_ok phase) ∧
              id = 0 ∧ self' = self)) :=
  ⟨by decide, by decide, connect_ids_increasing example_session (by decide)⟩

/-! ## Detachment -/

theorem disconnect_loop_absent (stage_id : Nat) :
    ∀ l : List PipelineEntry, (∀ e ∈ l, e.id ≠ stage_id) → disconnect_loop stage_id l = l := by
  intro l
  induction l with
  | nil => intro _; rfl
  | cons e rest ih =>
    intro h
    unfold disconnect_loop
    rw [if_neg (h e (List.mem_cons_self _ _)), ih (fun x hx => h x (List.mem_cons_of_mem _ hx))]

theorem disconnect_loop_present (stage_id : Nat) :
    ∀ (l1 : List PipelineEntry) (e : PipelineEntry) (l2 : List PipelineEntry),
      e.id = stage_id → (∀ x ∈ l1, x.id ≠ stage_id) →
      disconnect_loop stage_id (l1 ++ e :: l2) = l1 ++ l2 := by
  intro l1
  induction l1 with
  | nil =>
    intro e l2 he _
    simp only [List.nil_append, disconnect_loop, if_pos he]
  | cons x rest ih =>
    intro e l2 he h
    have hrec := ih e l2 he (fun y hy => h y (List.mem_cons_of_mem _ hy))
    show disconnect_loop stage_id (x :: (rest ++ e :: l2)) = x :: (rest ++ l2)
    unfold disconnect_loop
    rw [if_neg (h x (List.mem_cons_self _ _)), hrec]

/-- C8: `ide_build_pipeline_disconnect` leaves the cursor, the requested mask,
`seqnum` and `failed` as they are; when the id is `0` or no entry has the id,
the entry array is unchanged; otherwise the array `l1 ++ e :: l2`, where `e` is
the first entry with the id, becomes `l1 ++ l2`: that entry is removed and
every other entry keeps its fields and its place relative to the others. When
the ids of the array are pairwise distinct, as they are before `seqnum` wraps,
no entry with the id is left. -/
theorem disconnect_removes_entry (self : IdeBuildPipeline) (stage_id : Nat) :
    (ide_build_pipeline_disconnect self stage_id).position = self.position ∧
    (ide_build_pipeline_disconnect self stage_id).requested_mask = self.requested_mask ∧
    (ide_build_pipeline_disconnect self stage_id).seqnum = self.seqnum ∧
    (ide_build_pipeline_disconnect self stage_id).failed = self.failed ∧
    ((stage_id = 0 ∨ ∀ e ∈ self.pipeline, e.id ≠ stage_id) →
      (ide_build_pipeline_disconnect self stage_id).pipeline = self.pipeline) ∧
    (stage_id ≠ 0 → ∀ (l1 : List PipelineEntry) (e : PipelineEntry) (l2 : List PipelineEntry),
      self.pipeline = l1 ++ e :: l2 → e.id = stage_id → (∀ x ∈ l1, x.id ≠ stage_id) →
      (ide_build_pipeline_disconnect self stage_id).pipeline = l1 ++ l2 ∧
      ((self.pipeline.map (fun x => x.id)).Nodup →
        ∀ x ∈ (ide_build_pipeline_disconnect self stage_id).pipeline, x.id ≠ stage_id)) := by
  refine ⟨?_, ?_, ?_, ?_, ?_, ?_⟩
  · unfold ide_build_pipeline_disconnect; split <;> rfl
  · unfold ide_build_pipeline_disconnect; split <;> rfl
  · unfold ide_build_pipeline_disconnect; split <;> rfl
  · unfold ide_build_pipeline_disconnect; split <;> rfl
  · intro h
    unfold ide_build_pipeline_disconnect
    split
    · rfl
    · next h0 =>
      rcases h with h | h
      · exact absurd h h0
      · show disconnect_loop stage_id self.pipeline = self.pipeline
        exact disconnect_loop_absent stage_id _ h
  · intro h0 l1 e l2 hl he hl1
    have hp : (ide_build_pipeline_disconnect self stage_id).pipeline = l1 ++ l2 := by
      unfold ide_build_pipeline_disconnect
      rw [if_neg h0]
      show disconnect_loop stage_id self.pipeline = l1 ++ l2
      rw [hl]
      exact disconnect_loop_present stage_id l1 e l2 he hl1
    refine ⟨hp, ?_⟩
    intro hnd x hx
    rw [hp] at hx
    rw [hl] at hnd
    simp only [List.map_append, List.map_cons] at hnd
    have hnd' := List.nodup_middle.1 hnd
    rw [List.nodup_cons] at hnd'
    intro hxid
    apply hnd'.1
    rw [he, ← hxid, ← List.map_append]
    exact List.mem_map_of_mem _ hx

/-! ## Phase requests -/

theorem basic_of_basic_phase : ∀ p ∈ basic_phases, basic p = p ∧ p ≠ 0 := by decide

theorem request_phase_accepted (self : IdeBuildPipeline) (phase : Nat)
    (hp : self.position = -1) (hb : basic phase ∈ basic_phases) :
    ide_build_pipeline_request_phase self phase
      = { self with
          requested_mask := self.requested_mask ||| (basic phase ||| (basic phase - 1)) } := by
  have h0 : ¬ phase &&& IDE_BUILD_PHASE_MASK = IDE_BUILD_PHASE_NONE := by
    intro h0
    have : basic phase = 0 := h0
    rw [this] at hb
    revert hb
    decide
  obtain ⟨v, hfind⟩ := (find_values_some phase h0).2 hb
  unfold ide_build_pipeline_request_phase
  rw [if_neg h0]
  simp only []
  rw [if_neg (not_not.2 hp), hfind]
  rfl

theorem request_phase_rejected (self : IdeBuildPipeline) (phase : Nat)
    (h : ¬ (self.position = -1 ∧ basic phase ∈ basic_phases)) :
    ide_build_pipeline_request_phase self phase = self := by
  unfold ide_build_pipeline_request_phase
  by_cases h0 : phase &&& IDE_BUILD_PHASE_MASK = IDE_BUILD_PHASE_NONE
  · rw [if_pos h0]
  · rw [if_neg h0]
    simp only []
    by_cases hp : self.position = -1
    · rw [if_neg (not_not.2 hp)]
      have hb : basic phase ∉ basic_phases := fun hb => h ⟨hp, hb⟩
      cases hf : ide_build_phase_values.find?
          (fun value => phase &&& IDE_BUILD_PHASE_MASK == value) with
      | none => rfl
      | some v => exact absurd ((find_values_some phase h0).1 ⟨v, hf⟩) hb
    · rw [if_pos hp]

theorem or_and_of_and (a c q : Nat) (h : c &&& q = q) : (a ||| c) &&& q = q := by
  apply Nat.eq_of_testBit_eq
  intro i
  have hi := congrArg (fun x => x.testBit i) h
  simp only [Nat.testBit_and, Nat.testBit_or] at hi ⊢
  cases a.testBit i <;> cases hc : c.testBit i <;> cases hq : q.testBit i <;> simp_all

theorem lower_bits_set : ∀ p ∈ basic_phases, ∀ q ∈ basic_phases, q ≤ p →
    (p ||| (p - 1)) &&& q = q := by decide

theorem higher_bits_clear : ∀ p ∈ basic_phases, ∀ q ∈ basic_phases, p < q →
    (0 ||| (p ||| (p - 1))) &&& q = 0 := by decide

/-- C9: for a basic phase `P` (the basic phases are the values `1 << k` for
`k` in `0, 1, 2, 3, 4, 6, 7, 8, 9`) and a pipeline whose cursor is `-1`,
`ide_build_pipeline_request_phase` sets the requested mask to
`old_mask | P | (P - 1)` and leaves everything else as it is; every basic
phase `<= P` is then in the mask, and when the old mask was empty no basic
phase above `P` is in it. -/
theorem request_phase_sets_lower_bits (self : IdeBuildPipeline)
    (hpos : self.position = -1) (P : Nat) (hP : P ∈ basic_phases) :
    basic_phases = [0, 1, 2, 3, 4, 6, 7, 8, 9].map (fun k => 1 <<< k) ∧
    ide_build_pipeline_request_phase self P
      = { self with requested_mask := self.requested_mask ||| P ||| (P - 1) } ∧
    (∀ q ∈ basic_phases, q ≤ P →
      (ide_build_pipeline_request_phase self P).requested_mask &&& q = q) ∧
    (self.requested_mask = 0 → ∀ q ∈ basic_phases, P < q →
      (ide_build_pipeline_request_phase self P).requested_mask &&& q = 0) := by
  have hbP : basic P = P := (basic_of_basic_phase P hP).1
  have hacc := request_phase_accepted self P hpos (by rw [hbP]; exact hP)
  rw [hbP] at hacc
  refine ⟨by decide, ?_, ?_, ?_⟩
  · rw [hacc, Nat.lor_assoc]
  · intro q hq hle
    rw [hacc]
    exact or_and_of_and _ _ _ (lower_bits_set P hP q hq hle)
  · intro h0 q hq hlt
    rw [hacc]
    show (self.requested_mask ||| (P ||| (P - 1))) &&& q = 0
    rw [h0]
    exact higher_bits_clear P hP q hq hlt

/-- C9, at the fresh pipeline and the phase `BUILD`: the mask becomes `127`;
`PREPARE`, `DOWNLOADS`, `DEPENDENCIES`, `AUTOGEN`, `CONFIGURE` and `BUILD`
are in it, `INSTALL`, `EXPORT` and `FINAL` are not. -/
theorem request_build_example :
    ide_build_pipeline_init.position = -1 ∧ IDE_BUILD_PHASE_BUILD ∈ basic_phases ∧
    (ide_build_pipeline_request_phase ide_build_pipeline_init IDE_BUILD_PHASE_BUILD).requested_mask
      = 127 ∧
    (∀ q ∈ [IDE_BUILD_PHASE_PREPARE, IDE_BUILD_PHASE_DOWNLOADS, IDE_BUILD_PHASE_DEPENDENCIES,
        IDE_BUILD_PHASE_AUTOGEN, IDE_BUILD_PHASE_CONFIGURE, IDE_BUILD_PHASE_BUILD],
      (ide_build_pipeline_request_phase ide_build_pipeline_init
        IDE_BUILD_PHASE_BUILD).requested_mask &&& q = q) ∧
    (∀ q ∈ [IDE_BUILD_PHASE_INSTALL, IDE_BUILD_PHASE_EXPORT, IDE_BUILD_PHASE_FINAL],
      (ide_build_pipeline_request_phase ide_build_pipeline_init
        IDE_BUILD_PHASE_BUILD).requested_mask &&& q = 0) := by
  have h := request_phase_sets_lower_bits ide_build_pipeline_init rfl IDE_BUILD_PHASE_BUILD
    (by decide)
  refine ⟨rfl, by decide, ?_, ?_, ?_⟩
  · rw [h.2.1]; decide
  · intro q hq
    have hq' : q ∈ basic_phases ∧ q ≤ IDE_BUILD_PHASE_BUILD := by
      revert q; decide
    exact h.2.2.1 q hq'.1 hq'.2
  · intro q hq
    have hq' : q ∈ basic_phases ∧ IDE_BUILD_PHASE_BUILD < q := by
      revert q; decide
    exact h.2.2.2 rfl q hq'.1 hq'.2

theorem mask_closed_under_request : ∀ m ∈ downward_closed_masks, ∀ p ∈ basic_phases,
    m ||| (p ||| (p - 1)) ∈ downward_closed_masks := by decide

theorem mask_forms : ∀ m ∈ downward_closed_masks,
    (m = 0 ∨ ∃ k ∈ [0, 1, 2, 3, 4, 6, 7, 8, 9], m = (1 <<< (k + 1)) - 1) ∧
    (∀ p ∈ basic_phases, ∀ q ∈ basic_phases, q ≤ p → m &&& p ≠ 0 → m &&& q ≠ 0) := by
  decide

theorem run_ops_mask (ops : List Op) :
    ∃ self, run_ops ide_build_pipeline_init ops = some self ∧
      ((∀ e ∈ self.pipeline, whence_ok e.phase) ∧
        self.requested_mask ∈ downward_closed_masks) := by
  refine run_ops_invariant
    (fun s => (∀ e ∈ s.pipeline, whence_ok e.phase) ∧ s.requested_mask ∈ downward_closed_masks)
    (fun _ h => h.1) ?_ ops ide_build_pipeline_init
    ⟨fun _ he => absurd he (List.not_mem_nil _), by decide⟩
  intro self self' h he
  rcases he with hf | ⟨phase, rfl⟩ | ⟨phase, priority, stage, array, _, _, hw, _, rfl, hperm, _⟩
  · exact ⟨whence_ok_of_frame hf h.1, by rw [hf.2.2]; exact h.2⟩
  · refine ⟨by rw [(request_phase_fields self phase).1]; exact h.1, ?_⟩
    by_cases hacc : self.position = -1 ∧ basic phase ∈ basic_phases
    · rw [request_phase_accepted self phase hacc.1 hacc.2]
      exact mask_closed_under_request _ h.2 _ hacc.2
    · rw [request_phase_rejected self phase hacc]
      exact h.2
  · refine ⟨?_, h.2⟩
    intro e he
    rcases List.mem_append.1 (hperm.subset he) with he | he
    · exact h.1 e he
    · rw [List.mem_singleton.1 he]; exact hw

/-- C10: in every state reached from a fresh pipeline by a sequence of
operations (phase requests with any argument, attaches, detaches,
invalidations, runs, sweeps) the requested mask is `0` or
`(1 << (k + 1)) - 1` for the bit position `k` of a basic phase, and whenever a
basic phase is in the mask every lower basic phase is in it too. -/
theorem requested_mask_downward_closed (ops : List Op) :
    ∃ self, run_ops ide_build_pipeline_init ops = some self ∧
      (self.requested_mask = 0 ∨
        ∃ k ∈ [0, 1, 2, 3, 4, 6, 7, 8, 9], self.requested_mask = (1 <<< (k + 1)) - 1) ∧
      (∀ p ∈ basic_phases, ∀ q ∈ basic_phases, q ≤ p →
        self.requested_mask &&& p ≠ 0 → self.requested_mask &&& q ≠ 0) := by
  obtain ⟨self, hrun, _, hmask⟩ := run_ops_mask ops
  exact ⟨self, hrun, mask_forms _ hmask⟩

/-! ## The sort is stable when the comparator is consistent -/

theorem msort_merge_stable {α : Type} (cmp : α → α → Option Int) (key : α → Nat) :
    ∀ (fuel : Nat) (b1 b2 : List α), b1.length + b2.length ≤ fuel →
      (∀ x ∈ b1, ∀ y ∈ b2, ∃ c, cmp x y = some c ∧ (c ≤ 0 ↔ key x ≤ key y)) →
      b1.Pairwise (fun x y => key x ≤ key y) →
      ∀ r, msort_merge cmp fuel b1 b2 = some r → ∀ k : Nat,
        r.filter (fun x => key x == k)
          = b1.filter (fun x => key x == k) ++ b2.filter (fun x => key x == k) := by
  intro fuel
  induction fuel with
  | zero =>
    intro b1 b2 hlen _ _ r hr k
    have h1 : b1 = [] := List.eq_nil_of_length_eq_zero (by omega)
    have h2 : b2 = [] := List.eq_nil_of_length_eq_zero (by omega)
    subst h1 h2
    simp only [msort_merge, List.nil_append, Option.some.injEq] at hr
    subst hr
    rfl
  | succ fuel ih =>
    intro b1 b2 hlen hcmp hp1 r hr k
    cases b1 with
    | nil =>
      have : msort_merge cmp (fuel + 1) [] b2 = some b2 := by cases b2 <;> rfl
      rw [this, Option.some.injEq] at hr
      subst hr
      rfl
    | cons x b1 =>
      cases b2 with
      | nil =>
        simp only [msort_merge, Option.some.injEq] at hr
        subst hr
        simp
      | cons y b2 =>
        obtain ⟨c, hc, hiff⟩ := hcmp x (List.mem_cons_self _ _) y (List.mem_cons_self _ _)
        simp only [List.length_cons] at hlen
        by_cases hc0 : c ≤ 0
        · simp only [msort_merge, hc, hc0, if_true, Option.map_eq_some'] at hr
          obtain ⟨r', hr', rfl⟩ := hr
          have hrec := ih b1 (y :: b2) (by simp only [List.length_cons]; omega)
            (fun a ha b hb => hcmp a (List.mem_cons_of_mem _ ha) b hb)
            (List.pairwise_cons.1 hp1).2 r' hr' k
          simp only [List.filter_cons, hrec]
          split <;> simp
        · simp only [msort_merge, hc, hc0, if_false, Option.map_eq_some'] at hr
          obtain ⟨r', hr', rfl⟩ := hr
          have hrec := ih (x :: b1) b2 (by simp only [List.length_cons]; omega)
            (fun a ha b hb => hcmp a ha b (List.mem_cons_of_mem _ hb)) hp1 r' hr' k
          have hlt : key y < key x := by
            have : ¬ key x ≤ key y := fun h => hc0 (hiff.2 h)
            omega
          by_cases hk : key y = k
          · have hempty : (x :: b1).filter (fun z => key z == k) = [] := by
              rw [List.filter_eq_nil_iff]
              intro z hz
              have hxz : key x ≤ key z := by
                rcases List.mem_cons.1 hz with rfl | hz'
                · exact le_refl _
                · exact (List.pairwise_cons.1 hp1).1 z hz'
              simp only [beq_iff_eq]
              omega
            have e1 : (y :: r').filter (fun z => key z == k)
                = y :: r'.filter (fun z => key z == k) :=
              List.filter_cons_of_pos (by simpa using hk)
            have e2 : (y :: b2).filter (fun z => key z == k)
                = y :: b2.filter (fun z => key z == k) :=
              List.filter_cons_of_pos (by simpa using hk)
            rw [e1, e2, hrec, hempty]
            rfl
          · have e1 : (y :: r').filter (fun z => key z == k)
                = r'.filter (fun z => key z == k) :=
              List.filter_cons_of_neg (by simpa using hk)
            have e2 : (y :: b2).filter (fun z => key z == k)
                = b2.filter (fun z => key z == k) :=
              List.filter_cons_of_neg (by simpa using hk)
            rw [e1, e2, hrec]

theorem msort_with_tmp_stable {α : Type} (cmp : α → α → Option Int) (key : α → Nat) :
    ∀ (fuel : Nat) (b : List α), b.length ≤ fuel →
      (∀ x ∈ b, ∀ y ∈ b, ∃ c, cmp x y = some c ∧ (c ≤ 0 ↔ key x ≤ key y)) →
      ∀ r, msort_with_tmp cmp fuel b = some r → ∀ k : Nat,
        r.filter (fun x => key x == k) = b.filter (fun x => key x == k) := by
  intro fuel
  induction fuel with
  | zero =>
    intro b _ _ r hr k
    simp only [msort_with_tmp, Option.some.injEq] at hr
    subst hr
    rfl
  | succ fuel ih =>
    intro b hlen hcmp r hr k
    by_cases hshort : b.length ≤ 1
    · simp only [msort_with_tmp, hshort, if_true, Option.some.injEq] at hr
      subst hr
      rfl
    · have htake : (b.take (b.length / 2)).length ≤ fuel := by
        rw [List.length_take]; omega
      have hdrop : (b.drop (b.length / 2)).length ≤ fuel := by
        rw [List.length_drop]; omega
      have hweak : ∀ x ∈ b, ∀ y ∈ b, ∃ c, cmp x y = some c ∧
          (c ≤ 0 → key x ≤ key y) ∧ (0 < c → key y ≤ key x) := by
        intro x hx y hy
        obtain ⟨c, hc, hiff⟩ := hcmp x hx y hy
        refine ⟨c, hc, hiff.1, fun hpos => ?_⟩
        have : ¬ key x ≤ key y := fun h => by have := hiff.2 h; omega
        omega
      obtain ⟨r1, hr1, hperm1, hs1⟩ := msort_with_tmp_spec cmp key fuel _ htake
        (fun x hx y hy => hweak x (List.mem_of_mem_take hx) y (List.mem_of_mem_take hy))
      obtain ⟨r2, hr2, hperm2, _⟩ := msort_with_tmp_spec cmp key fuel _ hdrop
        (fun x hx y hy => hweak x (List.mem_of_mem_drop hx) y (List.mem_of_mem_drop hy))
      simp only [msort_with_tmp, hshort, if_false, hr1, hr2] at hr
      have hm := msort_merge_stable cmp key (r1.length + r2.length) r1 r2 (le_refl _)
        (fun x hx y hy => hcmp x (List.mem_of_mem_take (hperm1.subset hx))
          y (List.mem_of_mem_drop (hperm2.subset hy))) hs1 r hr k
      have h1 := ih _ htake
        (fun x hx y hy => hcmp x (List.mem_of_mem_take hx) y (List.mem_of_mem_take hy)) r1 hr1 k
      have h2 := ih _ hdrop
        (fun x hx y hy => hcmp x (List.mem_of_mem_drop hx) y (List.mem_of_mem_drop hy)) r2 hr2 k
      rw [hm, h1, h2, ← List.filter_append, List.take_append_drop]

/-- The sort `g_array_sort` keeps elements of equal rank in their order when
the comparator agrees with a ranking of the elements. -/
theorem g_array_sort_stable {α : Type} (cmp : α → α → Option Int) (key : α → Nat)
    (array : List α)
    (hcmp : ∀ x ∈ array, ∀ y ∈ array, ∃ c, cmp x y = some c ∧ (c ≤ 0 ↔ key x ≤ key y))
    (r : List α) (hr : g_array_sort cmp array = some r) (k : Nat) :
    r.filter (fun x => key x == k) = array.filter (fun x => key x == k) :=
  msort_with_tmp_stable cmp key array.length array (le_refl _) hcmp r hr k

/-! ## Priorities whose differences do not overflow -/

theorem wrap_gint_small (x : Int) (h1 : -2147483648 ≤ x) (h2 : x < 2147483648) :
    wrap_gint x = x := by
  unfold wrap_gint
  omega

theorem pipeline_entry_compare_key (a b : PipelineEntry)
    (ha : whence_ok a.phase) (hb : whence_ok b.phase)
    (hpa : small_priority a.priority) (hpb : small_priority b.priority) :
    ∃ c, pipeline_entry_compare a b = some c ∧ (c ≤ 0 ↔ sort_key a ≤ sort_key b) := by
  have hw := wrap_gint_small (a.priority - b.priority)
    (by unfold small_priority at hpa hpb; omega) (by unfold small_priority at hpa hpb; omega)
  unfold pipeline_entry_compare sort_key phase_rank basic
  unfold whence_ok at ha hb
  unfold whence at *
  unfold small_priority at hpa hpb
  rw [hw]
  generalize a.phase &&& IDE_BUILD_PHASE_MASK = pa
  generalize b.phase &&& IDE_BUILD_PHASE_MASK = pb
  generalize a.phase &&& IDE_BUILD_PHASE_WHENCE_MASK = wa at ha ⊢
  generalize b.phase &&& IDE_BUILD_PHASE_WHENCE_MASK = wb at hb ⊢
  generalize a.priority = qa at hpa ⊢
  generalize b.priority = qb at hpb ⊢
  have h1 := before_ne_zero
  have h2 := after_ne_zero
  have h3 := after_ne_before
  by_cases hret : (pa : Int) - (pb : Int) = 0
  · have hpab : pa = pb := by omega
    subst hpab
    simp only [hret, if_true]
    rcases ha with ha | ha | ha <;> rcases hb with hb | hb | hb <;> subst ha <;> subst hb <;>
      simp only [h1, h2, h3, h1.symm, h2.symm, h3.symm, ne_eq, not_true_eq_false,
        not_false_eq_true, if_true, if_false, Option.some.injEq, exists_eq_left'] <;>
      omega
  · simp only [hret, if_false]
    refine ⟨_, rfl, ?_⟩
    (repeat' split) <;> omega

theorem sorted_by_compare_of_pairwise :
    ∀ l : List PipelineEntry,
      l.Pairwise (fun a b => ∃ c, pipeline_entry_compare a b = some c ∧ c ≤ 0) →
      sorted_by_compare l = true := by
  intro l
  induction l with
  | nil => intro _; rfl
  | cons a rest ih =>
    intro h
    rw [List.pairwise_cons] at h
    unfold sorted_by_compare
    rw [Bool.and_eq_true]
    refine ⟨?_, ih h.2⟩
    rw [List.all_eq_true]
    intro b hb
    obtain ⟨c, hc, hle⟩ := h.1 b hb
    simp only [hc, decide_eq_true_eq]
    exact hle

/-- While the priorities are small (between `-2 ^ 30` and `2 ^ 30`), an
accepted attach leaves the array in the order of phase rank and priority,
sorted with respect to `pipeline_entry_compare`, and the entries of one rank
and priority in the order they had, the new entry after them. -/
theorem connect_sorted_of_small_priorities (self : IdeBuildPipeline) (phase : Nat)
    (priority : Int) (stage : IdeBuildStage)
    (hv : ∀ e ∈ self.pipeline, whence_ok e.phase ∧ small_priority e.priority)
    (hp : self.position = -1) (hb : basic phase ∈ basic_phases) (hw : whence_ok phase)
    (hq : small_priority priority) :
    ∃ array, ide_build_pipeline_connect self phase priority stage
        = some (guint_incr self.seqnum,
            { self with seqnum := guint_incr self.seqnum, pipeline := array, allocated := true }) ∧
      array.Pairwise (fun x y => sort_key x ≤ sort_key y) ∧
      sorted_by_compare array = true ∧
      ∀ k : Nat, array.filter (fun e => sort_key e == k)
        = (self.pipeline ++ [new_entry self phase priority stage]).filter
            (fun e => sort_key e == k) := by
  have hall : ∀ x ∈ self.pipeline ++ [new_entry self phase priority stage],
      whence_ok x.phase ∧ small_priority x.priority := by
    intro x hx
    rcases List.mem_append.1 hx with hx | hx
    · exact hv x hx
    · rw [List.mem_singleton.1 hx]; exact ⟨hw, hq⟩
  have hkey : ∀ x ∈ self.pipeline ++ [new_entry self phase priority stage],
      ∀ y ∈ self.pipeline ++ [new_entry self phase priority stage],
      ∃ c, pipeline_entry_compare x y = some c ∧ (c ≤ 0 ↔ sort_key x ≤ sort_key y) :=
    fun x hx y hy =>
      pipeline_entry_compare_key x y (hall x hx).1 (hall y hy).1 (hall x hx).2 (hall y hy).2
  obtain ⟨array, hc, hperm, _⟩ :=
    connect_accepted self phase priority stage (fun e he => (hv e he).1) hp hb hw
  obtain ⟨array', hsort, _, hpair⟩ :=
    g_array_sort_spec pipeline_entry_compare sort_key
      (self.pipeline ++ [new_entry self phase priority stage])
      (fun x hx y hy => by
        obtain ⟨c, hc, hiff⟩ := hkey x hx y hy
        refine ⟨c, hc, hiff.1, fun hpos => ?_⟩
        have : ¬ sort_key x ≤ sort_key y := fun h => by have := hiff.2 h; omega
        omega)
  have harr : array' = array := by
    have h0 : ¬ phase &&& IDE_BUILD_PHASE_MASK = IDE_BUILD_PHASE_NONE := by
      intro h0
      have : basic phase = 0 := h0
      rw [this] at hb
      revert hb
      decide
    obtain ⟨v, hfind⟩ := (find_values_some phase h0).2 hb
    have hw' : (phase &&& IDE_BUILD_PHASE_WHENCE_MASK = 0 ∨
        phase &&& IDE_BUILD_PHASE_WHENCE_MASK = IDE_BUILD_PHASE_BEFORE ∨
        phase &&& IDE_BUILD_PHASE_WHENCE_MASK = IDE_BUILD_PHASE_AFTER) := hw
    unfold ide_build_pipeline_connect at hc
    rw [if_neg h0, if_neg (not_not.2 hw'), if_neg (not_not.2 hp), hfind] at hc
    simp only [] at hc
    unfold new_entry at hsort
    rw [hsort] at hc
    simp only [Option.some.injEq, Prod.mk.injEq, true_and] at hc
    exact congrArg (fun s => s.pipeline) hc
  subst harr
  refine ⟨array', hc, hpair, ?_, ?_⟩
  · apply sorted_by_compare_of_pairwise
    refine hpair.imp_of_mem ?_
    intro a b ha hb' hab
    obtain ⟨c, hcab, hiff⟩ := hkey a (hperm.subset ha) b (hperm.subset hb')
    exact ⟨c, hcab, hiff.2 hab⟩
  · intro k
    exact g_array_sort_stable pipeline_entry_compare sort_key _ hkey array' hsort k

/-! ## The drive loop, entry by entry -/

theorem tick_scan_cases (requested_mask : Nat) :
    ∀ (l : List PipelineEntry) (position : Nat),
      ((∀ x ∈ l, selected requested_mask x = false) ∧
        tick_scan requested_mask l position = (position + l.length, false)) ∨
      (∃ l1 e l2, l = l1 ++ e :: l2 ∧ (∀ x ∈ l1, selected requested_mask x = false) ∧
        selected requested_mask e = true ∧
        tick_scan requested_mask l position = (position + l1.length, true)) := by
  intro l
  induction l with
  | nil => intro position; exact Or.inl ⟨fun _ h => absurd h (List.not_mem_nil _), rfl⟩
  | cons a rest ih =>
    intro position
    by_cases hsel : selected requested_mask a = true
    · refine Or.inr ⟨[], a, rest, rfl, fun _ h => absurd h (List.not_mem_nil _), hsel, ?_⟩
      simp only [selected, Bool.and_eq_true, Bool.not_eq_true', decide_eq_true_eq] at hsel
      simp [tick_scan, hsel.1, hsel.2]
    · have hsel' : selected requested_mask a = false := by simpa using hsel
      have hstep : tick_scan requested_mask (a :: rest) position
          = tick_scan requested_mask rest (position + 1) := by
        simp only [selected, Bool.and_eq_false_iff, Bool.not_eq_false',
          decide_eq_false_iff_not, not_not] at hsel'
        rcases hsel' with h | h
        · simp [tick_scan, h]
        · by_cases hc : a.stage.completed = true
          · simp [tick_scan, hc]
          · simp [tick_scan, hc, h]
      rcases ih (position + 1) with ⟨hall, hscan⟩ | ⟨l1, e, l2, hl, hall, he, hscan⟩
      · refine Or.inl ⟨?_, ?_⟩
        · intro x hx
          rcases List.mem_cons.1 hx with rfl | hx
          · exact hsel'
          · exact hall x hx
        · rw [hstep, hscan, List.length_cons]
          congr 1
          omega
      · refine Or.inr ⟨a :: l1, e, l2, by rw [hl]; rfl, ?_, he, ?_⟩
        · intro x hx
          rcases List.mem_cons.1 hx with rfl | hx
          · exact hsel'
          · exact hall x hx
        · rw [hstep, hscan, List.length_cons]
          congr 1
          omega

theorem run_suffix_cons_unselected (requested_mask : Nat) (stage_ok : PipelineEntry → Bool)
    (entry : PipelineEntry) (rest : List PipelineEntry)
    (h : selected requested_mask entry = false) :
    run_suffix requested_mask stage_ok (entry :: rest)
      = { array := entry :: (run_suffix requested_mask stage_ok rest).array,
          executed := (run_suffix requested_mask stage_ok rest).executed,
          failed_stage := (run_suffix requested_mask stage_ok rest).failed_stage,
          passed := (run_suffix requested_mask stage_ok rest).passed + 1 } := by
  rw [run_suffix, if_neg (by rw [h]; exact Bool.false_ne_true)]

theorem run_suffix_cons_ok (requested_mask : Nat) (stage_ok : PipelineEntry → Bool)
    (entry : PipelineEntry) (rest : List PipelineEntry)
    (h : selected requested_mask entry = true) (hok : stage_ok entry = true) :
    run_suffix requested_mask stage_ok (entry :: rest)
      = { array := entry_set_completed entry true ::
            (run_suffix requested_mask stage_ok rest).array,
          executed := entry :: (run_suffix requested_mask stage_ok rest).executed,
          failed_stage := (run_suffix requested_mask stage_ok rest).failed_stage,
          passed := (run_suffix requested_mask stage_ok rest).passed + 1 } := by
  rw [run_suffix, if_pos h, if_pos hok]

theorem run_suffix_cons_failed (requested_mask : Nat) (stage_ok : PipelineEntry → Bool)
    (entry : PipelineEntry) (rest : List PipelineEntry)
    (h : selected requested_mask entry = true) (hok : stage_ok entry = false) :
    run_suffix requested_mask stage_ok (entry :: rest)
      = { array := entry :: rest, executed := [entry], failed_stage := some entry,
          passed := 0 } := by
  rw [run_suffix, if_pos h, if_neg (by rw [hok]; exact Bool.false_ne_true)]

theorem run_suffix_skip (requested_mask : Nat) (stage_ok : PipelineEntry → Bool) :
    ∀ (l1 rest : List PipelineEntry), (∀ x ∈ l1, selected requested_mask x = false) →
      run_suffix requested_mask stage_ok (l1 ++ rest)
        = { array := l1 ++ (run_suffix requested_mask stage_ok rest).array,
            executed := (run_suffix requested_mask stage_ok rest).executed,
            failed_stage := (run_suffix requested_mask stage_ok rest).failed_stage,
            passed := (run_suffix requested_mask stage_ok rest).passed + l1.length } := by
  intro l1
  induction l1 with
  | nil => intro rest _; rfl
  | cons a l1 ih =>
    intro rest h
    have ha := h a (List.mem_cons_self _ _)
    have hrec := ih rest (fun x hx => h x (List.mem_cons_of_mem _ hx))
    show run_suffix requested_mask stage_ok (a :: (l1 ++ rest)) = _
    rw [run_suffix_cons_unselected _ _ _ _ ha, hrec]
    simp only [List.cons_append, List.length_cons, Nat.add_assoc]

theorem tick_at_split (self : IdeBuildPipeline) (stray : StrayRead)
    (pre suf : List PipelineEntry)
    (hsplit : self.pipeline = pre ++ suf)
    (hpos : wrap_gint (self.position + 1) = pre.length) :
    ide_build_pipeline_tick self stray
      = match tick_scan self.requested_mask suf pre.length with
        | (position, true) => { self := { self with position := position }, started := true }
        | (position, false) =>
          { self :=
              (ide_build_pipeline_release_transients { self with position := position }
                stray).1,
            started := false,
            fault :=
              (ide_build_pipeline_release_transients { self with position := position }
                stray).2 } := by
  unfold ide_build_pipeline_tick
  simp only [hpos, hsplit]
  rw [if_neg (by omega), Int.toNat_ofNat, List.drop_left]

theorem getElem_at_split (pre l1 : List PipelineEntry) (e : PipelineEntry)
    (l2 : List PipelineEntry) :
    (pre ++ (l1 ++ e :: l2))[pre.length + l1.length]? = some e := by
  rw [← List.append_assoc, ← List.length_append,
    List.getElem?_append_right (le_refl _), Nat.sub_self, List.getElem?_cons_zero]

theorem set_at_split (pre l1 : List PipelineEntry) (e e' : PipelineEntry)
    (l2 : List PipelineEntry) :
    (pre ++ (l1 ++ e :: l2)).set (pre.length + l1.length) e' = (pre ++ l1 ++ [e']) ++ l2 := by
  rw [← List.append_assoc, ← List.length_append]
  simp

/-- The chain of ticks and callbacks does what `run_suffix` tells: it goes
through the entries behind the cursor, stops at the first selected entry whose
stage fails, and ends with the sweep, in which the process may fault. -/
theorem drive_eq_run_suffix (stage_ok : PipelineEntry → Bool) (stray : StrayRead) :
    ∀ (fuel : Nat) (pre suf : List PipelineEntry) (self : IdeBuildPipeline)
      (executed : List PipelineEntry),
      self.pipeline = pre ++ suf → wrap_gint (self.position + 1) = pre.length →
      self.pipeline.length < 2147483648 → suf.length < fuel →
      drive stage_ok stray fuel self executed
        = { after := (ide_build_pipeline_release_transients
              { self with
                pipeline := pre ++ (run_suffix self.requested_mask stage_ok suf).array,
                position := ((pre.length +
                  (run_suffix self.requested_mask stage_ok suf).passed : Nat) : Int),
                failed := self.failed ||
                  (run_suffix self.requested_mask stage_ok suf).failed_stage.isSome } stray).1,
            executed := executed ++ (run_suffix self.requested_mask stage_ok suf).executed,
            ok := (run_suffix self.requested_mask stage_ok suf).failed_stage.isNone,
            failed_stage := (run_suffix self.requested_mask stage_ok suf).failed_stage,
            fault := (ide_build_pipeline_release_transients
              { self with
                pipeline := pre ++ (run_suffix self.requested_mask stage_ok suf).array,
                position := ((pre.length +
                  (run_suffix self.requested_mask stage_ok suf).passed : Nat) : Int),
                failed := self.failed ||
                  (run_suffix self.requested_mask stage_ok suf).failed_stage.isSome }
              stray).2 } := by
  intro fuel
  induction fuel with
  | zero => intro pre suf self executed _ _ _ h; omega
  | succ fuel ih =>
    intro pre suf self executed hsplit hpos hbound hlen
    unfold drive
    rw [tick_at_split self stray pre suf hsplit hpos]
    rcases tick_scan_cases self.requested_mask suf pre.length with
      ⟨hall, hscan⟩ | ⟨l1, e, l2, hl, hall, he, hscan⟩
    · rw [hscan]
      have hrun := run_suffix_skip self.requested_mask stage_ok suf [] hall
      simp only [List.append_nil, run_suffix, Nat.zero_add, List.length_nil] at hrun
      simp only [hrun, Option.isSome_none, Bool.or_false, Option.isNone_none, List.append_nil,
        ← hsplit]
    · rw [hscan]
      subst hl
      simp only []
      have hget : self.pipeline[((pre.length + l1.length : Nat) : Int).toNat]? = some e := by
        rw [Int.toNat_ofNat, hsplit]
        exact getElem_at_split pre l1 e l2
      rw [hget]
      simp only []
      have hskip := run_suffix_skip self.requested_mask stage_ok l1 (e :: l2) hall
      have hsize : pre.length + l1.length + 1 + l2.length < 2147483648 := by
        rw [hsplit] at hbound
        simp only [List.length_append, List.length_cons] at hbound
        omega
      by_cases hok : stage_ok e = true
      · rw [if_pos hok]
        have hset : self.pipeline.set ((pre.length + l1.length : Nat) : Int).toNat
            (entry_set_completed e true) = (pre ++ l1 ++ [entry_set_completed e true]) ++ l2 := by
          rw [Int.toNat_ofNat, hsplit]
          exact set_at_split pre l1 e _ l2
        rw [hset]
        rw [ih (pre ++ l1 ++ [entry_set_completed e true]) l2 _ _ rfl
          (by
            show wrap_gint (((pre.length + l1.length : Nat) : Int) + 1) = _
            rw [wrap_gint_small _ (by omega) (by omega)]
            simp only [List.length_append, List.length_singleton]
            push_cast
            ring)
          (by
            show (pre ++ l1 ++ [entry_set_completed e true] ++ l2).length < 2147483648
            simp only [List.length_append, List.length_singleton]
            omega)
          (by simp only [List.length_append, List.length_cons] at hlen; omega)]
        rw [hskip, run_suffix_cons_ok _ _ _ _ he hok]
        simp only [List.append_assoc, List.singleton_append, List.length_append,
          List.length_singleton, List.cons_append, List.nil_append]
        have hidx : pre.length + (l1.length + 1) + (run_suffix self.requested_mask stage_ok l2).passed
            = pre.length + ((run_suffix self.requested_mask stage_ok l2).passed + 1 + l1.length) := by
          omega
        rw [hidx]
      · have hok' : stage_ok e = false := by simpa using hok
        rw [if_neg hok]
        rw [hskip, run_suffix_cons_failed _ _ _ _ he hok']
        simp only [Option.isSome_some, Bool.or_true, Option.isNone_some, Nat.zero_add,
          List.append_assoc, List.singleton_append, ← hsplit]

/-! ## The sweep -/

theorem eraseIdx_at_split (pre : List PipelineEntry) (a : PipelineEntry)
    (suf : List PipelineEntry) : (pre ++ a :: suf).eraseIdx pre.length = pre ++ suf := by
  induction pre with
  | nil => rfl
  | cons x pre ih => simp only [List.cons_append, List.length_cons, List.eraseIdx_cons_succ, ih]

theorem getElem_at_length (pre : List PipelineEntry) (a : PipelineEntry)
    (suf : List PipelineEntry) : (pre ++ a :: suf)[pre.length]? = some a := by
  rw [List.getElem?_append_right (le_refl _), Nat.sub_self, List.getElem?_cons_zero]

theorem release_transients_at_split (pre : List PipelineEntry) (a : PipelineEntry)
    (suf : List PipelineEntry) :
    release_transients_at (pre ++ a :: suf) pre.length
      = if a.stage.transient then pre ++ suf else pre ++ a :: suf := by
  unfold release_transients_at
  rw [getElem_at_length]
  simp only [eraseIdx_at_split]

theorem release_transients_loop_split :
    ∀ (i : Nat) (pre suf : List PipelineEntry), pre.length = i + 1 →
      release_transients_loop i (pre ++ suf)
        = pre.filter (fun e => !e.stage.transient) ++ suf := by
  intro i
  induction i with
  | zero =>
    intro pre suf hlen
    match pre, hlen with
    | [a], _ =>
      have h := release_transients_at_split [] a suf
      simp only [List.nil_append, List.length_nil] at h
      simp only [release_transients_loop, List.singleton_append, h]
      cases ht : a.stage.transient <;> simp [ht]
  | succ i ih =>
    intro pre suf hlen
    rcases List.eq_nil_or_concat' pre with hnil | ⟨pre', a, hpre⟩
    · rw [hnil] at hlen; simp at hlen
    · subst hpre
      have hlen' : pre'.length = i + 1 := by
        simp only [List.length_append, List.length_singleton] at hlen; omega
      have h := release_transients_at_split pre' a suf
      rw [hlen'] at h
      simp only [release_transients_loop, List.append_assoc, List.singleton_append, h]
      cases ht : a.stage.transient
      · simp only [Bool.false_eq_true, if_false, ih pre' (a :: suf) hlen', List.filter_append,
          List.filter_cons, ht, Bool.not_false, if_true, List.filter_nil, List.append_assoc,
          List.singleton_append]
      · simp only [if_true, ih pre' suf hlen', List.filter_append,
          List.filter_cons, ht, Bool.not_true, Bool.false_eq_true, if_false, List.filter_nil,
          List.append_nil]

theorem release_transients_loop_eq_filter (array : List PipelineEntry) :
    (match array.length with
      | 0 => array
      | len + 1 => release_transients_loop len array)
      = array.filter (fun e => !e.stage.transient) := by
  cases array with
  | nil => rfl
  | cons a rest =>
    have h := release_transients_loop_split rest.length (a :: rest) [] (by simp)
    simpa using h

theorem release_transients_eq (self : IdeBuildPipeline) (stray : StrayRead) :
    ide_build_pipeline_release_transients self stray
      = (if stray_read_faults self stray then self
          else { self with pipeline := self.pipeline.filter (fun e => !e.stage.transient) },
          stray_read_faults self stray) := by
  unfold ide_build_pipeline_release_transients
  by_cases hf : stray_read_faults self stray = true
  · rw [if_pos hf, if_pos hf, hf]
  · rw [if_neg hf, if_neg hf]
    have hf' : stray_read_faults self stray = false := by simpa using hf
    rw [hf']
    have h := release_transients_loop_eq_filter self.pipeline
    cases hl : self.pipeline.length with
    | zero =>
      simp only [hl] at h ⊢
      rw [← h]
    | succ len =>
      simp only [hl] at h ⊢
      rw [h]

theorem release_transients_harmless (self : IdeBuildPipeline) (h : self.allocated = true) :
    ide_build_pipeline_release_transients self StrayRead.harmless
      = ({ self with pipeline := self.pipeline.filter (fun e => !e.stage.transient) },
          false) := by
  have hf : stray_read_faults self StrayRead.harmless = false := by
    simp [stray_read_faults, h]
  rw [release_transients_eq, hf]
  rfl

theorem release_transients_faults (self : IdeBuildPipeline) (stray : StrayRead)
    (h : stray_read_faults self stray = true) :
    ide_build_pipeline_release_transients self stray = (self, true) := by
  rw [release_transients_eq, h]
  rfl

/-! ## Runs -/

theorem tick_nothing_behind (self : IdeBuildPipeline) (stray : StrayRead)
    (h : wrap_gint (self.position + 1) < 0 ∨
      (self.pipeline.length : Int) ≤ wrap_gint (self.position + 1)) :
    ide_build_pipeline_tick self stray
      = { self := (ide_build_pipeline_release_transients
            { self with position := wrap_gint (self.position + 1) } stray).1,
          started := false,
          fault := (ide_build_pipeline_release_transients
            { self with position := wrap_gint (self.position + 1) } stray).2 } := by
  unfold ide_build_pipeline_tick
  simp only []
  by_cases hneg : wrap_gint (self.position + 1) < 0
  · rw [if_pos hneg]
  · have h' : (self.pipeline.length : Int) ≤ wrap_gint (self.position + 1) := by
      rcases h with h | h
      · exact absurd h hneg
      · exact h
    rw [if_neg hneg]
    have hdrop : self.pipeline.drop (wrap_gint (self.position + 1)).toNat = [] := by
      apply List.drop_eq_nil_of_le
      omega
    rw [hdrop]
    simp only [tick_scan]
    rw [Int.toNat_of_nonneg (by omega)]

theorem drive_nothing_behind (stage_ok : PipelineEntry → Bool) (stray : StrayRead)
    (fuel : Nat) (self : IdeBuildPipeline) (executed : List PipelineEntry)
    (h : wrap_gint (self.position + 1) < 0 ∨
      (self.pipeline.length : Int) ≤ wrap_gint (self.position + 1)) :
    drive stage_ok stray (fuel + 1) self executed
      = { after := (ide_build_pipeline_release_transients
            { self with position := wrap_gint (self.position + 1) } stray).1,
          executed := executed, ok := true,
          fault := (ide_build_pipeline_release_transients
            { self with position := wrap_gint (self.position + 1) } stray).2 } := by
  unfold drive
  rw [tick_nothing_behind self stray h]

theorem execute_async_at_split (self : IdeBuildPipeline) (stage_ok : PipelineEntry → Bool)
    (stray : StrayRead) (pre suf : List PipelineEntry)
    (hsplit : self.pipeline = pre ++ suf)
    (hpos : wrap_gint (self.position + 1) = pre.length)
    (hbound : self.pipeline.length < 2147483648) :
    ide_build_pipeline_execute_async self none stage_ok stray
      = { after := (ide_build_pipeline_release_transients
            { self with
              pipeline := pre ++ (run_suffix self.requested_mask stage_ok suf).array,
              position := ((pre.length +
                (run_suffix self.requested_mask stage_ok suf).passed : Nat) : Int),
              failed := (run_suffix self.requested_mask stage_ok suf).failed_stage.isSome }
            stray).1,
          executed := (run_suffix self.requested_mask stage_ok suf).executed,
          ok := (run_suffix self.requested_mask stage_ok suf).failed_stage.isNone,
          failed_stage := (run_suffix self.requested_mask stage_ok suf).failed_stage,
          fault := (ide_build_pipeline_release_transients
            { self with
              pipeline := pre ++ (run_suffix self.requested_mask stage_ok suf).array,
              position := ((pre.length +
                (run_suffix self.requested_mask stage_ok suf).passed : Nat) : Int),
              failed := (run_suffix self.requested_mask stage_ok suf).failed_stage.isSome }
            stray).2 } := by
  unfold ide_build_pipeline_execute_async
  simp only [builddir_made, Option.isSome_none, Bool.false_and, Bool.not_false, if_true]
  rw [drive_eq_run_suffix stage_ok stray _ pre suf { self with failed := false } [] hsplit hpos
    hbound
    (by show suf.length < self.pipeline.length + 1
        rw [hsplit, List.length_append]; omega)]
  simp only [Bool.false_or, List.nil_append]

theorem execute_async_nothing_behind (self : IdeBuildPipeline)
    (stage_ok : PipelineEntry → Bool) (stray : StrayRead)
    (h : wrap_gint (self.position + 1) < 0 ∨
      (self.pipeline.length : Int) ≤ wrap_gint (self.position + 1)) :
    ide_build_pipeline_execute_async self none stage_ok stray
      = { after := (ide_build_pipeline_release_transients
            { self with position := wrap_gint (self.position + 1), failed := false } stray).1,
          executed := [], ok := true,
          fault := (ide_build_pipeline_release_transients
            { self with position := wrap_gint (self.position + 1), failed := false }
            stray).2 } := by
  unfold ide_build_pipeline_execute_async
  simp only [builddir_made, Option.isSome_none, Bool.false_and, Bool.not_false, if_true]
  rw [drive_nothing_behind stage_ok stray _ { self with failed := false } [] h]

theorem run_suffix_all_ok (requested_mask : Nat) (stage_ok : PipelineEntry → Bool) :
    ∀ suf : List PipelineEntry,
      (∀ e ∈ suf, selected requested_mask e = true → stage_ok e = true) →
      run_suffix requested_mask stage_ok suf
        = { array := suf.map (fun e =>
              if selected requested_mask e then entry_set_completed e true else e),
            executed := suf.filter (selected requested_mask),
            failed_stage := none, passed := suf.length } := by
  intro suf
  induction suf with
  | nil => intro _; rfl
  | cons a rest ih =>
    intro h
    have hrec := ih (fun e he => h e (List.mem_cons_of_mem _ he))
    by_cases hsel : selected requested_mask a = true
    · rw [run_suffix_cons_ok _ _ _ _ hsel (h a (List.mem_cons_self _ _) hsel), hrec]
      simp only [List.map_cons, hsel, if_true, List.filter_cons_of_pos, List.length_cons]
    · have hsel' : selected requested_mask a = false := by simpa using hsel
      rw [run_suffix_cons_unselected _ _ _ _ hsel', hrec]
      simp only [List.map_cons, hsel', Bool.false_eq_true, if_false, List.length_cons,
        List.filter_cons_of_neg (by simp [hsel'] : ¬ selected requested_mask a = true)]

theorem run_suffix_fails_at (requested_mask : Nat) (stage_ok : PipelineEntry → Bool) :
    ∀ (l1 : List PipelineEntry) (e : PipelineEntry) (l2 : List PipelineEntry),
      (∀ x ∈ l1, selected requested_mask x = true → stage_ok x = true) →
      selected requested_mask e = true → stage_ok e = false →
      run_suffix requested_mask stage_ok (l1 ++ e :: l2)
        = { array := l1.map (fun x =>
              if selected requested_mask x then entry_set_completed x true else x) ++ e :: l2,
            executed := l1.filter (selected requested_mask) ++ [e],
            failed_stage := some e, passed := l1.length } := by
  intro l1
  induction l1 with
  | nil =>
    intro e l2 _ he hfail
    rw [List.nil_append, run_suffix_cons_failed _ _ _ _ he hfail]
    rfl
  | cons a rest ih =>
    intro e l2 h he hfail
    have hrec := ih e l2 (fun x hx => h x (List.mem_cons_of_mem _ hx)) he hfail
    show run_suffix requested_mask stage_ok (a :: (rest ++ e :: l2)) = _
    by_cases hsel : selected requested_mask a = true
    · rw [run_suffix_cons_ok _ _ _ _ hsel (h a (List.mem_cons_self _ _) hsel), hrec]
      simp only [List.map_cons, hsel, if_true, List.filter_cons_of_pos, List.length_cons,
        List.cons_append]
    · have hsel' : selected requested_mask a = false := by simpa using hsel
      rw [run_suffix_cons_unselected _ _ _ _ hsel', hrec]
      simp only [List.map_cons, hsel', Bool.false_eq_true, if_false, List.length_cons,
        List.cons_append,
        List.filter_cons_of_neg (by simp [hsel'] : ¬ selected requested_mask a = true)]

theorem run_suffix_passed_of_ok (requested_mask : Nat) (stage_ok : PipelineEntry → Bool) :
    ∀ suf : List PipelineEntry,
      (run_suffix requested_mask stage_ok suf).failed_stage = none →
      (run_suffix requested_mask stage_ok suf).passed = suf.length := by
  intro suf
  induction suf with
  | nil => intro _; rfl
  | cons a rest ih =>
    intro h
    by_cases hsel : selected requested_mask a = true
    · by_cases hok : stage_ok a = true
      · rw [run_suffix_cons_ok _ _ _ _ hsel hok] at h ⊢
        simp only [List.length_cons, ih h]
      · have hok' : stage_ok a = false := by simpa using hok
        rw [run_suffix_cons_failed _ _ _ _ hsel hok'] at h
        simp at h
    · have hsel' : selected requested_mask a = false := by simpa using hsel
      rw [run_suffix_cons_unselected _ _ _ _ hsel'] at h ⊢
      simp only [List.length_cons, ih h]

theorem run_suffix_array_rel (requested_mask : Nat) (stage_ok : PipelineEntry → Bool) :
    ∀ suf : List PipelineEntry,
      List.Forall₂ (fun b a => b = a ∨ b = entry_set_completed a true)
        (run_suffix requested_mask stage_ok suf).array suf := by
  intro suf
  induction suf with
  | nil => exact List.Forall₂.nil
  | cons a rest ih =>
    by_cases hsel : selected requested_mask a = true
    · by_cases hok : stage_ok a = true
      · rw [run_suffix_cons_ok _ _ _ _ hsel hok]
        exact List.Forall₂.cons (Or.inr rfl) ih
      · have hok' : stage_ok a = false := by simpa using hok
        rw [run_suffix_cons_failed _ _ _ _ hsel hok']
        exact List.forall₂_same.2 (fun _ _ => Or.inl rfl)
    · have hsel' : selected requested_mask a = false := by simpa using hsel
      rw [run_suffix_cons_unselected _ _ _ _ hsel']
      exact List.Forall₂.cons (Or.inl rfl) ih

/-! ## Phase requests with modifier bits, invalidation, the current phase -/

theorem request_phase_congr (self : IdeBuildPipeline) (p q : Nat) (h : basic p = basic q) :
    ide_build_pipeline_request_phase self p = ide_build_pipeline_request_phase self q := by
  by_cases hacc : self.position = -1 ∧ basic p ∈ basic_phases
  · rw [request_phase_accepted self p hacc.1 hacc.2,
      request_phase_accepted self q hacc.1 (h ▸ hacc.2), h]
  · rw [request_phase_rejected self p hacc,
      request_phase_rejected self q (by rw [← h]; exact hacc)]

theorem basic_or_modifier (phase m : Nat) (hm : m &&& IDE_BUILD_PHASE_MASK = 0) :
    basic (phase ||| m) = basic phase := by
  unfold basic
  apply Nat.eq_of_testBit_eq
  intro i
  have hi := congrArg (fun x => x.testBit i) hm
  simp only [Nat.testBit_and, Nat.testBit_or, Nat.zero_testBit] at hi ⊢
  cases phase.testBit i <;> cases hmi : m.testBit i <;>
    cases hk : IDE_BUILD_PHASE_MASK.testBit i <;> simp_all

/-- C11: `ide_build_pipeline_request_phase` reads its argument through
`IDE_BUILD_PHASE_MASK` only: or-ing bits outside the mask into the argument,
such as `BEFORE | AFTER | FINISHED | FAILED`, changes nothing in what the call
does; and the call returns the pipeline as it was, requested mask and all the
rest, when the cursor is not `-1` or the masked argument is not one of the
nine basic phases, which is so for no bit, for two basic bits and for the
undefined bit `1 << 5`. -/
theorem request_phase_ignores_modifiers :
    (∀ (self : IdeBuildPipeline) (phase m : Nat), m &&& IDE_BUILD_PHASE_MASK = 0 →
      ide_build_pipeline_request_phase self (phase ||| m)
        = ide_build_pipeline_request_phase self phase) ∧
    (∀ (self : IdeBuildPipeline) (phase : Nat),
      ide_build_pipeline_request_phase self
          (phase ||| IDE_BUILD_PHASE_BEFORE ||| IDE_BUILD_PHASE_AFTER |||
            IDE_BUILD_PHASE_FINISHED ||| IDE_BUILD_PHASE_FAILED)
        = ide_build_pipeline_request_phase self phase) ∧
    (∀ (self : IdeBuildPipeline) (phase : Nat),
      ¬ (self.position = -1 ∧ basic phase ∈ basic_phases) →
      ide_build_pipeline_request_phase self phase = self) ∧
    (basic 0 ∉ basic_phases ∧
      basic (IDE_BUILD_PHASE_PREPARE ||| IDE_BUILD_PHASE_BUILD) ∉ basic_phases ∧
      basic (1 <<< 5) ∉ basic_phases ∧
      basic (IDE_BUILD_PHASE_BEFORE ||| IDE_BUILD_PHASE_FAILED) ∉ basic_phases) := by
  refine ⟨?_, ?_, ?_, by decide⟩
  · intro self phase m hm
    exact request_phase_congr self _ _ (basic_or_modifier phase m hm)
  · intro self phase
    have h : phase ||| IDE_BUILD_PHASE_BEFORE ||| IDE_BUILD_PHASE_AFTER |||
        IDE_BUILD_PHASE_FINISHED ||| IDE_BUILD_PHASE_FAILED
        = phase ||| (IDE_BUILD_PHASE_BEFORE ||| IDE_BUILD_PHASE_AFTER |||
          IDE_BUILD_PHASE_FINISHED ||| IDE_BUILD_PHASE_FAILED) := by
      simp only [Nat.lor_assoc]
    rw [h]
    exact request_phase_congr self _ _ (basic_or_modifier phase _ (by decide))
  · intro self phase h
    exact request_phase_rejected self phase h

/-- C12: `ide_build_pipeline_invalidate_phase` leaves the cursor, the requested
mask, `seqnum` and `failed` as they are and the array at its length; the entry
at each index keeps its id, phase, priority and every field of its stage but
`completed`; `completed` is `false` when the basic phase of the entry meets
the mask given, and the entry is unchanged when it does not. -/
theorem invalidate_phase_clears_completed (self : IdeBuildPipeline) (phases : Nat) :
    (ide_build_pipeline_invalidate_phase self phases).position = self.position ∧
    (ide_build_pipeline_invalidate_phase self phases).requested_mask = self.requested_mask ∧
    (ide_build_pipeline_invalidate_phase self phases).seqnum = self.seqnum ∧
    (ide_build_pipeline_invalidate_phase self phases).failed = self.failed ∧
    (ide_build_pipeline_invalidate_phase self phases).pipeline.length = self.pipeline.length ∧
    ∀ (i : Nat) (e : PipelineEntry), self.pipeline[i]? = some e →
      ∃ e', (ide_build_pipeline_invalidate_phase self phases).pipeline[i]? = some e' ∧
        e' = entry_set_completed e e'.stage.completed ∧
        (basic e.phase &&& phases ≠ 0 → e'.stage.completed = false) ∧
        (basic e.phase &&& phases = 0 → e' = e) := by
  refine ⟨rfl, rfl, rfl, rfl, ?_, ?_⟩
  · simp only [ide_build_pipeline_invalidate_phase, List.length_map]
  · intro i e he
    simp only [ide_build_pipeline_invalidate_phase, List.getElem?_map, he, Option.map_some']
    by_cases h : basic e.phase &&& phases ≠ 0
    · have h' : (e.phase &&& IDE_BUILD_PHASE_MASK) &&& phases ≠ 0 := h
      refine ⟨entry_set_completed e false, by rw [if_pos h'], rfl, fun _ => rfl,
        fun h0 => absurd h0 h⟩
    · have h' : ¬ (e.phase &&& IDE_BUILD_PHASE_MASK) &&& phases ≠ 0 := h
      refine ⟨e, by rw [if_neg h'], rfl, fun h1 => absurd h1 h, fun _ => rfl⟩

/-- C13: `ide_build_pipeline_get_phase` gives `NONE` at the cursor `-1`, and
`FINISHED` or `FAILED`, as `failed` tells, once the cursor is past the
entries; but at an entry it gives the phase of the entry as it was attached,
whence bits included: in the pipeline with stages at `CONFIGURE | BEFORE`,
`CONFIGURE` and `CONFIGURE | AFTER` the first tick stops at index `0` to
execute the first stage, and the phase reported there is
`CONFIGURE | BEFORE = 268435472`, not `CONFIGURE = 16`; at the index `2` it is
`CONFIGURE | AFTER = 536870928`. -/
theorem get_phase_keeps_whence_bits :
    run_ops ide_build_pipeline_init
        [Op.connect (IDE_BUILD_PHASE_CONFIGURE ||| IDE_BUILD_PHASE_BEFORE) 0 {},
         Op.connect IDE_BUILD_PHASE_CONFIGURE 0 {},
         Op.connect (IDE_BUILD_PHASE_CONFIGURE ||| IDE_BUILD_PHASE_AFTER) 0 {},
         Op.request_phase IDE_BUILD_PHASE_CONFIGURE]
      = some whence_pipeline ∧
    ide_build_pipeline_get_phase whence_pipeline = IDE_BUILD_PHASE_NONE ∧
    (∀ stray, ide_build_pipeline_tick whence_pipeline stray
      = { self := { whence_pipeline with position := 0 }, started := true }) ∧
    ide_build_pipeline_get_phase { whence_pipeline with position := 0 } = 268435472 ∧
    ide_build_pipeline_get_phase { whence_pipeline with position := 1 } = 16 ∧
    ide_build_pipeline_get_phase { whence_pipeline with position := 2 } = 536870928 ∧
    IDE_BUILD_PHASE_CONFIGURE = 16 ∧
    ide_build_pipeline_get_phase { whence_pipeline with position := 3 }
      = IDE_BUILD_PHASE_FINISHED ∧
    ide_build_pipeline_get_phase { whence_pipeline with position := 3, failed := true }
      = IDE_BUILD_PHASE_FAILED :=
  ⟨by decide, by decide, fun stray => by cases stray <;> rfl, by decide, by decide, by decide,
    by decide, by decide, by decide⟩

/-! ## What a run executes -/

theorem release_transients_snd (self : IdeBuildPipeline) (stray : StrayRead) :
    (ide_build_pipeline_release_transients self stray).2 = stray_read_faults self stray := by
  rw [release_transients_eq]

theorem release_transients_fst (self : IdeBuildPipeline) (stray : StrayRead) :
    (ide_build_pipeline_release_transients self stray).1
      = if stray_read_faults self stray then self
        else { self with pipeline := self.pipeline.filter (fun e => !e.stage.transient) } := by
  rw [release_transients_eq]

theorem release_transients_fst_position (self : IdeBuildPipeline) (stray : StrayRead) :
    (ide_build_pipeline_release_transients self stray).1.position = self.position := by
  rw [release_transients_fst]
  split <;> rfl

theorem release_transients_fst_allocated (self : IdeBuildPipeline) (stray : StrayRead) :
    (ide_build_pipeline_release_transients self stray).1.allocated = self.allocated := by
  rw [release_transients_fst]
  split <;> rfl

theorem release_transients_fst_pipeline (self : IdeBuildPipeline) (stray : StrayRead) :
    (ide_build_pipeline_release_transients self stray).1.pipeline
      = if stray_read_faults self stray then self.pipeline
        else self.pipeline.filter (fun e => !e.stage.transient) := by
  rw [release_transients_fst]
  split <;> rfl

theorem release_transients_fst_length_le (self : IdeBuildPipeline) (stray : StrayRead) :
    (ide_build_pipeline_release_transients self stray).1.pipeline.length
      ≤ self.pipeline.length := by
  rw [release_transients_fst_pipeline]
  split
  · exact le_refl _
  · exact List.length_filter_le _ _

theorem position_split (self : IdeBuildPipeline)
    (h : ¬ (wrap_gint (self.position + 1) < 0 ∨
      (self.pipeline.length : Int) ≤ wrap_gint (self.position + 1))) :
    ∃ pre suf, self.pipeline = pre ++ suf ∧
      wrap_gint (self.position + 1) = pre.length := by
  have h1 : 0 ≤ wrap_gint (self.position + 1) := by omega
  have h2 : wrap_gint (self.position + 1) < (self.pipeline.length : Int) := by omega
  refine ⟨self.pipeline.take (wrap_gint (self.position + 1)).toNat,
    self.pipeline.drop (wrap_gint (self.position + 1)).toNat,
    (List.take_append_drop _ _).symm, ?_⟩
  rw [List.length_take]
  omega

theorem forall₂_append_same {α : Type} (R : α → α → Prop) (hrefl : ∀ a, R a a)
    (pre : List α) {l1 l2 : List α} (h : List.Forall₂ R l1 l2) :
    List.Forall₂ R (pre ++ l1) (pre ++ l2) := by
  induction pre with
  | nil => exact h
  | cons a pre ih => exact List.Forall₂.cons (hrefl a) ih

theorem execute_async_selected (self : IdeBuildPipeline) (stage_ok : PipelineEntry → Bool)
    (stray : StrayRead) (hpos : self.position = -1)
    (hbound : self.pipeline.length < 2147483648)
    (hok : ∀ e ∈ self.pipeline, selected self.requested_mask e = true → stage_ok e = true) :
    (ide_build_pipeline_execute_async self none stage_ok stray).executed
      = self.pipeline.filter (selected self.requested_mask) ∧
    (ide_build_pipeline_execute_async self none stage_ok stray).ok = true ∧
    (ide_build_pipeline_execute_async self none stage_ok stray).failed_stage = none ∧
    (ide_build_pipeline_execute_async self none stage_ok stray).fault
      = stray_read_faults self stray ∧
    (ide_build_pipeline_execute_async self none stage_ok stray).after
      = { self with
          pipeline :=
            if stray_read_faults self stray then
              self.pipeline.map (fun e =>
                if selected self.requested_mask e then entry_set_completed e true else e)
            else
              (self.pipeline.map (fun e =>
                if selected self.requested_mask e then entry_set_completed e true
                else e)).filter (fun e => !e.stage.transient),
          position := (self.pipeline.length : Int), failed := false } := by
  rw [execute_async_at_split self stage_ok stray [] self.pipeline rfl (by rw [hpos]; rfl) hbound,
    run_suffix_all_ok self.requested_mask stage_ok self.pipeline hok,
    release_transients_eq]
  refine ⟨rfl, rfl, rfl, rfl, ?_⟩
  show (if stray_read_faults self stray = true then _ else _) = _
  by_cases hf : stray_read_faults self stray = true
  · rw [if_pos hf, if_pos hf]
    simp
  · rw [if_neg hf, if_neg hf]
    simp

/-- C14: a first run in which every selected stage succeeds executes the
stages of the entries that are not completed and whose basic phase is in the
requested mask, once each and in array order, sets `completed` on them and
returns `TRUE` on the task; but the sweep that follows starts with a read
behind the last entry, in which the process may fault, and does so for
certain when no stage was ever attached. When it does not, the array holds
afterwards the entries that are not transient, the executed ones completed,
the others as they were, and the cursor is at the former length. -/
theorem first_run_ends_in_stray_read :
    (∀ (stage_ok : PipelineEntry → Bool) (stray : StrayRead),
      (ide_build_pipeline_execute_async ide_build_pipeline_init none stage_ok stray).executed
        = [] ∧
      (ide_build_pipeline_execute_async ide_build_pipeline_init none stage_ok stray).ok
        = true ∧
      (ide_build_pipeline_execute_async ide_build_pipeline_init none stage_ok stray).fault
        = true) ∧
    (∀ (self : IdeBuildPipeline) (stage_ok : PipelineEntry → Bool) (stray : StrayRead),
      self.position = -1 → self.pipeline.length < 2147483648 →
      (∀ e ∈ self.pipeline, selected self.requested_mask e = true → stage_ok e = true) →
      (ide_build_pipeline_execute_async self none stage_ok stray).executed
        = self.pipeline.filter (selected self.requested_mask) ∧
      (ide_build_pipeline_execute_async self none stage_ok stray).ok = true ∧
      (ide_build_pipeline_execute_async self none stage_ok stray).failed_stage = none ∧
      (ide_build_pipeline_execute_async self none stage_ok stray).fault
        = stray_read_faults self stray ∧
      (ide_build_pipeline_execute_async self none stage_ok stray).after
        = { self with
            pipeline :=
              if stray_read_faults self stray then
                self.pipeline.map (fun e =>
                  if selected self.requested_mask e then entry_set_completed e true else e)
              else
                (self.pipeline.map (fun e =>
                  if selected self.requested_mask e then entry_set_completed e true
                  else e)).filter (fun e => !e.stage.transient),
            position := (self.pipeline.length : Int), failed := false }) ∧
    ((ide_build_pipeline_execute_async four_stage_pipeline none (fun _ => true)
        StrayRead.harmless).executed.map (fun e => e.phase)
      = [IDE_BUILD_PHASE_PREPARE, IDE_BUILD_PHASE_AUTOGEN, IDE_BUILD_PHASE_CONFIGURE]) ∧
    completed_flags (ide_build_pipeline_execute_async four_stage_pipeline none
        (fun _ => true) StrayRead.harmless).after
      = [(1, true), (2, true), (3, true), (4, false)] ∧
    (ide_build_pipeline_execute_async four_stage_pipeline none (fun _ => true)
        StrayRead.harmless).ok = true ∧
    (ide_build_pipeline_execute_async four_stage_pipeline none (fun _ => true)
        StrayRead.harmless).fault = false ∧
    (ide_build_pipeline_execute_async four_stage_pipeline none (fun _ => true)
        StrayRead.fault).fault = true := by
  refine ⟨?_, ?_, by decide, by decide, by decide, by decide, by decide⟩
  · intro stage_ok stray
    have h := execute_async_selected ide_build_pipeline_init stage_ok stray rfl (by decide)
      (fun _ he => absurd he (List.not_mem_nil _))
    exact ⟨h.1, h.2.1, h.2.2.2.1⟩
  · intro self stage_ok stray hpos hbound hok
    exact execute_async_selected self stage_ok stray hpos hbound hok

theorem execute_async_failing (self : IdeBuildPipeline) (stage_ok : PipelineEntry → Bool)
    (stray : StrayRead) (pre l1 : List PipelineEntry) (e : PipelineEntry)
    (l2 : List PipelineEntry)
    (hsplit : self.pipeline = pre ++ l1 ++ e :: l2)
    (hpos : wrap_gint (self.position + 1) = pre.length)
    (hbound : self.pipeline.length < 2147483648)
    (hl1 : ∀ x ∈ l1, selected self.requested_mask x = true → stage_ok x = true)
    (hsel : selected self.requested_mask e = true) (hfail : stage_ok e = false) :
    (ide_build_pipeline_execute_async self none stage_ok stray).executed
      = l1.filter (selected self.requested_mask) ++ [e] ∧
    (ide_build_pipeline_execute_async self none stage_ok stray).ok = false ∧
    (ide_build_pipeline_execute_async self none stage_ok stray).failed_stage = some e ∧
    e.stage.completed = false ∧
    (ide_build_pipeline_execute_async self none stage_ok stray).fault
      = stray_read_faults self stray ∧
    (ide_build_pipeline_execute_async self none stage_ok stray).after
      = { self with
          pipeline :=
            if stray_read_faults self stray then
              pre ++ l1.map (fun x =>
                if selected self.requested_mask x then entry_set_completed x true else x)
                ++ e :: l2
            else
              (pre ++ l1.map (fun x =>
                if selected self.requested_mask x then entry_set_completed x true else x)
                ++ e :: l2).filter (fun x => !x.stage.transient),
          position := ((pre.length + l1.length : Nat) : Int), failed := true } := by
  have hc : e.stage.completed = false := by
    simp only [selected, Bool.and_eq_true, Bool.not_eq_true'] at hsel
    exact hsel.1
  rw [execute_async_at_split self stage_ok stray pre (l1 ++ e :: l2)
      (by rw [hsplit, List.append_assoc]) hpos hbound,
    run_suffix_fails_at self.requested_mask stage_ok l1 e l2 hl1 hsel hfail,
    release_transients_eq]
  refine ⟨rfl, rfl, rfl, hc, rfl, ?_⟩
  show (if stray_read_faults self stray = true then _ else _) = _
  by_cases hf : stray_read_faults self stray = true
  · rw [if_pos hf, if_pos hf]
    simp
  · rw [if_neg hf, if_neg hf]
    simp

theorem execute_async_swept (self : IdeBuildPipeline) (stage_ok : PipelineEntry → Bool)
    (stray : StrayRead) (hbound : self.pipeline.length < 2147483648) :
    ∃ before,
      List.Forall₂ (fun b a => b = a ∨ b = entry_set_completed a true) before self.pipeline ∧
      (ide_build_pipeline_execute_async self none stage_ok stray).after.pipeline
        = (if stray_read_faults self stray then before
            else before.filter (fun e => !e.stage.transient)) ∧
      (ide_build_pipeline_execute_async self none stage_ok stray).fault
        = stray_read_faults self stray := by
  by_cases h : wrap_gint (self.position + 1) < 0 ∨
      (self.pipeline.length : Int) ≤ wrap_gint (self.position + 1)
  · refine ⟨self.pipeline, List.forall₂_same.2 (fun _ _ => Or.inl rfl), ?_, ?_⟩
    · rw [execute_async_nothing_behind self stage_ok stray h]
      exact release_transients_fst_pipeline _ stray
    · rw [execute_async_nothing_behind self stage_ok stray h]
      exact release_transients_snd _ stray
  · obtain ⟨pre, suf, hsplit, hpos⟩ := position_split self h
    refine ⟨pre ++ (run_suffix self.requested_mask stage_ok suf).array, ?_, ?_, ?_⟩
    · rw [hsplit]
      exact forall₂_append_same
        (fun (b a : PipelineEntry) => b = a ∨ b = entry_set_completed a true)
        (fun _ => Or.inl rfl) pre
        (run_suffix_array_rel self.requested_mask stage_ok suf)
    · rw [execute_async_at_split self stage_ok stray pre suf hsplit hpos hbound]
      exact release_transients_fst_pipeline _ stray
    · rw [execute_async_at_split self stage_ok stray pre suf hsplit hpos hbound]
      exact release_transients_snd _ stray

theorem execute_async_ok_behind (self : IdeBuildPipeline) (stage_ok : PipelineEntry → Bool)
    (stray : StrayRead) (hpos : -1 ≤ self.position) (hlt : self.position < 2147483646)
    (hbound : self.pipeline.length < 2147483647)
    (hok : (ide_build_pipeline_execute_async self none stage_ok stray).ok = true) :
    (((ide_build_pipeline_execute_async self none stage_ok stray).after.pipeline.length : Nat)
        : Int)
      ≤ (ide_build_pipeline_execute_async self none stage_ok stray).after.position ∧
    (ide_build_pipeline_execute_async self none stage_ok stray).after.position
      < 2147483647 := by
  have hw : wrap_gint (self.position + 1) = self.position + 1 :=
    wrap_gint_small _ (by omega) (by omega)
  by_cases h : wrap_gint (self.position + 1) < 0 ∨
      (self.pipeline.length : Int) ≤ wrap_gint (self.position + 1)
  · rw [execute_async_nothing_behind self stage_ok stray h]
    have hlen := release_transients_fst_length_le
      { self with position := wrap_gint (self.position + 1), failed := false } stray
    have hp := release_transients_fst_position
      { self with position := wrap_gint (self.position + 1), failed := false } stray
    simp only [] at hlen hp ⊢
    rw [hp]
    omega
  · obtain ⟨pre, suf, hsplit, hp⟩ := position_split self h
    rw [execute_async_at_split self stage_ok stray pre suf hsplit hp (by omega)] at hok ⊢
    have hnone : (run_suffix self.requested_mask stage_ok suf).failed_stage = none := by
      simpa using hok
    have hpassed := run_suffix_passed_of_ok self.requested_mask stage_ok suf hnone
    have hrel := (run_suffix_array_rel self.requested_mask stage_ok suf).length_eq
    have hlen3 : self.pipeline.length = pre.length + suf.length := by
      rw [hsplit, List.length_append]
    have hlen := release_transients_fst_length_le
      { self with
        pipeline := pre ++ (run_suffix self.requested_mask stage_ok suf).array,
        position := ((pre.length + (run_suffix self.requested_mask stage_ok suf).passed : Nat)
          : Int),
        failed := (run_suffix self.requested_mask stage_ok suf).failed_stage.isSome }
      stray
    have hq := release_transients_fst_position
      { self with
        pipeline := pre ++ (run_suffix self.requested_mask stage_ok suf).array,
        position := ((pre.length + (run_suffix self.requested_mask stage_ok suf).passed : Nat)
          : Int),
        failed := (run_suffix self.requested_mask stage_ok suf).failed_stage.isSome }
      stray
    simp only [List.length_append, hrel, hpassed] at hlen hq ⊢
    rw [hq]
    omega

/-- C17: `ide_build_pipeline_release_transients` starts with a read behind
the last entry, in which the process faults for certain when the array has no
memory yet, as at the fresh pipeline, and may fault otherwise; when it does
not, the function takes the entries with a transient stage out of the array
and leaves everything else. A run of the drive loop, successful or not, ends
with it: when the process does not fault, the array after the run is the array
`before` of the moment of the sweep, which has the entries of the start of the
run, some with `completed` set, without the transient ones; when it faults,
the transient entries are still there. -/
theorem sweep_faults_or_filters :
    (∀ stray, ide_build_pipeline_release_transients ide_build_pipeline_init stray
      = (ide_build_pipeline_init, true)) ∧
    (∀ (self : IdeBuildPipeline) (stray : StrayRead),
      ide_build_pipeline_release_transients self stray
        = (if stray_read_faults self stray then self
            else { self with
                    pipeline := self.pipeline.filter (fun e => !e.stage.transient) },
            stray_read_faults self stray)) ∧
    (∀ (self : IdeBuildPipeline) (stage_ok : PipelineEntry → Bool) (stray : StrayRead),
      self.pipeline.length < 2147483648 →
      ∃ before,
        List.Forall₂ (fun b a => b = a ∨ b = entry_set_completed a true) before
          self.pipeline ∧
        (ide_build_pipeline_execute_async self none stage_ok stray).fault
          = stray_read_faults self stray ∧
        (stray_read_faults self stray = true →
          (ide_build_pipeline_execute_async self none stage_ok stray).after.pipeline
            = before) ∧
        (stray_read_faults self stray = false →
          (ide_build_pipeline_execute_async self none stage_ok stray).after.pipeline
            = before.filter (fun e => !e.stage.transient) ∧
          (∀ e ∈ (ide_build_pipeline_execute_async self none stage_ok stray).after.pipeline,
            e.stage.transient = false) ∧
          (∀ e ∈ before, e.stage.transient = false →
            e ∈ (ide_build_pipeline_execute_async self none stage_ok stray).after.pipeline) ∧
          (ide_build_pipeline_execute_async self none stage_ok
            stray).after.pipeline.Sublist before)) ∧
    (ide_build_pipeline_execute_async failing_build_pipeline none (fun _ => true)
        StrayRead.harmless).after.pipeline.map (fun e => (e.id, e.stage.transient))
      = [(1, false), (2, false)] ∧
    (ide_build_pipeline_execute_async failing_build_pipeline none (fun _ => true)
        StrayRead.fault).after.pipeline.map (fun e => (e.id, e.stage.transient))
      = [(1, false), (2, false), (3, true)] ∧
    (ide_build_pipeline_execute_async failing_build_pipeline none (fun _ => true)
        StrayRead.fault).fault = true := by
  refine ⟨fun stray => by cases stray <;> rfl, release_transients_eq, ?_, by decide, by decide,
    by decide⟩
  intro self stage_ok stray hbound
  obtain ⟨before, hrel, hafter, hfault⟩ := execute_async_swept self stage_ok stray hbound
  refine ⟨before, hrel, hfault, ?_, ?_⟩
  · intro hf
    rw [hafter, if_pos hf]
  · intro hf
    have hafter' : (ide_build_pipeline_execute_async self none stage_ok stray).after.pipeline
        = before.filter (fun e => !e.stage.transient) := by
      rw [hafter, if_neg (by rw [hf]; exact Bool.false_ne_true)]
    refine ⟨hafter', ?_, ?_, ?_⟩
    · intro e he
      rw [hafter', List.mem_filter] at he
      simpa using he.2
    · intro e he ht
      rw [hafter', List.mem_filter]
      exact ⟨he, by simp [ht]⟩
    · rw [hafter']
      exact List.filter_sublist _

/-- C16: after a run in which a stage failed, `failed` is set and the sweep is
done, but the cursor stays at the entry of the failing stage, and
`ide_build_pipeline_get_phase` looks at the cursor before it looks at
`failed`: in the pipeline with stages at `PREPARE`, `BUILD` and `INSTALL`
whose stage at `BUILD` fails it reports `BUILD = 64`, not `FAILED`, unless the
process has faulted in the sweep; and in every pipeline without transient
stages it reports the phase of the entry whose stage failed, which is never
`FAILED`. -/
theorem get_phase_after_failure :
    ide_build_pipeline_get_phase
        (ide_build_pipeline_execute_async failing_build_pipeline none
          (fun x => decide (x.id ≠ 2)) StrayRead.harmless).after = IDE_BUILD_PHASE_BUILD ∧
    IDE_BUILD_PHASE_BUILD = 64 ∧ IDE_BUILD_PHASE_FAILED = 2147483648 ∧
    run_summary (ide_build_pipeline_execute_async failing_build_pipeline none
        (fun x => decide (x.id ≠ 2)) StrayRead.harmless)
      = ([1, 2], false, [(1, true), (2, false)], 1) ∧
    (ide_build_pipeline_execute_async failing_build_pipeline none
        (fun x => decide (x.id ≠ 2)) StrayRead.harmless).after.failed = true ∧
    (ide_build_pipeline_execute_async failing_build_pipeline none
        (fun x => decide (x.id ≠ 2)) StrayRead.harmless).fault = false ∧
    (ide_build_pipeline_execute_async failing_build_pipeline none
        (fun x => decide (x.id ≠ 2)) StrayRead.fault).fault = true ∧
    (∀ (self : IdeBuildPipeline) (stage_ok : PipelineEntry → Bool) (stray : StrayRead)
        (pre l1 : List PipelineEntry) (e : PipelineEntry) (l2 : List PipelineEntry),
      self.pipeline = pre ++ l1 ++ e :: l2 → wrap_gint (self.position + 1) = pre.length →
      self.pipeline.length < 2147483648 →
      (∀ x ∈ l1, selected self.requested_mask x = true → stage_ok x = true) →
      selected self.requested_mask e = true → stage_ok e = false →
      (∀ x ∈ self.pipeline, x.stage.transient = false) →
      (ide_build_pipeline_execute_async self none stage_ok stray).after.failed = true ∧
      ide_build_pipeline_get_phase
          (ide_build_pipeline_execute_async self none stage_ok stray).after
        = e.phase ∧
      e.phase ≠ IDE_BUILD_PHASE_FAILED) := by
  refine ⟨by decide, by decide, by decide, by decide, by decide, by decide, by decide, ?_⟩
  intro self stage_ok stray pre l1 e l2 hsplit hpos hbound hl1 hsel hfail hnt
  have hne : e.phase ≠ IDE_BUILD_PHASE_FAILED := by
    intro h
    simp only [selected, Bool.and_eq_true, decide_eq_true_eq] at hsel
    rw [h] at hsel
    exact hsel.2 (by
      have h0 : IDE_BUILD_PHASE_FAILED &&& IDE_BUILD_PHASE_MASK = 0 := by decide
      rw [h0, Nat.zero_and])
  have hkeep : (pre ++ l1.map (fun x =>
      if selected self.requested_mask x then entry_set_completed x true else x) ++ e :: l2).filter
        (fun x => !x.stage.transient)
      = pre ++ l1.map (fun x =>
          if selected self.requested_mask x then entry_set_completed x true else x) ++ e :: l2 := by
    rw [List.filter_eq_self]
    intro x hx
    rw [hsplit] at hnt
    simp only [List.mem_append, List.mem_map, List.mem_cons] at hx hnt
    rcases hx with (hx | ⟨y, hy, rfl⟩) | hx | hx
    · simp [hnt x (Or.inl (Or.inl hx))]
    · have := hnt y (Or.inl (Or.inr hy))
      split <;> simp [entry_set_completed, this]
    · simp [hnt x (Or.inr (Or.inl hx))]
    · simp [hnt x (Or.inr (Or.inr hx))]
  have h := execute_async_failing self stage_ok stray pre l1 e l2 hsplit hpos hbound hl1 hsel
    hfail
  rw [h.2.2.2.2.2, hkeep, ite_self]
  refine ⟨rfl, ?_, hne⟩
  unfold ide_build_pipeline_get_phase
  simp only []
  rw [if_neg (by omega), Int.toNat_ofNat, List.getElem?_append_right (by simp)]
  simp

/-- C18: `ide_build_pipeline_execute_async` does not put the cursor back to
`-1`: after a full run of the stages at `PREPARE`, `AUTOGEN`, `CONFIGURE` and
`BUILD` the cursor is at `4`; `ide_build_pipeline_invalidate_phase` with
`CONFIGURE | BUILD` clears `completed` of the two stages; and the second run,
which starts behind the last entry, executes no stage and returns `TRUE`,
leaving the stages at `CONFIGURE` and `BUILD` not completed. -/
theorem invalidated_stages_not_rerun :
    first_full_run.map run_summary
      = some ([1, 2, 3, 4], true, [(1, true), (2, true), (3, true), (4, true)], 4) ∧
    (first_full_run.map (fun run => completed_flags
        (ide_build_pipeline_invalidate_phase run.after
          (IDE_BUILD_PHASE_CONFIGURE ||| IDE_BUILD_PHASE_BUILD))))
      = some [(1, true), (2, true), (3, false), (4, false)] ∧
    second_run_invalidated.map run_summary
      = some ([], true, [(1, true), (2, true), (3, false), (4, false)], 5) ∧
    first_full_run.map (fun run => run.fault) = some false ∧
    second_run_invalidated.map (fun run => run.fault) = some false :=
  ⟨by decide, by decide, by decide, by decide, by decide⟩

theorem idle_runs_position :
    ∀ (n : Nat) (self : IdeBuildPipeline),
      self.allocated = true → self.failed = false →
      (∀ e ∈ self.pipeline, e.stage.transient = false) →
      -2147483648 ≤ self.position → self.position < 2147483648 →
      (∀ j : Nat, 1 ≤ j → j ≤ n →
        wrap_gint (self.position + j) < 0 ∨
          (self.pipeline.length : Int) ≤ wrap_gint (self.position + j)) →
      idle_runs n self = { self with position := wrap_gint (self.position + n) } := by
  intro n
  induction n with
  | zero =>
    intro self _ _ _ h1 h2 _
    show self = { self with position := wrap_gint (self.position + 0) }
    rw [Int.add_zero, wrap_gint_small _ h1 h2]
  | succ n ih =>
    intro self hall hfailed hnt h1 h2 hj
    have hkeep : self.pipeline.filter (fun e => !e.stage.transient) = self.pipeline := by
      rw [List.filter_eq_self]
      intro e he
      simp [hnt e he]
    have hstart : wrap_gint (self.position + 1) < 0 ∨
        (self.pipeline.length : Int) ≤ wrap_gint (self.position + 1) := by
      simpa using hj 1 (le_refl _) (by omega)
    have hf : stray_read_faults
        { self with position := wrap_gint (self.position + 1), failed := false }
        StrayRead.harmless = false := by
      show (!self.allocated || decide (StrayRead.harmless = StrayRead.fault)) = false
      rw [hall]
      rfl
    have hrun : (ide_build_pipeline_execute_async self none (fun _ => true)
        StrayRead.harmless).after = { self with position := wrap_gint (self.position + 1) } := by
      rw [execute_async_nothing_behind self _ StrayRead.harmless hstart, release_transients_eq]
      simp only [hf, Bool.false_eq_true, if_false, hkeep, hfailed]
    have hlo : -2147483648 ≤ wrap_gint (self.position + 1) := by
      unfold wrap_gint
      omega
    have hhi : wrap_gint (self.position + 1) < 2147483648 := by
      unfold wrap_gint
      omega
    have hwrap : ∀ j : Nat, wrap_gint (wrap_gint (self.position + 1) + j)
        = wrap_gint (self.position + ((j + 1 : Nat) : Int)) := by
      intro j
      unfold wrap_gint
      omega
    have hnext := ih { self with position := wrap_gint (self.position + 1) } hall hfailed hnt
      hlo hhi (by
        intro j hj1 hj2
        show wrap_gint (wrap_gint (self.position + 1) + j) < 0 ∨
          (self.pipeline.length : Int) ≤ wrap_gint (wrap_gint (self.position + 1) + j)
        rw [hwrap j]
        exact hj (j + 1) (by omega) (by omega))
    show idle_runs n (ide_build_pipeline_execute_async self none (fun _ => true)
      StrayRead.harmless).after = _
    rw [hrun, hnext]
    show ({ self with position := wrap_gint (wrap_gint (self.position + 1) + n) }
      : IdeBuildPipeline) = _
    rw [hwrap n]

/-- C19: the cursor is never put back, so a second run straight after a run
that returned `TRUE` starts behind the entries and executes no stage, as long
as the cursor has not come near the end of the range of `gint`; but every run
adds one to the cursor, which wraps around: at the cursor `-2` a run returns
`TRUE` without looking at any entry, and the run after it starts at the index
`0` and executes the stage there. The cursor gets to `-2` in the pipeline of
one stage at `BUILD` that was executed and invalidated, by `4294967293` further
runs. And each run ends with the sweep, in which the process may fault. -/
theorem second_run_after_wrap :
    run_summary (ide_build_pipeline_execute_async wrapped_pipeline none (fun _ => true)
        StrayRead.harmless)
      = ([], true, [(1, false)], -1) ∧
    run_summary (ide_build_pipeline_execute_async
        (ide_build_pipeline_execute_async wrapped_pipeline none (fun _ => true)
          StrayRead.harmless).after
        none (fun _ => true) StrayRead.harmless)
      = ([1], true, [(1, true)], 1) ∧
    wrap_gint (2147483647 + 1) = -2147483648 ∧
    ((ide_build_pipeline_connect ide_build_pipeline_init IDE_BUILD_PHASE_BUILD 0 {}).map
        (fun r => ide_build_pipeline_request_phase r.2 IDE_BUILD_PHASE_BUILD)
      = some single_stage_pipeline) ∧
    run_summary (ide_build_pipeline_execute_async single_stage_pipeline none (fun _ => true)
        StrayRead.harmless)
      = ([1], true, [(1, true)], 1) ∧
    invalidated_pipeline = { single_stage_pipeline with position := 1 } ∧
    idle_runs 4294967293 invalidated_pipeline = wrapped_pipeline ∧
    (∀ (self : IdeBuildPipeline) (stage_ok stage_ok' : PipelineEntry → Bool)
        (stray stray' : StrayRead),
      -1 ≤ self.position → self.position < 2147483646 →
      self.pipeline.length < 2147483647 →
      (ide_build_pipeline_execute_async self none stage_ok stray).ok = true →
      (ide_build_pipeline_execute_async
        (ide_build_pipeline_execute_async self none stage_ok stray).after
        none stage_ok' stray').executed = [] ∧
      (ide_build_pipeline_execute_async
        (ide_build_pipeline_execute_async self none stage_ok stray).after
        none stage_ok' stray').ok = true ∧
      (ide_build_pipeline_execute_async
        (ide_build_pipeline_execute_async self none stage_ok stray).after
        none stage_ok' stray').failed_stage = none ∧
      (ide_build_pipeline_execute_async
        (ide_build_pipeline_execute_async self none stage_ok stray).after
        none stage_ok' stray').fault
        = stray_read_faults self stray') ∧
    first_full_run.map run_summary
      = some ([1, 2, 3, 4], true, [(1, true), (2, true), (3, true), (4, true)], 4) ∧
    second_run.map run_summary
      = some ([], true, [(1, true), (2, true), (3, true), (4, true)], 5) := by
  have hinv : invalidated_pipeline = { single_stage_pipeline with position := 1 } := by
    decide
  refine ⟨by decide, by decide, by decide, by decide, by decide, hinv, ?_, ?_, by decide,
    by decide⟩
  · rw [hinv, idle_runs_position 4294967293 { single_stage_pipeline with position := 1 } rfl rfl
      (by decide) (by decide) (by decide) (by
        intro j hj1 hj2
        show wrap_gint (1 + (j : Int)) < 0 ∨ ((1 : Nat) : Int) ≤ wrap_gint (1 + (j : Int))
        unfold wrap_gint
        omega)]
    rfl
  intro self stage_ok stage_ok' stray stray' hpos hlt hbound hok
  obtain ⟨hb, hb2⟩ := execute_async_ok_behind self stage_ok stray hpos hlt hbound hok
  have hfr := (execute_async_frame self none stage_ok stray)
  have hge : -1 ≤ (ide_build_pipeline_execute_async self none stage_ok stray).after.position := by
    omega
  have hw : wrap_gint ((ide_build_pipeline_execute_async self none stage_ok stray).after.position
      + 1) = (ide_build_pipeline_execute_async self none stage_ok stray).after.position + 1 :=
    wrap_gint_small _ (by omega) (by omega)
  rw [execute_async_nothing_behind _ stage_ok' stray' (Or.inr (by rw [hw]; omega)),
    release_transients_eq]
  refine ⟨rfl, rfl, rfl, ?_⟩
  show (!(ide_build_pipeline_execute_async self none stage_ok stray).after.allocated
    || decide (stray' = StrayRead.fault)) = (!self.allocated || decide (stray' = StrayRead.fault))
  have hall : (ide_build_pipeline_execute_async self none stage_ok stray).after.allocated
      = self.allocated := by
    by_cases h : wrap_gint (self.position + 1) < 0 ∨
        (self.pipeline.length : Int) ≤ wrap_gint (self.position + 1)
    · rw [execute_async_nothing_behind self stage_ok stray h]
      exact release_transients_fst_allocated _ stray
    · obtain ⟨pre, suf, hsplit, hp⟩ := position_split self h
      rw [execute_async_at_split self stage_ok stray pre suf hsplit hp (by omega)]
      exact release_transients_fst_allocated _ stray
  rw [hall]

/-- C20: the run does not emit `query`: `ide_build_pipeline_tick` starts a
selected stage by `ide_build_stage_execute_async`, and the function that
emits `query` inside a pause, `_ide_build_stage_execute_with_query_async`, is
not called. In the pipeline whose stage at `CONFIGURE` has a handler of
`query` that sets it completed, the run executes that stage (and fails with it
when it fails), while `_ide_build_stage_execute_with_query_async` on the stage
emits `query`, finds the stage completed and does not execute it. -/
theorem run_does_not_emit_query :
    (∀ stray, (ide_build_pipeline_execute_async query_pipeline none (fun _ => true)
        stray).executed.map (fun e => e.id) = [1, 2]) ∧
    (∀ stray, run_stage_events (ide_build_pipeline_execute_async query_pipeline none
        (fun _ => true) stray)
      = [(1, [StageEvent.execute_async]), (2, [StageEvent.execute_async])]) ∧
    (∀ stray, run_summary (ide_build_pipeline_execute_async query_pipeline none
        (fun x => decide (x.id ≠ 1)) stray)
      = ([1], false, [(1, false), (2, false)], 0)) ∧
    (ide_build_stage_execute_with_query_async
        { observer := true, query_handlers := [StageAction.set_completed true] }).2
      = [StageEvent.query, StageEvent.returned_true] ∧
    (ide_build_stage_execute_with_query_async
        { observer := true, query_handlers := [StageAction.set_completed true] }).1.completed
      = true ∧
    (ide_build_stage_execute_with_query_async { observer := true }).2
      = [StageEvent.query, StageEvent.execute_async] :=
  ⟨fun stray => by cases stray <;> decide, fun stray => by cases stray <;> decide,
    fun stray => by cases stray <;> decide, by decide, by decide, by decide⟩

/-! ## The query-guarded execute of a stage -/

theorem emit_query_depth :
    ∀ (handlers : List StageAction) (depth depth' : Nat) (self : IdeBuildStage),
      handlers_depth depth handlers = some depth' → self.n_pause = (depth : Int) + 1 →
      emit_query self handlers
        = ({ self with n_pause := (depth' : Int) + 1,
                       completed := handlers_completed self.completed handlers }, []) := by
  intro handlers
  induction handlers with
  | nil =>
    intro depth depth' self hd hn
    simp only [handlers_depth, Option.some.injEq] at hd
    subst hd
    simp only [emit_query, handlers_completed, ← hn]
  | cons action rest ih =>
    intro depth depth' self hd hn
    cases action with
    | pause =>
      simp only [handlers_depth] at hd
      split at hd
      · rename_i hlt
        have hw : wrap_gint (self.n_pause + 1) = (depth : Int) + 1 + 1 := by
          rw [hn]
          exact wrap_gint_small _ (by omega) (by omega)
        have := ih (depth + 1) depth' (ide_build_stage_pause self) hd
          (by simp only [ide_build_stage_pause, hw]; push_cast; ring)
        simp only [emit_query, stage_action, this, List.nil_append, handlers_completed]
        rfl
      · cases hd
    | unpause =>
      cases depth with
      | zero => simp only [handlers_depth] at hd; cases hd
      | succ depth =>
        simp only [handlers_depth] at hd
        have hu : ide_build_stage_unpause self
            = ({ self with n_pause := (depth : Int) + 1 }, []) := by
          unfold ide_build_stage_unpause
          rw [if_neg (by rw [hn]; push_cast; omega)]
          simp only [hn]
          rw [if_neg (by push_cast; omega)]
          congr 2
          push_cast
          ring
        have := ih depth depth' { self with n_pause := (depth : Int) + 1 } hd rfl
        simp only [emit_query, stage_action, hu, this, List.nil_append, handlers_completed]
    | set_completed completed =>
      simp only [handlers_depth] at hd
      have := ih depth depth' (ide_build_stage_set_completed self completed) hd hn
      simp only [emit_query, stage_action, this, List.nil_append, handlers_completed]
      rfl

theorem execute_with_query_depth (self : IdeBuildStage) (k : Nat)
    (h0 : self.n_pause = 0) (hq : self.queued_execute = false)
    (hd : handlers_depth 0 self.query_handlers = some k) :
    ide_build_stage_execute_with_query_async self
      = ((ide_build_stage_unpause
            { self with queued_execute := true, n_pause := (k : Int) + 1,
                        completed := handlers_completed self.completed self.query_handlers }).1,
          StageEvent.query ::
            (ide_build_stage_unpause
              { self with queued_execute := true, n_pause := (k : Int) + 1,
                          completed :=
                            handlers_completed self.completed self.query_handlers }).2) := by
  unfold ide_build_stage_execute_with_query_async
  rw [if_neg (by rw [hq]; simp)]
  have h := emit_query_depth
    (ide_build_stage_pause { self with queued_execute := true }).query_handlers 0 k
    (ide_build_stage_pause { self with queued_execute := true }) hd
    (by simp only [ide_build_stage_pause, h0]; decide)
  simp only [] at h ⊢
  rw [h]
  rfl

theorem unpause_some_left (self : IdeBuildStage) (n : Nat) (hn : self.n_pause = (n : Int) + 2) :
    ide_build_stage_unpause self = ({ self with n_pause := (n : Int) + 1 }, []) := by
  unfold ide_build_stage_unpause
  rw [if_neg (by rw [hn]; omega)]
  simp only [hn]
  rw [if_neg (by omega)]
  congr 2
  ring

theorem unpause_last (self : IdeBuildStage) (hn : self.n_pause = 1)
    (hq : self.queued_execute = true) :
    ide_build_stage_unpause self
      = ({ self with n_pause := 0, queued_execute := false },
          [if self.completed then StageEvent.returned_true else StageEvent.execute_async]) := by
  unfold ide_build_stage_unpause
  rw [if_neg (by rw [hn]; omega)]
  simp only [hn, hq]
  by_cases hc : self.completed = true <;> simp [hc]

theorem stage_calls_cons (self : IdeBuildStage) (call : StageAction)
    (calls : List StageAction) :
    stage_calls self (call :: calls)
      = ((stage_calls (stage_action self call).1 calls).1,
          (stage_action self call).2 ++ (stage_calls (stage_action self call).1 calls).2) :=
  rfl

theorem unpause_replicate_some_left :
    ∀ (j n : Nat) (self : IdeBuildStage), self.n_pause = (n : Int) → j < n →
      stage_calls self (List.replicate j StageAction.unpause)
        = ({ self with n_pause := (n : Int) - j }, []) := by
  intro j
  induction j with
  | zero =>
    intro n self hn _
    have hself : ({ self with n_pause := (n : Int) - ((0 : Nat) : Int) } : IdeBuildStage)
        = self := by
      rw [← hn]
      simp
    simp only [stage_calls, List.replicate_zero, emit_query, hself]
  | succ j ih =>
    intro n self hn hlt
    obtain ⟨m, rfl⟩ : ∃ m, n = m + 2 := ⟨n - 2, by omega⟩
    have hu := unpause_some_left self m (by rw [hn]; push_cast; ring)
    have := ih (m + 1) { self with n_pause := (m : Int) + 1 } (by push_cast; rfl) (by omega)
    rw [List.replicate_succ, stage_calls_cons]
    simp only [stage_action, hu, this, List.nil_append]
    congr 2
    push_cast
    ring

theorem unpause_replicate_all :
    ∀ (k : Nat) (self : IdeBuildStage), self.n_pause = (k : Int) + 1 →
      self.queued_execute = true →
      stage_calls self (List.replicate (k + 1) StageAction.unpause)
        = ({ self with n_pause := 0, queued_execute := false },
            [if self.completed then StageEvent.returned_true
              else StageEvent.execute_async]) := by
  intro k
  induction k with
  | zero =>
    intro self hn hq
    have hu := unpause_last self (by rw [hn]; rfl) hq
    simp only [stage_calls, List.replicate_succ, List.replicate_zero, emit_query, stage_action,
      hu, List.append_nil]
  | succ k ih =>
    intro self hn hq
    have hu := unpause_some_left self k (by rw [hn]; push_cast; ring)
    have := ih { self with n_pause := (k : Int) + 1 } rfl hq
    rw [List.replicate_succ, stage_calls_cons]
    simp only [stage_action, hu, this, List.nil_append]

/-- C21 (amended): `_ide_build_stage_execute_with_query_async` on a stage
with pause counter `0` and no execute queued, whose handlers of `query` call
`ide_build_stage_unpause` only to match a pause one of them has made before
and leave no pause open: the signal is emitted once; when `completed` is set
after the emission the queued task returns `TRUE` and `execute_async` is not
invoked; when it is clear `execute_async` is invoked once and the task returns
what that execution returns, `TRUE` or its error; and the pause counter is `0`
and no execute is queued afterwards. -/
theorem execute_with_query_not_paused (self : IdeBuildStage) (execute_finish : Option GError)
    (h0 : self.n_pause = 0) (hq : self.queued_execute = false)
    (hd : handlers_depth 0 self.query_handlers = some 0) :
    ide_build_stage_execute_with_query_async self
      = ({ self with completed := handlers_completed self.completed self.query_handlers },
          [StageEvent.query,
           if handlers_completed self.completed self.query_handlers then StageEvent.returned_true
           else StageEvent.execute_async]) ∧
    (emit_query (ide_build_stage_pause { self with queued_execute := true })
        self.query_handlers).1.completed
      = handlers_completed self.completed self.query_handlers ∧
    (ide_build_stage_execute_with_query_async self).1.n_pause = 0 ∧
    (ide_build_stage_execute_with_query_async self).1.queued_execute = false ∧
    (handlers_completed self.completed self.query_handlers = true →
      (ide_build_stage_execute_with_query_async self).2.count StageEvent.execute_async = 0 ∧
      queued_task_return execute_finish (ide_build_stage_execute_with_query_async self).2
        = TaskReturn.boolean_true) ∧
    (handlers_completed self.completed self.query_handlers = false →
      (ide_build_stage_execute_with_query_async self).2.count StageEvent.execute_async = 1 ∧
      queued_task_return execute_finish (ide_build_stage_execute_with_query_async self).2
        = ide_build_stage_unpause_execute_cb execute_finish) ∧
    ide_build_stage_unpause_execute_cb none = TaskReturn.boolean_true ∧
    (∀ error, ide_build_stage_unpause_execute_cb (some error) = TaskReturn.error error) := by
  have hemit := emit_query_depth self.query_handlers 0 0
    (ide_build_stage_pause { self with queued_execute := true }) hd
    (by simp only [ide_build_stage_pause, h0]; decide)
  have hcall : ide_build_stage_execute_with_query_async self
      = ({ self with completed := handlers_completed self.completed self.query_handlers },
          [StageEvent.query,
           if handlers_completed self.completed self.query_handlers then StageEvent.returned_true
           else StageEvent.execute_async]) := by
    rw [execute_with_query_depth self 0 h0 hq hd, unpause_last _ (by simp) rfl]
    simp only [← h0, ← hq]
  refine ⟨hcall, ?_, ?_, ?_, ?_, ?_, rfl, fun _ => rfl⟩
  · rw [hemit]
    rfl
  · rw [hcall]
    exact h0
  · rw [hcall]
    exact hq
  · intro hc
    rw [hcall, hc]
    exact ⟨rfl, rfl⟩
  · intro hc
    rw [hcall, hc]
    exact ⟨rfl, rfl⟩

/-- C21 (amended), at a stage whose handler pauses, sets `completed` and unpauses again:
the task returns `TRUE` and the stage is not executed. -/
theorem execute_with_query_completed_example :
    ({ query_handlers := [StageAction.pause, StageAction.set_completed true,
        StageAction.unpause] } : IdeBuildStage).n_pause = 0 ∧
    handlers_depth 0 [StageAction.pause, StageAction.set_completed true, StageAction.unpause]
      = some 0 ∧
    ide_build_stage_execute_with_query_async
        { query_handlers := [StageAction.pause, StageAction.set_completed true,
            StageAction.unpause] }
      = ({ completed := true,
           query_handlers := [StageAction.pause, StageAction.set_completed true,
             StageAction.unpause] },
          [StageEvent.query, StageEvent.returned_true]) :=
  ⟨rfl, by decide,
    (execute_with_query_not_paused
      { query_handlers := [StageAction.pause, StageAction.set_completed true,
          StageAction.unpause] } none rfl rfl (by decide)).1⟩

/-- C21 (as stated, refuted): a handler calls `ide_build_stage_unpause`
without a pause of its own: the call takes the counter from `1`, the pause of
`_ide_build_stage_execute_with_query_async` itself, to `0` and starts the
execution while the signal is still being emitted; a later handler sets
`completed`. After the emission the stage is completed and not paused, and
`execute_async` has been invoked. -/
theorem execute_with_query_unmatched_unpause :
    ide_build_stage_execute_with_query_async
        { query_handlers := [StageAction.unpause, StageAction.set_completed true] }
      = ({ completed := true,
           query_handlers := [StageAction.unpause, StageAction.set_completed true] },
          [StageEvent.query, StageEvent.execute_async]) ∧
    emit_query
        (ide_build_stage_pause
          { queued_execute := true,
            query_handlers := [StageAction.unpause, StageAction.set_completed true] })
        [StageAction.unpause, StageAction.set_completed true]
      = ({ completed := true, n_pause := 0,
           query_handlers := [StageAction.unpause, StageAction.set_completed true] },
          [StageEvent.execute_async]) := by
  decide

/-- C22 (amended): when the handlers of `query`, each call of
`ide_build_stage_unpause` of theirs matching an earlier pause of theirs, leave
`k >= 1` pauses open (and the counter stays a `gint`),
`_ide_build_stage_execute_with_query_async` emits the signal and starts
nothing: the execute stays queued and the pause counter is `k`. Of the calls
of `ide_build_stage_unpause` that follow, the first `k - 1` start nothing, and
the `k`-th, which takes the counter to `0`, takes the queued task and invokes
`execute_async`, or lets the task return `TRUE` when `completed` is set by
then. -/
theorem execute_with_query_deferred (self : IdeBuildStage) (k : Nat)
    (h0 : self.n_pause = 0) (hq : self.queued_execute = false)
    (hd : handlers_depth 0 self.query_handlers = some k) (hk : 0 < k) :
    ide_build_stage_execute_with_query_async self
      = ({ self with queued_execute := true, n_pause := (k : Int),
                     completed := handlers_completed self.completed self.query_handlers },
          [StageEvent.query]) ∧
    (∀ j, j < k →
      stage_calls (ide_build_stage_execute_with_query_async self).1
          (List.replicate j StageAction.unpause)
        = ({ (ide_build_stage_execute_with_query_async self).1 with
              n_pause := (k : Int) - j }, [])) ∧
    (∀ completed,
      stage_calls
          (ide_build_stage_set_completed (ide_build_stage_execute_with_query_async self).1
            completed)
          (List.replicate k StageAction.unpause)
        = ({ (ide_build_stage_execute_with_query_async self).1 with
              n_pause := 0, queued_execute := false, completed := completed },
            [if completed then StageEvent.returned_true else StageEvent.execute_async])) ∧
    stage_calls (ide_build_stage_execute_with_query_async self).1
        (List.replicate k StageAction.unpause)
      = ({ (ide_build_stage_execute_with_query_async self).1 with
            n_pause := 0, queued_execute := false },
          [if handlers_completed self.completed self.query_handlers
            then StageEvent.returned_true else StageEvent.execute_async]) := by
  obtain ⟨m, rfl⟩ : ∃ m, k = m + 1 := ⟨k - 1, by omega⟩
  have hcall : ide_build_stage_execute_with_query_async self
      = ({ self with queued_execute := true, n_pause := ((m + 1 : Nat) : Int),
                     completed := handlers_completed self.completed self.query_handlers },
          [StageEvent.query]) := by
    rw [execute_with_query_depth self (m + 1) h0 hq hd,
      unpause_some_left _ m (by push_cast; ring)]
    simp only [Prod.mk.injEq, and_true]
    congr 1
  refine ⟨hcall, ?_, ?_, ?_⟩
  · intro j hj
    exact unpause_replicate_some_left j (m + 1) _ (by rw [hcall]) hj
  · intro completed
    exact unpause_replicate_all m _ (by rw [hcall]; simp [ide_build_stage_set_completed])
      (by rw [hcall]; rfl)
  · have := unpause_replicate_all m (ide_build_stage_execute_with_query_async self).1
      (by rw [hcall]; simp) (by rw [hcall])
    rw [this, hcall]

/-- C22 (amended), at a stage whose handlers pause twice: the call starts nothing, the
first unpause after it starts nothing, the second one starts the
execution. -/
theorem execute_with_query_deferred_example :
    ({ query_handlers := [StageAction.pause, StageAction.pause] } : IdeBuildStage).n_pause
      = 0 ∧
    handlers_depth 0 [StageAction.pause, StageAction.pause] = some 2 ∧
    ide_build_stage_execute_with_query_async
        { query_handlers := [StageAction.pause, StageAction.pause] }
      = ({ queued_execute := true, n_pause := 2,
           query_handlers := [StageAction.pause, StageAction.pause] },
          [StageEvent.query]) ∧
    stage_calls
        { queued_execute := true, n_pause := 2,
          query_handlers := [StageAction.pause, StageAction.pause] }
        [StageAction.unpause]
      = ({ queued_execute := true, n_pause := 1,
           query_handlers := [StageAction.pause, StageAction.pause] }, []) ∧
    stage_calls
        { queued_execute := true, n_pause := 2,
          query_handlers := [StageAction.pause, StageAction.pause] }
        [StageAction.unpause, StageAction.unpause]
      = ({ query_handlers := [StageAction.pause, StageAction.pause] },
          [StageEvent.execute_async]) :=
  ⟨rfl, by decide,
    (execute_with_query_deferred { query_handlers := [StageAction.pause, StageAction.pause] } 2
      rfl rfl (by decide) (by decide)).1,
    by decide, by decide⟩

/-- C22 (as stated, refuted): a handler calls `ide_build_stage_unpause`
before the pauses: the handlers pause twice and unpause once, which leaves one
pause open, but the unpause comes first, takes the counter to `0` and starts
the execution during the emission; the unpause that follows later finds
nothing queued. -/
theorem execute_with_query_early_unpause :
    ide_build_stage_execute_with_query_async
        { query_handlers := [StageAction.unpause, StageAction.pause, StageAction.pause] }
      = ({ n_pause := 1,
           query_handlers := [StageAction.unpause, StageAction.pause, StageAction.pause] },
          [StageEvent.query, StageEvent.execute_async]) ∧
    stage_calls
        { n_pause := 1,
          query_handlers := [StageAction.unpause, StageAction.pause, StageAction.pause] }
        [StageAction.unpause]
      = ({ query_handlers := [StageAction.unpause, StageAction.pause, StageAction.pause] },
          []) := by
  decide

/-- C23: `_ide_build_stage_execute_with_query_async` on a stage on which an
execute is queued already leaves the stage as it is, queued execute and pause
counter included, emits no `query`, does not invoke `execute_async`, and its
task returns the error `G_IO_ERROR_PENDING`. -/
theorem execute_with_query_pending (self : IdeBuildStage) (execute_finish : Option GError)
    (hq : self.queued_execute = true) :
    ide_build_stage_execute_with_query_async self = (self, [StageEvent.pending]) ∧
    (ide_build_stage_execute_with_query_async self).1.queued_execute = true ∧
    (ide_build_stage_execute_with_query_async self).1.n_pause = self.n_pause ∧
    (ide_build_stage_execute_with_query_async self).2.count StageEvent.query = 0 ∧
    (ide_build_stage_execute_with_query_async self).2.count StageEvent.execute_async = 0 ∧
    queued_task_return execute_finish (ide_build_stage_execute_with_query_async self).2
      = TaskReturn.error { domain := GErrorDomain.G_IO_ERROR, code := G_IO_ERROR_PENDING } := by
  have hcall : ide_build_stage_execute_with_query_async self = (self, [StageEvent.pending]) := by
    unfold ide_build_stage_execute_with_query_async
    rw [if_pos hq]
  rw [hcall]
  exact ⟨rfl, hq, rfl, rfl, rfl, rfl⟩

/-- C23, at a stage whose first call was deferred by a handler that pauses:
the second call returns the error and the stage is as the first call left
it. -/
theorem execute_with_query_pending_example :
    ide_build_stage_execute_with_query_async { query_handlers := [StageAction.pause] }
      = ({ queued_execute := true, n_pause := 1, query_handlers := [StageAction.pause] },
          [StageEvent.query]) ∧
    ide_build_stage_execute_with_query_async
        { queued_execute := true, n_pause := 1, query_handlers := [StageAction.pause] }
      = ({ queued_execute := true, n_pause := 1, query_handlers := [StageAction.pause] },
          [StageEvent.pending]) :=
  ⟨by decide,
    (execute_with_query_pending
      { queued_execute := true, n_pause := 1, query_handlers := [StageAction.pause] }
      none rfl).1⟩

/-! ## The readers of a subprocess -/

theorem observe_stream_all (self : IdeBuildStage) (stream_type : IdeBuildLogStream)
    (hobs : self.observer = true) :
    ∀ lines : List (List Nat), (∀ l ∈ lines, 0 < l.length ∧ l.length < G_MAXSSIZE) →
      ide_build_stage_observe_stream_cb self stream_type lines
        = (lines.map (fun l =>
            { stream := stream_type, message := l, message_len := (l.length : Int) }), []) := by
  intro lines
  induction lines with
  | nil => intro _; rfl
  | cons line rest ih =>
    intro h
    have hrest := ih (fun l hl => h l (List.mem_cons_of_mem _ hl))
    rw [ide_build_stage_observe_stream_cb, if_pos (h line (List.mem_cons_self _ _)), hrest]
    simp only [ide_build_stage_log, hobs, if_true, List.map_cons, List.singleton_append]

theorem observe_stream_stops (self : IdeBuildStage) (stream_type : IdeBuildLogStream)
    (hobs : self.observer = true) (rest : List (List Nat)) :
    ∀ lines : List (List Nat), (∀ l ∈ lines, 0 < l.length ∧ l.length < G_MAXSSIZE) →
      ide_build_stage_observe_stream_cb self stream_type (lines ++ [] :: rest)
        = (lines.map (fun l =>
            { stream := stream_type, message := l, message_len := (l.length : Int) }),
           rest) := by
  intro lines
  induction lines with
  | nil =>
    intro _
    rw [List.nil_append, ide_build_stage_observe_stream_cb,
      if_neg (by simp)]
    rfl
  | cons line tail ih =>
    intro h
    have htail := ih (fun l hl => h l (List.mem_cons_of_mem _ hl))
    rw [List.cons_append, ide_build_stage_observe_stream_cb,
      if_pos (h line (List.mem_cons_self _ _)), htail]
    simp only [ide_build_stage_log, hobs, if_true, List.map_cons, List.singleton_append]

/-- C24: a reader started by `ide_build_stage_log_subprocess` forwards the
lines of its stream to the observer once each, in order and with the tag of
the stream, as long as no line is empty; but at an empty line `n_read` is `0`,
the test `n_read > 0` fails and the reader is freed although the stream is
not closed, so that the lines behind the empty line are never read: of the
stdout lines `a`, empty, `b` only `a` reaches the observer. -/
theorem reader_stops_at_empty_line :
    ide_build_stage_log_subprocess { observer := true } (some [[101]])
        (some [[97], [], [98]])
      = { stderr :=
            ([{ stream := IdeBuildLogStream.stderr, message := [101], message_len := 1 }], []),
          stdout :=
            ([{ stream := IdeBuildLogStream.stdout, message := [97], message_len := 1 }],
              [[98]]) } ∧
    (∀ (self : IdeBuildStage) (stream_type : IdeBuildLogStream) (lines : List (List Nat)),
      self.observer = true → (∀ l ∈ lines, 0 < l.length ∧ l.length < G_MAXSSIZE) →
      ide_build_stage_observe_stream self stream_type lines
        = (lines.map (fun l =>
            { stream := stream_type, message := l, message_len := (l.length : Int) }), [])) ∧
    (∀ (self : IdeBuildStage) (stream_type : IdeBuildLogStream)
        (lines rest : List (List Nat)),
      self.observer = true → (∀ l ∈ lines, 0 < l.length ∧ l.length < G_MAXSSIZE) →
      ide_build_stage_observe_stream self stream_type (lines ++ [] :: rest)
        = (lines.map (fun l =>
            { stream := stream_type, message := l, message_len := (l.length : Int) }),
           rest)) := by
  refine ⟨by decide, ?_, ?_⟩
  · intro self stream_type lines hobs h
    exact observe_stream_all self stream_type hobs lines h
  · intro self stream_type lines rest hobs h
    exact observe_stream_stops self stream_type hobs rest lines h

/-! ## The flags of a launcher stage -/

theorem clear_flag_step (g n : Nat) (hg : g < 4294967296) :
    (if g &&& 2 ^ n ≠ 0 then g &&& flags_complement (2 ^ n) else g)
      = g &&& flags_complement (2 ^ n) := by
  split
  · rfl
  · rename_i h
    have h' : g &&& 2 ^ n = 0 := by simpa using h
    apply Nat.eq_of_testBit_eq
    intro i
    have hb := congrArg (fun x => x.testBit i) h'
    have h32 : (4294967295 : Nat) = 2 ^ 32 - 1 := by norm_num
    simp only [flags_complement, Nat.testBit_and, Nat.testBit_xor, h32,
      Nat.testBit_two_pow_sub_one, Nat.testBit_two_pow, Nat.zero_testBit] at hb ⊢
    by_cases hi : i < 32
    · by_cases hn : n = i
      · simp [hn] at hb ⊢
        simp [hb]
      · simp [hi, hn]
    · have : g.testBit i = false :=
        Nat.testBit_eq_false_of_lt (lt_of_lt_of_le hg (by
          have : (4294967296 : Nat) = 2 ^ 32 := by norm_num
          rw [this]
          exact Nat.pow_le_pow_right (by norm_num) (by omega)))
      simp [this]

theorem launcher_execute_flags_eq (f : Nat) (hf : f < 4294967296) :
    launcher_execute_flags f
      = (((f &&& flags_complement (2 ^ 5)) &&& flags_complement (2 ^ 6))
          &&& flags_complement (2 ^ 1)) ||| 2 ^ 2 ||| 2 ^ 4 := by
  have h1 : f &&& flags_complement (2 ^ 5) < 4294967296 := lt_of_le_of_lt Nat.and_le_left hf
  have h2 : (f &&& flags_complement (2 ^ 5)) &&& flags_complement (2 ^ 6) < 4294967296 :=
    lt_of_le_of_lt Nat.and_le_left h1
  unfold launcher_execute_flags
  simp only [G_SUBPROCESS_FLAGS_STDERR_SILENCE, G_SUBPROCESS_FLAGS_STDERR_MERGE,
    G_SUBPROCESS_FLAGS_STDIN_INHERIT, G_SUBPROCESS_FLAGS_STDOUT_PIPE,
    G_SUBPROCESS_FLAGS_STDERR_PIPE, Nat.one_shiftLeft]
  rw [clear_flag_step f 5 hf, clear_flag_step _ 6 h1, clear_flag_step _ 1 h2]

theorem launcher_execute_flags_testBit (f : Nat) (hf : f < 4294967296) (i : Nat) :
    (launcher_execute_flags f).testBit i
      = (decide (i = 2) || decide (i = 4) ||
          (f.testBit i && !decide (i = 1) && !decide (i = 5) && !decide (i = 6))) := by
  have h32 : (4294967295 : Nat) = 2 ^ 32 - 1 := by norm_num
  rw [launcher_execute_flags_eq f hf]
  simp only [flags_complement, Nat.testBit_and, Nat.testBit_or, Nat.testBit_xor, h32,
    Nat.testBit_two_pow_sub_one, Nat.testBit_two_pow]
  by_cases hi : i < 32
  · by_cases h1 : i = 1 <;> by_cases h2 : i = 2 <;> by_cases h4 : i = 4 <;>
      by_cases h5 : i = 5 <;> by_cases h6 : i = 6 <;>
      simp [hi, h1, h2, h4, h5, h6, eq_comm]
  · have hfi : f.testBit i = false :=
      Nat.testBit_eq_false_of_lt (lt_of_lt_of_le hf (by
        have : (4294967296 : Nat) = 2 ^ 32 := by norm_num
        rw [this]
        exact Nat.pow_le_pow_right (by norm_num) (by omega)))
    have h2 : ¬ 2 = i := by omega
    have h4 : ¬ 4 = i := by omega
    have h2' : ¬ i = 2 := by omega
    have h4' : ¬ i = 4 := by omega
    simp [hfi, h2, h4, h2', h4']

theorem launcher_execute_flags_lt (f : Nat) (hf : f < 4294967296) :
    launcher_execute_flags f < 4294967296 := by
  have h32 : (4294967296 : Nat) = 2 ^ 32 := by norm_num
  rw [h32]
  apply Nat.lt_pow_two_of_testBit
  intro i hi
  rw [launcher_execute_flags_testBit f hf i]
  have hfi : f.testBit i = false :=
    Nat.testBit_eq_false_of_lt (lt_of_lt_of_le hf (by
      rw [h32]
      exact Nat.pow_le_pow_right (by norm_num) hi))
  have h2' : ¬ i = 2 := by omega
  have h4' : ¬ i = 4 := by omega
  simp [hfi, h2', h4']

/-- C25: for launcher flags `f` (32 bits), the execution of a launcher stage
sets the flags of the launcher to `f` with the bits `1` (stdin-inherit), `5`
(stderr-silence) and `6` (stderr-merge) cleared and the bits `2` (stdout-pipe)
and `4` (stderr-pipe) set, every other bit as in `f`; and doing so twice gives
what doing so once gives. -/
theorem launcher_flags_forced (f : Nat) (hf : f < 4294967296) :
    ide_build_stage_launcher_execute_async (some f) = some (launcher_execute_flags f) ∧
    (G_SUBPROCESS_FLAGS_STDIN_INHERIT = 2 ^ 1 ∧ G_SUBPROCESS_FLAGS_STDOUT_PIPE = 2 ^ 2 ∧
      G_SUBPROCESS_FLAGS_STDERR_PIPE = 2 ^ 4 ∧ G_SUBPROCESS_FLAGS_STDERR_SILENCE = 2 ^ 5 ∧
      G_SUBPROCESS_FLAGS_STDERR_MERGE = 2 ^ 6) ∧
    (∀ i, (launcher_execute_flags f).testBit i
      = (decide (i = 2) || decide (i = 4) ||
          (f.testBit i && !decide (i = 1) && !decide (i = 5) && !decide (i = 6)))) ∧
    launcher_execute_flags f < 4294967296 ∧
    launcher_execute_flags (launcher_execute_flags f) = launcher_execute_flags f := by
  refine ⟨rfl, by decide, launcher_execute_flags_testBit f hf,
    launcher_execute_flags_lt f hf, ?_⟩
  apply Nat.eq_of_testBit_eq
  intro i
  rw [launcher_execute_flags_testBit _ (launcher_execute_flags_lt f hf) i,
    launcher_execute_flags_testBit f hf i]
  by_cases h1 : i = 1 <;> by_cases h2 : i = 2 <;> by_cases h4 : i = 4 <;>
    by_cases h5 : i = 5 <;> by_cases h6 : i = 6 <;> simp [h1, h2, h4, h5, h6]

/-- C25, at the flags stdin-pipe, stdin-inherit, stderr-silence and
stderr-merge (`99`): the execution leaves stdin-pipe, stdout-pipe and
stderr-pipe (`21`). -/
theorem launcher_flags_example :
    (99 : Nat) < 4294967296 ∧
    ide_build_stage_launcher_execute_async (some 99) = some (launcher_execute_flags 99) ∧
    launcher_execute_flags 99 = 21 ∧ launcher_execute_flags 21 = 21 :=
  ⟨by decide, (launcher_flags_forced 99 (by decide)).1, by decide, by decide⟩

/-! ## The build directory, the sweep once more, the comparator, the addin -/

theorem release_transients_fst_failed (self : IdeBuildPipeline) (stray : StrayRead) :
    (ide_build_pipeline_release_transients self stray).1.failed = self.failed := by
  rw [release_transients_fst]
  split <;> rfl

theorem tick_failed (self : IdeBuildPipeline) (stray : StrayRead) :
    (ide_build_pipeline_tick self stray).self.failed = self.failed := by
  unfold ide_build_pipeline_tick
  simp only []
  split
  · exact release_transients_fst_failed _ stray
  · split
    · rfl
    · exact release_transients_fst_failed _ stray

theorem drive_builddir_error (stage_ok : PipelineEntry → Bool) (stray : StrayRead) :
    ∀ (fuel : Nat) (self : IdeBuildPipeline) (executed : List PipelineEntry),
      (drive stage_ok stray fuel self executed).builddir_error = none := by
  intro fuel
  induction fuel with
  | zero => intro self executed; rfl
  | succ fuel ih =>
    intro self executed
    unfold drive
    split
    · rfl
    · split
      · rfl
      · split
        · exact ih _ _
        · rfl

theorem drive_failed (stage_ok : PipelineEntry → Bool) (stray : StrayRead) :
    ∀ (fuel : Nat) (self : IdeBuildPipeline) (executed : List PipelineEntry),
      self.failed = false →
      (drive stage_ok stray fuel self executed).after.failed
        = !(drive stage_ok stray fuel self executed).ok := by
  intro fuel
  induction fuel with
  | zero => intro self executed h; exact h
  | succ fuel ih =>
    intro self executed h
    unfold drive
    have ht := tick_failed self stray
    rw [h] at ht
    split
    · next s1 f heq => rw [heq] at ht; exact ht
    · next s1 f heq =>
      rw [heq] at ht
      split
      · exact ht
      · split
        · exact ih _ _ ht
        · exact release_transients_fst_failed _ stray

theorem drive_fuel (stage_ok : PipelineEntry → Bool) (stray : StrayRead)
    (self : IdeBuildPipeline) (executed : List PipelineEntry) (fuel : Nat)
    (hbound : self.pipeline.length < 2147483648) (hfuel : self.pipeline.length < fuel) :
    drive stage_ok stray fuel self executed
      = drive stage_ok stray (self.pipeline.length + 1) self executed := by
  by_cases h : wrap_gint (self.position + 1) < 0 ∨
      (self.pipeline.length : Int) ≤ wrap_gint (self.position + 1)
  · obtain ⟨fuel', rfl⟩ : ∃ fuel', fuel = fuel' + 1 := ⟨fuel - 1, by omega⟩
    rw [drive_nothing_behind stage_ok stray fuel' self executed h,
      drive_nothing_behind stage_ok stray self.pipeline.length self executed h]
  · obtain ⟨pre, suf, hsplit, hpos⟩ := position_split self h
    have hlen : suf.length ≤ self.pipeline.length := by
      rw [hsplit, List.length_append]
      omega
    rw [drive_eq_run_suffix stage_ok stray fuel pre suf self executed hsplit hpos hbound
        (by omega),
      drive_eq_run_suffix stage_ok stray (self.pipeline.length + 1) pre suf self executed hsplit
        hpos hbound (by omega)]

/-- C26: the run goes on to the drive loop exactly when
`g_file_make_directory_with_parents` returned `TRUE` or failed with
`G_IO_ERROR_EXISTS`; when it failed with another error, the task of the run
returns that very error, no stage is executed, the transient stages are not
released and nothing but `failed`, which is cleared, changes; otherwise the
run is what the drive loop makes of it, the error it may return is not one of
the build directory, and the loop comes to its end within `len + 1` ticks. -/
theorem builddir_error_ends_run (self : IdeBuildPipeline) (mkdir : Option GError)
    (stage_ok : PipelineEntry → Bool) (stray : StrayRead) :
    (builddir_made mkdir = true ↔
      (mkdir = none ∨
        mkdir = some { domain := GErrorDomain.G_IO_ERROR, code := G_IO_ERROR_EXISTS })) ∧
    (∀ error : GError, mkdir = some error →
      error ≠ { domain := GErrorDomain.G_IO_ERROR, code := G_IO_ERROR_EXISTS } →
      ide_build_pipeline_execute_async self mkdir stage_ok stray
        = { after := { self with failed := false }, executed := [], ok := false,
            failed_stage := none, builddir_error := some error, fault := false }) ∧
    (builddir_made mkdir = true →
      ide_build_pipeline_execute_async self mkdir stage_ok stray
        = ide_build_pipeline_execute_async self none stage_ok stray ∧
      ide_build_pipeline_execute_async self mkdir stage_ok stray
        = drive stage_ok stray (self.pipeline.length + 1) { self with failed := false } [] ∧
      (ide_build_pipeline_execute_async self mkdir stage_ok stray).builddir_error = none) ∧
    (self.pipeline.length < 2147483648 → ∀ fuel, self.pipeline.length < fuel →
      drive stage_ok stray fuel { self with failed := false } []
        = drive stage_ok stray (self.pipeline.length + 1) { self with failed := false } []) ∧
    ide_build_pipeline_execute_async four_stage_pipeline
        (some { domain := GErrorDomain.G_IO_ERROR, code := 14 }) (fun _ => true) stray
      = { after := four_stage_pipeline, executed := [], ok := false, failed_stage := none,
          builddir_error := some { domain := GErrorDomain.G_IO_ERROR, code := 14 },
          fault := false } := by
  have hiff : builddir_made mkdir = true ↔
      (mkdir = none ∨
        mkdir = some { domain := GErrorDomain.G_IO_ERROR, code := G_IO_ERROR_EXISTS }) := by
    cases mkdir with
    | none => simp [builddir_made]
    | some error =>
      cases error with
      | mk domain code =>
        simp [builddir_made, g_error_matches]
  refine ⟨hiff, ?_, ?_, ?_, rfl⟩
  · intro error herr hne
    have hb : builddir_made mkdir = false := by
      rw [← Bool.not_eq_true, hiff, herr]
      rintro (h | h)
      · exact Option.noConfusion h
      · exact hne (Option.some.inj h)
    subst herr
    unfold ide_build_pipeline_execute_async
    simp only [hb, Bool.false_eq_true, if_false]
  · intro h
    have h1 : ide_build_pipeline_execute_async self mkdir stage_ok stray
        = drive stage_ok stray (self.pipeline.length + 1) { self with failed := false } [] := by
      unfold ide_build_pipeline_execute_async
      simp only [h, if_true]
    refine ⟨?_, h1, ?_⟩
    · rw [h1]
      rfl
    · rw [h1]
      exact drive_builddir_error _ _ _ _ _
  · intro hbound fuel hfuel
    exact drive_fuel stage_ok stray { self with failed := false } [] fuel hbound hfuel

/-- C27: the loop of `ide_build_pipeline_release_transients` starts at the
index `len`, not `len - 1`: the first element it reads is the one at the
length of the array, where there is none; for the empty array that is the
index `0`, for an array of four entries the index `4`. In the fresh pipeline,
whose array has no memory, the process faults on that read. -/
theorem release_transients_reads_past_end :
    (∀ self : IdeBuildPipeline,
      (release_transients_reads self.pipeline.length).head? = some self.pipeline.length ∧
      self.pipeline.length ∈ release_transients_reads self.pipeline.length ∧
      self.pipeline[self.pipeline.length]? = none) ∧
    ide_build_pipeline_init.pipeline.length = 0 ∧
    release_transients_reads ide_build_pipeline_init.pipeline.length = [0] ∧
    four_stage_pipeline.pipeline.length = 4 ∧
    release_transients_reads four_stage_pipeline.pipeline.length = [4, 3, 2, 1, 0] ∧
    (∀ stray,
      (ide_build_pipeline_release_transients ide_build_pipeline_init stray).2 = true) ∧
    (ide_build_pipeline_release_transients four_stage_pipeline StrayRead.fault).2 = true := by
  refine ⟨?_, rfl, rfl, rfl, rfl, fun stray => by cases stray <;> rfl, rfl⟩
  intro self
  have hhead : (release_transients_reads self.pipeline.length).head?
      = some self.pipeline.length := by
    cases self.pipeline.length <;> rfl
  refine ⟨hhead, ?_, ?_⟩
  · exact List.mem_of_mem_head? hhead
  · exact List.getElem?_eq_none (le_refl _)

/-- C28: for two entries whose whence bits are none, `BEFORE` alone or `AFTER`
alone, as `ide_build_pipeline_connect` requires of every phase it accepts,
`pipeline_entry_compare` returns a value and does not reach
`g_assert_not_reached`. -/
theorem compare_total_on_attachable (a b : PipelineEntry)
    (ha : whence_ok a.phase) (hb : whence_ok b.phase) :
    ∃ c, pipeline_entry_compare a b = some c := by
  obtain ⟨c, hc, _⟩ := pipeline_entry_compare_rank a b ha hb
  exact ⟨c, hc⟩

/-- C28, at a stage attached at `BUILD | AFTER` and one attached at
`BUILD | BEFORE`. -/
theorem compare_total_example :
    whence_ok (IDE_BUILD_PHASE_BUILD ||| IDE_BUILD_PHASE_AFTER) ∧
    whence_ok (IDE_BUILD_PHASE_BUILD ||| IDE_BUILD_PHASE_BEFORE) ∧
    (∃ c, pipeline_entry_compare
        { id := 1, phase := IDE_BUILD_PHASE_BUILD ||| IDE_BUILD_PHASE_AFTER, priority := 0,
          stage := {} }
        { id := 2, phase := IDE_BUILD_PHASE_BUILD ||| IDE_BUILD_PHASE_BEFORE, priority := 0,
          stage := {} } = some c) :=
  ⟨Or.inr (Or.inr (by decide)), Or.inr (Or.inl (by decide)),
    compare_total_on_attachable
      { id := 1, phase := IDE_BUILD_PHASE_BUILD ||| IDE_BUILD_PHASE_AFTER, priority := 0,
        stage := {} }
      { id := 2, phase := IDE_BUILD_PHASE_BUILD ||| IDE_BUILD_PHASE_BEFORE, priority := 0,
        stage := {} }
      (Or.inr (Or.inr (by decide))) (Or.inr (Or.inl (by decide)))⟩

/-- C29: `register_configure_stage` attaches the stage that runs `configure`
at `AUTOGEN`, not at `CONFIGURE`: after the addin was loaded into a fresh
pipeline the stages with the ids `1` (autoreconf) and `2` (configure) are at
`AUTOGEN = 8`, those with the ids `3` and `4` at `BUILD` and `INSTALL`, none is
at `CONFIGURE = 16`; and a run for which `AUTOGEN` alone was requested
executes the configure stage. -/
theorem autotools_configure_at_autogen :
    (ide_autotools_pipeline_addin_load ide_build_pipeline_init fresh_autotools_project).map
        (fun r => r.1)
      = some { autoreconf := some 1, configure := some 2, make_all := some 3,
               make_install := some 4 } ∧
    (ide_autotools_pipeline_addin_load ide_build_pipeline_init fresh_autotools_project).map
        (fun r => r.2.pipeline.map (fun e => (e.id, e.phase)))
      = some [(1, IDE_BUILD_PHASE_AUTOGEN), (2, IDE_BUILD_PHASE_AUTOGEN),
              (3, IDE_BUILD_PHASE_BUILD), (4, IDE_BUILD_PHASE_INSTALL)] ∧
    (ide_autotools_pipeline_addin_load ide_build_pipeline_init fresh_autotools_project).map
        (fun r => (ide_build_pipeline_execute_async
          (ide_build_pipeline_request_phase r.2 IDE_BUILD_PHASE_AUTOGEN) none
          (fun _ => true) StrayRead.harmless).executed.map (fun e => e.id))
      = some [1, 2] ∧
    IDE_BUILD_PHASE_AUTOGEN = 8 ∧ IDE_BUILD_PHASE_CONFIGURE = 16 :=
  ⟨by decide, by decide, by decide, by decide, by decide⟩

/-- C30: when making the build directory fails, the task of the run returns
an error, but `failed` is clear and the signal `finished` is emitted with
`FALSE`; in a run that gets to the drive loop `failed`, and with it the
argument of `finished`, is set exactly when the task returns an error. -/
theorem finished_flag_after_builddir_error (self : IdeBuildPipeline)
    (stage_ok : PipelineEntry → Bool) (stray : StrayRead) (mkdir : Option GError) :
    builddir_made (some { domain := GErrorDomain.G_IO_ERROR, code := 14 }) = false ∧
    (ide_build_pipeline_execute_async self
      (some { domain := GErrorDomain.G_IO_ERROR, code := 14 }) stage_ok stray).ok = false ∧
    (ide_build_pipeline_execute_async self
      (some { domain := GErrorDomain.G_IO_ERROR, code := 14 }) stage_ok stray).after.failed
      = false ∧
    ide_build_pipeline_notify_completed
        (ide_build_pipeline_execute_async self
          (some { domain := GErrorDomain.G_IO_ERROR, code := 14 }) stage_ok stray).after
      = false ∧
    (builddir_made mkdir = false →
      (ide_build_pipeline_execute_async self mkdir stage_ok stray).ok = false ∧
      (ide_build_pipeline_execute_async self mkdir stage_ok stray).builddir_error = mkdir ∧
      (ide_build_pipeline_execute_async self mkdir stage_ok stray).after.failed = false ∧
      ide_build_pipeline_notify_completed
          (ide_build_pipeline_execute_async self mkdir stage_ok stray).after = false) ∧
    (builddir_made mkdir = true →
      ide_build_pipeline_notify_completed
          (ide_build_pipeline_execute_async self mkdir stage_ok stray).after
        = !(ide_build_pipeline_execute_async self mkdir stage_ok stray).ok) := by
  refine ⟨by decide, rfl, rfl, rfl, ?_, ?_⟩
  · intro h
    unfold ide_build_pipeline_execute_async
    simp only [h]
    exact ⟨rfl, rfl, rfl, rfl⟩
  · intro h
    unfold ide_build_pipeline_notify_completed ide_build_pipeline_execute_async
    simp only [h, if_true]
    exact drive_failed stage_ok stray _ { self with failed := false } [] rfl

end IdeBuild
